import Mathlib

/-!
# The nRF eMSPI controller driver (`drivers/mspi/mspi_nrfe.c`)

A shallow embedding of the application-core side of the eMSPI driver: the
receive callbacks (`ep_bound`, `ep_recv`), the send pipeline
(`mspi_ipc_data_send`), the response wait (`nrfe_mspi_wait_for_response`),
the round trip (`send_data`), the configuration entry points (`api_config`,
`api_dev_config`) and the transfer path (`xfer_packet`, `start_next_packet`,
`api_transceive`).

The driver's file-scope variables, the caller's memory and the driver's
surroundings (the IPC channel, the coprocessor's responses, the uptime
clock) are the fields of one record, `World`; every C function becomes a
function `World → Int × World` (or `World → World` for a `void` one).  The
four preprocessor switches the file is compiled under are the Boolean fields
of `Build`, so that one definition covers every build.

## The surroundings

* `chan` scripts the results of the coming `ipc_service_send` calls, one
  entry per call, with the milliseconds the call takes.  When the script is
  used up the channel accepts the message and reports its length.
* `inbox` scripts what the coprocessor delivers while the driver waits: each
  entry is a stretch of `elapsed` milliseconds at the end of which the
  callbacks of `arrivals` run.  A blocking `k_sem_take` and each `k_sleep` of
  the polling loop consume entries.  When the script is used up nothing
  arrives any more, and a wait can only end at its deadline.
* `calls`, `waits`, `trips`, `mismatches`, `state_reads` and `buffers` are
  observation logs: they record what the driver did and are never read by it.

## Layout

The definitions come first: the constants and types of the headers, the
kernel primitives, the functions of the driver in the order of the C file,
then the vocabulary of the specification and the worlds of the examples.
The theorems follow: lemmas on what each function leaves alone and what it
logs, and at the end one section per claim of the specification.
-/

namespace MspiNrfe

/-! ## Constants of the platform headers -/

/-- Zephyr `errno.h`: I/O error. -/
def EIO : Int := 5
/-- Zephyr `errno.h`: no more contexts (what `k_sem_take` reports on a timeout). -/
def EAGAIN : Int := 11
/-- Zephyr `errno.h`: not enough core. -/
def ENOMEM : Int := 12
/-- Zephyr `errno.h`: bad address. -/
def EFAULT : Int := 14
/-- Zephyr `errno.h`: invalid argument. -/
def EINVAL : Int := 22
/-- Zephyr `errno.h`: connection timed out. -/
def ETIMEDOUT : Int := 116
/-- Zephyr `errno.h`: unsupported value. -/
def ENOTSUP : Int := 134

/-- The number of values of a `uint32_t` (and of `size_t` on this 32-bit target). -/
def UINT32_MOD : Nat := 4294967296

/-- The macro `IPC_TIMEOUT_MS` of the driver. -/
def IPC_TIMEOUT_MS : Nat := 100

/-- The macro `EP_SEND_TIMEOUT_MS` of the driver. -/
def EP_SEND_TIMEOUT_MS : Nat := 10

/-- Zephyr `pinctrl.h`: the identifier of the default pin state. -/
def PINCTRL_STATE_DEFAULT : Nat := 0

/-- Unsigned 32-bit subtraction `a - b`. -/
def sub_u32 (a b : Nat) : Nat := (a % UINT32_MOD + UINT32_MOD - b % UINT32_MOD) % UINT32_MOD

/-- The switches and constants the file is compiled with.  The constants come
from Kconfig, the devicetree and `nrfe_mspi.h`, none of which is part of the
translated file, so they are left as parameters. -/
structure Build where
  /-- `CONFIG_MULTITHREADING`: semaphores instead of the atomic bit field. -/
  CONFIG_MULTITHREADING : Bool
  /-- `CONFIG_SYS_CLOCK_EXISTS`: deadlines read the uptime clock instead of counting. -/
  CONFIG_SYS_CLOCK_EXISTS : Bool
  /-- `CONFIG_MSPI_NRFE_IPC_NO_COPY`: messages go by reference. -/
  CONFIG_MSPI_NRFE_IPC_NO_COPY : Bool
  /-- `CONFIG_MSPI_NRFE_FAULT_TIMER`: the fault timer handshake is compiled in. -/
  CONFIG_MSPI_NRFE_FAULT_TIMER : Bool
  /-- `MAX_TX_MSG_SIZE`, the size of the `sram_tx` region. -/
  MAX_TX_MSG_SIZE : Nat
  /-- `CONFIG_MSPI_COMPLETION_TIMEOUT_TOLERANCE`. -/
  CONFIG_MSPI_COMPLETION_TIMEOUT_TOLERANCE : Nat
  /-- `NRFE_MSPI_PINS_MAX`. -/
  NRFE_MSPI_PINS_MAX : Nat
  /-- `sizeof(nrfe_mspi_opcode_t)`. -/
  sizeof_opcode : Nat
  /-- `sizeof(void *)`. -/
  sizeof_ptr : Nat
  /-- `sizeof(nrfe_mspi_pinctrl_soc_pin_msg_t)`. -/
  sizeof_pin_msg : Nat
  /-- `sizeof(nrfe_mspi_dev_config_msg_t)`. -/
  sizeof_dev_config_msg : Nat
  /-- `sizeof(nrfe_mspi_xfer_config_msg_t)`. -/
  sizeof_xfer_config_msg : Nat
  /-- `sizeof(nrfe_mspi_xfer_packet_msg_t)`. -/
  sizeof_xfer_packet_msg : Nat

/-! ## Types of the headers -/

/-- Modelled from the spec: the opcode enumeration of `nrfe_mspi.h`, which is
not part of the translated file.  The constructors are the enumerators the
driver names; `NRFE_MSPI_OTHER` stands for every other value an opcode byte
can hold. -/
inductive nrfe_mspi_opcode_t where
  | NRFE_MSPI_EP_BOUNDED
  | NRFE_MSPI_CONFIG_TIMER_PTR
  | NRFE_MSPI_CONFIG_PINS
  | NRFE_MSPI_CONFIG_DEV
  | NRFE_MSPI_CONFIG_XFER
  | NRFE_MSPI_TX
  | NRFE_MSPI_TXRX
  | NRFE_MSPI_SDP_APP_HARD_FAULT
  | NRFE_MSPI_OTHER (raw : Nat)
  deriving DecidableEq, Repr

open nrfe_mspi_opcode_t

/-- Zephyr `mspi.h`: `enum mspi_op_mode`. -/
inductive mspi_op_mode where
  | MSPI_OP_MODE_CONTROLLER
  | MSPI_OP_MODE_PERIPHERAL
  deriving DecidableEq, Repr

/-- Zephyr `mspi.h`: `enum mspi_io_mode`. -/
inductive mspi_io_mode where
  | MSPI_IO_MODE_SINGLE
  | MSPI_IO_MODE_DUAL
  | MSPI_IO_MODE_DUAL_1_1_2
  | MSPI_IO_MODE_DUAL_1_2_2
  | MSPI_IO_MODE_QUAD
  | MSPI_IO_MODE_QUAD_1_1_4
  | MSPI_IO_MODE_QUAD_1_4_4
  | MSPI_IO_MODE_OCTAL
  | MSPI_IO_MODE_OCTAL_1_1_8
  | MSPI_IO_MODE_OCTAL_1_8_8
  | MSPI_IO_MODE_HEX
  | MSPI_IO_MODE_HEX_8_8_16
  | MSPI_IO_MODE_HEX_8_16_16
  | MSPI_IO_MODE_MAX
  deriving DecidableEq, Repr

/-- Zephyr `mspi.h`: `enum mspi_data_rate`. -/
inductive mspi_data_rate where
  | MSPI_DATA_RATE_SINGLE
  | MSPI_DATA_RATE_S_S_D
  | MSPI_DATA_RATE_S_D_D
  | MSPI_DATA_RATE_DUAL
  | MSPI_DATA_RATE_MAX
  deriving DecidableEq, Repr

/-- Zephyr `mspi.h`: `enum mspi_xfer_direction`. -/
inductive mspi_xfer_direction where
  | MSPI_RX
  | MSPI_TX
  deriving DecidableEq, Repr

open mspi_op_mode mspi_io_mode mspi_data_rate mspi_xfer_direction

/-- Zephyr `mspi.h`, `enum mspi_dev_cfg_mask`: the bits the driver tests. -/
def MSPI_DEVICE_CONFIG_FREQUENCY : Nat := 2
/-- Bit 2 of `enum mspi_dev_cfg_mask`. -/
def MSPI_DEVICE_CONFIG_IO_MODE : Nat := 4
/-- Bit 3 of `enum mspi_dev_cfg_mask`. -/
def MSPI_DEVICE_CONFIG_DATA_RATE : Nat := 8
/-- Bit 7 of `enum mspi_dev_cfg_mask`. -/
def MSPI_DEVICE_CONFIG_DQS : Nat := 128
/-- Bit 14 of `enum mspi_dev_cfg_mask`. -/
def MSPI_DEVICE_CONFIG_MEM_BOUND : Nat := 16384
/-- Bit 15 of `enum mspi_dev_cfg_mask`. -/
def MSPI_DEVICE_CONFIG_BREAK_TIME : Nat := 32768

/-- The C test `param_mask & bit`. -/
def mask_has (param_mask bit : Nat) : Bool := (param_mask &&& bit) != 0

/-- The fields of `struct mspi_cfg` the driver reads. -/
structure mspi_cfg where
  op_mode : mspi_op_mode
  dqs_support : Bool
  max_freq : Nat
  deriving DecidableEq, Repr

/-- Zephyr `pinctrl.h`: `struct pinctrl_state`; `pin_cnt` is the length of `pins`. -/
structure pinctrl_state where
  id : Nat
  pins : List Nat
  deriving DecidableEq, Repr

/-- Zephyr `pinctrl.h`: `struct pinctrl_dev_config`.  `states` is the array,
`state_cnt` the count stored next to it, and `past_end` is what the memory
behind the array holds, read as a `pinctrl_state`. -/
structure pinctrl_dev_config where
  states : List pinctrl_state
  state_cnt : Nat
  past_end : pinctrl_state
  deriving DecidableEq, Repr

/-- The driver's `struct mspi_nrfe_config`. -/
structure mspi_nrfe_config where
  mspicfg : mspi_cfg
  pcfg : pinctrl_dev_config
  deriving DecidableEq, Repr

/-- Zephyr `mspi.h`: `struct mspi_dt_spec`, with `bus->config` resolved. -/
structure mspi_dt_spec where
  bus_config : mspi_nrfe_config
  config : mspi_cfg
  deriving DecidableEq, Repr

/-- Zephyr `mspi.h`: `struct mspi_dev_id`. -/
structure mspi_dev_id where
  dev_idx : Nat
  deriving DecidableEq, Repr

/-- The fields of `struct mspi_dev_cfg` the driver reads. -/
structure mspi_dev_cfg where
  ce_num : Nat
  freq : Nat
  io_mode : mspi_io_mode
  data_rate : mspi_data_rate
  cpp : Nat
  ce_polarity : Nat
  dqs_enable : Bool
  mem_boundary : Nat
  time_to_break : Nat
  deriving DecidableEq, Repr

/-- Zephyr `mspi.h`: `struct mspi_xfer_packet`; `data_buf` is an address in the caller's memory. -/
structure mspi_xfer_packet where
  dir : mspi_xfer_direction
  cmd : Nat
  address : Nat
  num_bytes : Nat
  data_buf : Nat
  deriving DecidableEq, Repr

/-- The fields of `struct mspi_xfer` the driver reads; `packets = none` is a null pointer. -/
structure mspi_xfer where
  async : Bool
  cmd_length : Nat
  addr_length : Nat
  hold_ce : Bool
  tx_dummy : Nat
  rx_dummy : Nat
  timeout : Nat
  packets : Option (List mspi_xfer_packet)
  num_packet : Nat
  deriving DecidableEq, Repr

/-! ## Messages of `nrfe_mspi.h` -/

/-- Modelled from the spec: the pin message of `nrfe_mspi.h` (a pin array up to a
fixed maximum count), with the members the driver writes; `pin[i]` is `none`
where the driver never wrote it. -/
structure nrfe_mspi_pinctrl_soc_pin_msg_t where
  opcode : nrfe_mspi_opcode_t
  pin : List (Option Nat)
  deriving DecidableEq, Repr

/-- Modelled from the spec: the device configuration of `nrfe_mspi.h` (mode,
frequency and polarity fields), with the members the driver writes. -/
structure nrfe_mspi_dev_config_t where
  io_mode : mspi_io_mode
  cpp : Nat
  ce_polarity : Nat
  freq : Nat
  ce_index : Nat
  deriving DecidableEq, Repr

/-- Modelled from the spec: the device message of `nrfe_mspi.h` (device index and
the device configuration). -/
structure nrfe_mspi_dev_config_msg_t where
  opcode : nrfe_mspi_opcode_t
  device_index : Nat
  dev_config : nrfe_mspi_dev_config_t
  deriving DecidableEq, Repr

/-- Modelled from the spec: the transfer configuration of `nrfe_mspi.h` (device
index, field widths, timing flags), with the members the driver writes. -/
structure nrfe_mspi_xfer_config_t where
  device_index : Nat
  command_length : Nat
  address_length : Nat
  hold_ce : Bool
  tx_dummy : Nat
  rx_dummy : Nat
  deriving DecidableEq, Repr

/-- Modelled from the spec: the transfer-config message of `nrfe_mspi.h`. -/
structure nrfe_mspi_xfer_config_msg_t where
  opcode : nrfe_mspi_opcode_t
  xfer_config : nrfe_mspi_xfer_config_t
  deriving DecidableEq, Repr

/-- Modelled from the spec: the payload of a packet message of `nrfe_mspi.h`
(inline or referenced), as the driver fills it: the bytes copied behind the header
(copy build), a pointer to the bytes copied behind the header (zero-copy
build, misaligned buffer), or the caller's buffer address. -/
inductive packet_data where
  | inline_bytes (bytes : List Nat)
  | embedded_copy (bytes : List Nat)
  | caller_buffer (addr : Nat)
  deriving DecidableEq, Repr

/-- Modelled from the spec: the packet message of `nrfe_mspi.h` (command, address,
byte count, payload). -/
structure nrfe_mspi_xfer_packet_msg_t where
  opcode : nrfe_mspi_opcode_t
  command : Nat
  address : Nat
  num_bytes : Nat
  data : packet_data
  deriving DecidableEq, Repr

/-- What the driver hands to `send_data`. -/
inductive Msg where
  | pins (m : nrfe_mspi_pinctrl_soc_pin_msg_t)
  | dev_config (m : nrfe_mspi_dev_config_msg_t)
  | xfer_config (m : nrfe_mspi_xfer_config_msg_t)
  | xfer_packet (m : nrfe_mspi_xfer_packet_msg_t)
  deriving DecidableEq, Repr

/-- Modelled from the spec: a message of the coprocessor as `ep_recv` gets it: the opcode of
`nrfe_mspi_flpr_response_msg_t`, the length `len`, and the bytes from the
`data` member on. -/
structure Resp where
  opcode : nrfe_mspi_opcode_t
  len : Nat
  data : List Nat
  deriving DecidableEq, Repr

/-! ## The surroundings -/

/-- A callback of the endpoint. -/
inductive IpcEvent where
  | bound
  | received (msg : Resp)
  deriving DecidableEq, Repr

/-- One scripted `ipc_service_send` result. -/
structure SendStep where
  rc : Int
  elapsed : Nat
  deriving DecidableEq, Repr

/-- One scripted stretch of waiting: `elapsed` ms pass, then `arrivals` are delivered. -/
structure Batch where
  elapsed : Nat
  arrivals : List IpcEvent
  deriving DecidableEq, Repr

/-- One logged `ipc_service_send(&ep, data, len)` call with its result.
`by_reference` tells that `data` was the address of a pointer to the message. -/
structure IpcCall where
  data : Msg
  by_reference : Bool
  len : Nat
  rc : Int
  deriving DecidableEq, Repr

/-- The driver's `struct mspi_nrfe_data`. -/
structure mspi_nrfe_data where
  xfer_config_msg : nrfe_mspi_xfer_config_msg_t
  deriving DecidableEq, Repr

/-- The three semaphores of the threaded build. -/
inductive Sem where
  | ipc_sem
  | ipc_sem_cfg
  | ipc_sem_xfer
  deriving DecidableEq, Repr

/-- The driver's variables, the caller's memory, the surroundings and the logs. -/
structure World where
  /-- `static size_t ipc_received`. -/
  ipc_received : Nat
  /-- `static uint8_t *ipc_receive_buffer`: `none` is `NULL`, `some bs` points at the bytes `bs`. -/
  ipc_receive_buffer : Option (List Nat)
  /-- Count of `ipc_sem`. -/
  ipc_sem : Nat
  /-- Count of `ipc_sem_cfg`. -/
  ipc_sem_cfg : Nat
  /-- Count of `ipc_sem_xfer`. -/
  ipc_sem_xfer : Nat
  /-- `ipc_atomic_sem`, as the list of the opcodes whose bit is set. -/
  ipc_atomic_sem : List nrfe_mspi_opcode_t
  /-- `static struct mspi_nrfe_data dev_data`. -/
  dev_data : mspi_nrfe_data
  /-- The caller's memory, byte by address. -/
  mem : Nat → Nat
  /-- Milliseconds since boot. -/
  uptime : Nat
  /-- Script of the coming `ipc_service_send` results. -/
  chan : List SendStep
  /-- Script of the coming deliveries. -/
  inbox : List Batch
  /-- Log of the `ipc_service_send` calls. -/
  calls : List IpcCall
  /-- Log of the `nrfe_mspi_wait_for_response` calls: opcode and timeout. -/
  waits : List (nrfe_mspi_opcode_t × Nat)
  /-- Log of the `send_data` results. -/
  trips : List (nrfe_mspi_opcode_t × Int)
  /-- Log of the staged-length mismatches: requested and staged byte count. -/
  mismatches : List (Nat × Nat)
  /-- Log of the indices at which `api_config` read the `states` array. -/
  state_reads : List Nat
  /-- Log of the buffers that `xfer_packet` declares: the length `len` of each
  `uint8_t buffer[len]`. -/
  buffers : List Nat

/-! ## Kernel primitives -/

/-- Zephyr `k_uptime_get_32()`. -/
def k_uptime_get_32 (w : World) : Nat := w.uptime % UINT32_MOD

/-- Count of a semaphore. -/
def sem_count (w : World) : Sem → Nat
  | Sem.ipc_sem => w.ipc_sem
  | Sem.ipc_sem_cfg => w.ipc_sem_cfg
  | Sem.ipc_sem_xfer => w.ipc_sem_xfer

/-- Store the count of a semaphore. -/
def sem_set (w : World) (s : Sem) (n : Nat) : World :=
  match s with
  | Sem.ipc_sem => { w with ipc_sem := n }
  | Sem.ipc_sem_cfg => { w with ipc_sem_cfg := n }
  | Sem.ipc_sem_xfer => { w with ipc_sem_xfer := n }

/-- Zephyr `k_sem_give` on a semaphore of limit 1 (`K_SEM_DEFINE(_, 0, 1)`). -/
def k_sem_give (s : Sem) (w : World) : World :=
  if sem_count w s < 1 then sem_set w s (sem_count w s + 1) else w

/-- Zephyr `atomic_set_bit(&ipc_atomic_sem, bit)`. -/
def atomic_set_bit (w : World) (bit : nrfe_mspi_opcode_t) : World :=
  if bit ∈ w.ipc_atomic_sem then w else { w with ipc_atomic_sem := bit :: w.ipc_atomic_sem }

/-- Zephyr `atomic_clear_bit(&ipc_atomic_sem, bit)`. -/
def atomic_clear_bit (w : World) (bit : nrfe_mspi_opcode_t) : World :=
  { w with ipc_atomic_sem := w.ipc_atomic_sem.filter (fun o => o != bit) }

/-- Zephyr `atomic_test_and_clear_bit(&ipc_atomic_sem, bit)`. -/
def atomic_test_and_clear_bit (w : World) (bit : nrfe_mspi_opcode_t) : Bool × World :=
  (decide (bit ∈ w.ipc_atomic_sem), atomic_clear_bit w bit)

/-- The `#if defined(CONFIG_MULTITHREADING) k_sem_give(..) #else atomic_set_bit(..)` pair. -/
def give_or_set (b : Build) (s : Sem) (bit : nrfe_mspi_opcode_t) (w : World) : World :=
  if b.CONFIG_MULTITHREADING then k_sem_give s w else atomic_set_bit w bit

/-! ## The receive side -/

/-- The driver's `ep_bound`. -/
def ep_bound (b : Build) (w : World) : World :=
  give_or_set b Sem.ipc_sem NRFE_MSPI_EP_BOUNDED { w with ipc_received := 0 }

/-- The driver's `ep_recv`. -/
def ep_recv (b : Build) (r : Resp) (w : World) : World :=
  match r.opcode with
  | NRFE_MSPI_CONFIG_TIMER_PTR =>
    if b.CONFIG_MSPI_NRFE_FAULT_TIMER then
      give_or_set b Sem.ipc_sem NRFE_MSPI_CONFIG_TIMER_PTR w
    else w
  | NRFE_MSPI_CONFIG_PINS => give_or_set b Sem.ipc_sem_cfg NRFE_MSPI_CONFIG_PINS w
  | NRFE_MSPI_CONFIG_DEV => give_or_set b Sem.ipc_sem_cfg NRFE_MSPI_CONFIG_DEV w
  | NRFE_MSPI_CONFIG_XFER => give_or_set b Sem.ipc_sem_cfg NRFE_MSPI_CONFIG_XFER w
  | NRFE_MSPI_TX => give_or_set b Sem.ipc_sem_xfer NRFE_MSPI_TX w
  | NRFE_MSPI_TXRX =>
    let w1 :=
      if 0 < r.len then
        { w with ipc_received := sub_u32 r.len b.sizeof_opcode,
                 ipc_receive_buffer := some r.data }
      else w
    give_or_set b Sem.ipc_sem_xfer NRFE_MSPI_TXRX w1
  | NRFE_MSPI_SDP_APP_HARD_FAULT => w
  | _ => w

/-- Run one callback of the endpoint. -/
def dispatch (b : Build) (w : World) : IpcEvent → World
  | IpcEvent.bound => ep_bound b w
  | IpcEvent.received r => ep_recv b r w

/-- Run the callbacks of a batch, in order. -/
def deliver (b : Build) (evs : List IpcEvent) (w : World) : World :=
  evs.foldl (dispatch b) w

/-! ## The send pipeline -/

/-- Zephyr `ipc_service_send(&ep, data, len)`: the next scripted result, or
acceptance (the length) once the script is used up.  The call is logged. -/
def ipc_service_send (data : Msg) (by_reference : Bool) (len : Nat) (w : World) : Int × World :=
  match w.chan with
  | [] =>
    (Int.ofNat len, { w with calls := w.calls ++ [⟨data, by_reference, len, Int.ofNat len⟩] })
  | e :: rest =>
    (e.rc, { w with chan := rest, uptime := w.uptime + e.elapsed,
                    calls := w.calls ++ [⟨data, by_reference, len, e.rc⟩] })

/-- The `do { ... } while (rc == -ENOMEM)` loop of `mspi_ipc_data_send`,
by recursion on the channel script.  `start` is the uptime read before the
loop and `repeat_cnt` the counter `repeat`.  On a used-up script the channel
accepts, so the loop ends with that call whatever the deadline test says. -/
def mspi_ipc_data_send_loop (b : Build) (data : Msg) (by_reference : Bool) (len : Nat)
    (start : Nat) : List SendStep → Nat → World → Int × World
  | [], _, w => ipc_service_send data by_reference len { w with chan := [] }
  | e :: rest, repeat_cnt, w =>
    let r := ipc_service_send data by_reference len { w with chan := e :: rest }
    let repeat1 := (repeat_cnt + UINT32_MOD - 1) % UINT32_MOD
    let stop : Bool :=
      if b.CONFIG_SYS_CLOCK_EXISTS then
        decide (EP_SEND_TIMEOUT_MS < sub_u32 (k_uptime_get_32 r.2) start)
      else
        decide (r.1 < 0) && decide (repeat1 = 0)
    if stop then r
    else if r.1 = -ENOMEM then
      mspi_ipc_data_send_loop b data by_reference len start rest repeat1 r.2
    else r

/-- The driver's `mspi_ipc_data_send`. -/
def mspi_ipc_data_send (b : Build) (opcode : nrfe_mspi_opcode_t) (data : Msg)
    (by_reference : Bool) (len : Nat) (w : World) : Int × World :=
  let start := k_uptime_get_32 w
  let w0 := if b.CONFIG_MULTITHREADING then w else atomic_clear_bit w opcode
  mspi_ipc_data_send_loop b data by_reference len start w0.chan EP_SEND_TIMEOUT_MS w0

/-! ## The response wait -/

/-- The blocking part of Zephyr `k_sem_take(sem, K_MSEC(budget))` on a
semaphore that is not available: deliveries are let in until one gives the
semaphore or the next one would come after the deadline. -/
def k_sem_take_wait (b : Build) (s : Sem) : List Batch → Nat → World → Int × World
  | [], budget, w => (-EAGAIN, { w with inbox := [], uptime := w.uptime + budget })
  | e :: rest, budget, w =>
    if budget < e.elapsed then
      (-EAGAIN, { w with inbox := { e with elapsed := e.elapsed - budget } :: rest,
                         uptime := w.uptime + budget })
    else
      let w1 := deliver b e.arrivals { w with inbox := rest, uptime := w.uptime + e.elapsed }
      if 0 < sem_count w1 s then (0, sem_set w1 s (sem_count w1 s - 1))
      else k_sem_take_wait b s rest (budget - e.elapsed) w1

/-- Zephyr `k_sem_take(sem, K_MSEC(timeout))`. -/
def k_sem_take (b : Build) (s : Sem) (timeout : Nat) (w : World) : Int × World :=
  if 0 < sem_count w s then (0, sem_set w s (sem_count w s - 1))
  else k_sem_take_wait b s w.inbox timeout w

/-- The polling loop of the threadless build,
`while (!atomic_test_and_clear_bit(..)) { deadline test; k_sleep(K_USEC(1)); }`,
by recursion on the delivery script: every `k_sleep` consumes one entry.
On a used-up script nothing can set the bit any more, and the loop ends at
its deadline. -/
def poll_loop (b : Build) (opcode : nrfe_mspi_opcode_t) (timeout start : Nat) :
    List Batch → Nat → World → Int × World
  | [], _, w =>
    let t := atomic_test_and_clear_bit w opcode
    if t.1 then (0, t.2) else (-ETIMEDOUT, t.2)
  | e :: rest, repeat_cnt, w =>
    let t := atomic_test_and_clear_bit w opcode
    if t.1 then (0, t.2)
    else
      let repeat1 := (repeat_cnt + UINT32_MOD - 1) % UINT32_MOD
      let expired : Bool :=
        if b.CONFIG_SYS_CLOCK_EXISTS then decide (timeout < sub_u32 (k_uptime_get_32 t.2) start)
        else decide (repeat1 = 0)
      if expired then (-ETIMEDOUT, t.2)
      else
        poll_loop b opcode timeout start rest repeat1
          (deliver b e.arrivals { t.2 with inbox := rest, uptime := t.2.uptime + e.elapsed })

/-- The driver's `nrfe_mspi_wait_for_response`. -/
def nrfe_mspi_wait_for_response (b : Build) (opcode : nrfe_mspi_opcode_t) (timeout : Nat)
    (w : World) : Int × World :=
  let w0 := { w with waits := w.waits ++ [(opcode, timeout)] }
  if b.CONFIG_MULTITHREADING then
    let r : Int × World :=
      match opcode with
      | NRFE_MSPI_CONFIG_TIMER_PTR => k_sem_take b Sem.ipc_sem timeout w0
      | NRFE_MSPI_CONFIG_PINS => k_sem_take b Sem.ipc_sem_cfg timeout w0
      | NRFE_MSPI_CONFIG_DEV => k_sem_take b Sem.ipc_sem_cfg timeout w0
      | NRFE_MSPI_CONFIG_XFER => k_sem_take b Sem.ipc_sem_cfg timeout w0
      | NRFE_MSPI_TX => k_sem_take b Sem.ipc_sem_xfer timeout w0
      | NRFE_MSPI_TXRX => k_sem_take b Sem.ipc_sem_xfer timeout w0
      | _ => (0, w0)
    if r.1 < 0 then (-ETIMEDOUT, r.2) else (0, r.2)
  else
    poll_loop b opcode timeout (k_uptime_get_32 w0) w0.inbox ((timeout * 1000) % UINT32_MOD) w0

/-! ## The round trip -/

/-- The driver's `send_data`.  The result is logged in `trips`. -/
def send_data (b : Build) (opcode : nrfe_mspi_opcode_t) (data : Msg) (len : Nat)
    (w : World) : Int × World :=
  let s :=
    if b.CONFIG_MSPI_NRFE_IPC_NO_COPY then mspi_ipc_data_send b opcode data true b.sizeof_ptr w
    else mspi_ipc_data_send b opcode data false len w
  let r := if s.1 < 0 then s else nrfe_mspi_wait_for_response b opcode IPC_TIMEOUT_MS s.2
  (r.1, { r.2 with trips := r.2.trips ++ [(opcode, r.1)] })

/-! ## Bus configuration -/

/-- The C expression `drv_cfg->pcfg->states[i]`: the array element, or what lies behind the array. -/
def states_at (pcfg : pinctrl_dev_config) (i : Nat) : pinctrl_state :=
  pcfg.states.getD i pcfg.past_end

/-- The search loop of `api_config`,
`for (state_id = 0; state_id < state_cnt; state_id++) if (states[state_id].id == DEFAULT) break;`
with `fuel = state_cnt - state_id`.  The result is the final `state_id` and
the indices read. -/
def find_default_state (pcfg : pinctrl_dev_config) : Nat → Nat → Nat × List Nat
  | 0, state_id => (state_id, [])
  | fuel + 1, state_id =>
    if (states_at pcfg state_id).id = PINCTRL_STATE_DEFAULT then (state_id, [state_id])
    else
      let r := find_default_state pcfg fuel (state_id + 1)
      (r.1, state_id :: r.2)

/-- The array `mspi_pin_config.pin` after the copy loop of `api_config`: the
first `pin_cnt` entries are written, the others are not. -/
def fill_pins (b : Build) (pins : List Nat) : List (Option Nat) :=
  pins.map some ++ List.replicate (b.NRFE_MSPI_PINS_MAX - pins.length) none

/-- The driver's `api_config`. -/
def api_config (b : Build) (spec : mspi_dt_spec) (w : World) : Int × World :=
  let config := spec.config
  let drv_cfg := spec.bus_config
  if config.op_mode ≠ MSPI_OP_MODE_CONTROLLER then (-ENOTSUP, w)
  else if config.dqs_support then (-ENOTSUP, w)
  else if drv_cfg.mspicfg.max_freq < config.max_freq then (-ENOTSUP, w)
  else
    let found := find_default_state drv_cfg.pcfg drv_cfg.pcfg.state_cnt 0
    let state_id := found.1
    let w1 := { w with state_reads := w.state_reads ++ found.2 ++ [state_id] }
    if b.NRFE_MSPI_PINS_MAX < (states_at drv_cfg.pcfg state_id).pins.length then (-ENOTSUP, w1)
    else if (states_at drv_cfg.pcfg state_id).id ≠ PINCTRL_STATE_DEFAULT then (-ENOTSUP, w1)
    else
      let mspi_pin_config : nrfe_mspi_pinctrl_soc_pin_msg_t :=
        { opcode := NRFE_MSPI_CONFIG_PINS,
          pin := fill_pins b (states_at drv_cfg.pcfg state_id).pins }
      send_data b NRFE_MSPI_CONFIG_PINS (Msg.pins mspi_pin_config) b.sizeof_pin_msg w1

/-! ## Device configuration -/

/-- The driver's `check_io_mode`. -/
def check_io_mode (io_mode : mspi_io_mode) : Int :=
  match io_mode with
  | MSPI_IO_MODE_SINGLE => 0
  | MSPI_IO_MODE_QUAD => 0
  | MSPI_IO_MODE_QUAD_1_1_4 => 0
  | MSPI_IO_MODE_QUAD_1_4_4 => 0
  | _ => -ENOTSUP

/-- The driver's `api_dev_config`; `drv_cfg` is `dev->config`. -/
def api_dev_config (b : Build) (drv_cfg : mspi_nrfe_config) (dev_id : mspi_dev_id)
    (param_mask : Nat) (cfg : mspi_dev_cfg) (w : World) : Int × World :=
  if mask_has param_mask MSPI_DEVICE_CONFIG_MEM_BOUND && decide (cfg.mem_boundary ≠ 0) then
    (-ENOTSUP, w)
  else if mask_has param_mask MSPI_DEVICE_CONFIG_BREAK_TIME && decide (cfg.time_to_break ≠ 0) then
    (-ENOTSUP, w)
  else if mask_has param_mask MSPI_DEVICE_CONFIG_FREQUENCY
      && decide (drv_cfg.mspicfg.max_freq < cfg.freq) then
    (-EINVAL, w)
  else if mask_has param_mask MSPI_DEVICE_CONFIG_IO_MODE
      && decide (check_io_mode cfg.io_mode < 0) then
    (check_io_mode cfg.io_mode, w)
  else if mask_has param_mask MSPI_DEVICE_CONFIG_DATA_RATE
      && decide (cfg.data_rate ≠ MSPI_DATA_RATE_SINGLE) then
    (-ENOTSUP, w)
  else if mask_has param_mask MSPI_DEVICE_CONFIG_DQS && cfg.dqs_enable then
    (-ENOTSUP, w)
  else
    let mspi_dev_config_msg : nrfe_mspi_dev_config_msg_t :=
      { opcode := NRFE_MSPI_CONFIG_DEV,
        device_index := dev_id.dev_idx,
        dev_config :=
          { io_mode := cfg.io_mode, cpp := cfg.cpp, ce_polarity := cfg.ce_polarity,
            freq := cfg.freq, ce_index := cfg.ce_num } }
    send_data b NRFE_MSPI_CONFIG_DEV (Msg.dev_config mspi_dev_config_msg)
      b.sizeof_dev_config_msg w

/-- The driver's `api_get_channel_status`. -/
def api_get_channel_status (_ch : Nat) (w : World) : Int × World := (0, w)

/-! ## Transfers -/

/-- The `n` bytes of the caller's memory from address `addr` on. -/
def read_bytes (mem : Nat → Nat) (addr n : Nat) : List Nat :=
  (List.range n).map (fun i => mem (addr + i))

/-- The C call `memcpy(dst, src, n)` into the caller's memory, `src` being the
bytes a channel buffer holds; bytes read behind them are read as 0. -/
def memcpy_to (mem : Nat → Nat) (dst : Nat) (src : List Nat) (n : Nat) : Nat → Nat :=
  fun a => if dst ≤ a ∧ a < dst + n then src.getD (a - dst) 0 else mem a

/-- The driver's `xfer_packet`. -/
def xfer_packet (b : Build) (packet : mspi_xfer_packet) (_timeout : Nat) (w : World) :
    Int × World :=
  let opcode := if packet.dir = MSPI_RX then NRFE_MSPI_TXRX else NRFE_MSPI_TX
  let misaligned : Bool := decide (packet.data_buf % UINT32_MOD % 4 ≠ 0)
  let len :=
    if b.CONFIG_MSPI_NRFE_IPC_NO_COPY then
      if misaligned then (b.sizeof_xfer_packet_msg + packet.num_bytes) % UINT32_MOD
      else b.sizeof_xfer_packet_msg
    else (b.sizeof_xfer_packet_msg + packet.num_bytes) % UINT32_MOD
  let data : packet_data :=
    if b.CONFIG_MSPI_NRFE_IPC_NO_COPY then
      if misaligned then
        packet_data.embedded_copy (read_bytes w.mem packet.data_buf packet.num_bytes)
      else packet_data.caller_buffer packet.data_buf
    else packet_data.inline_bytes (read_bytes w.mem packet.data_buf packet.num_bytes)
  let xfer_packet_msg : nrfe_mspi_xfer_packet_msg_t :=
    { opcode := opcode, command := packet.cmd, address := packet.address,
      num_bytes := packet.num_bytes, data := data }
  let r := send_data b xfer_packet_msg.opcode (Msg.xfer_packet xfer_packet_msg) len
    { w with buffers := w.buffers ++ [len] }
  match r.2.ipc_receive_buffer with
  | some staged =>
    if packet.dir = MSPI_RX ∧ 0 < r.2.ipc_received then
      if packet.num_bytes ≠ r.2.ipc_received then
        (- EIO, { r.2 with ipc_receive_buffer := none, ipc_received := 0,
                           mismatches := r.2.mismatches ++ [(packet.num_bytes, r.2.ipc_received)] })
      else
        (r.1, { r.2 with mem := memcpy_to r.2.mem packet.data_buf staged r.2.ipc_received,
                         ipc_receive_buffer := none, ipc_received := 0 })
    else r
  | none => r

/-- The C expression `xfer->packets[i]`; a read outside the caller's array is read as zero bytes. -/
def packets_at (xfer : mspi_xfer) (i : Nat) : mspi_xfer_packet :=
  (xfer.packets.getD []).getD i ⟨MSPI_RX, 0, 0, 0, 0⟩

/-- The driver's `start_next_packet`. -/
def start_next_packet (b : Build) (xfer : mspi_xfer) (packets_done : Nat) (w : World) :
    Int × World :=
  let packet := packets_at xfer packets_done
  if b.MAX_TX_MSG_SIZE ≤ packet.num_bytes then (-EINVAL, w)
  else xfer_packet b packet xfer.timeout w

/-- The loop `while (packets_done < req->num_packet)` of `api_transceive`,
with `fuel = req->num_packet - packets_done`. -/
def transceive_loop (b : Build) (req : mspi_xfer) : Nat → Nat → World → Int × World
  | 0, _, w => (0, w)
  | fuel + 1, packets_done, w =>
    let r := start_next_packet b req packets_done w
    if r.1 < 0 then r else transceive_loop b req fuel (packets_done + 1) r.2

/-- The driver's `api_transceive`; `dev->data` is the `dev_data` of the world. -/
def api_transceive (b : Build) (dev_id : mspi_dev_id) (req : mspi_xfer) (w : World) :
    Int × World :=
  if req.async then (-ENOTSUP, w)
  else if req.num_packet = 0 ∨ req.packets = none
      ∨ b.CONFIG_MSPI_COMPLETION_TIMEOUT_TOLERANCE < req.timeout then (-EFAULT, w)
  else
    let msg : nrfe_mspi_xfer_config_msg_t :=
      { opcode := NRFE_MSPI_CONFIG_XFER,
        xfer_config :=
          { device_index := dev_id.dev_idx, command_length := req.cmd_length,
            address_length := req.addr_length, hold_ce := req.hold_ce,
            tx_dummy := req.tx_dummy, rx_dummy := req.rx_dummy } }
    let w1 := { w with dev_data := { xfer_config_msg := msg } }
    let r := send_data b NRFE_MSPI_CONFIG_XFER (Msg.xfer_config w1.dev_data.xfer_config_msg)
      b.sizeof_xfer_config_msg w1
    if r.1 < 0 then r else transceive_loop b req req.num_packet 0 r.2

/-! ## Observations -/

/-- A logged call that the channel accepted. -/
def accepted (c : IpcCall) : Bool := decide (0 ≤ c.rc)

/-- The messages the channel accepted, oldest first. -/
def sent (w : World) : List Msg := (w.calls.filter accepted).map IpcCall.data

/-- Two worlds agree on everything the callbacks and the kernel primitives leave alone. -/
def Quiet (w w1 : World) : Prop :=
  w1.dev_data = w.dev_data ∧ w1.mem = w.mem ∧ w1.calls = w.calls ∧ w1.trips = w.trips
    ∧ w1.mismatches = w.mismatches ∧ w1.state_reads = w.state_reads

/-- The second world differs from the first in the call log, the channel script and the clock only. -/
def OnlySend (w w1 : World) : Prop :=
  ∃ c ch u, w1 = { w with calls := c, chan := ch, uptime := u }

/-- The calls of a round of sending: at least one, all carrying the message,
and an accepted one exactly when the result is not negative. -/
def SendLog (data : Msg) (by_ref : Bool) (len : Nat) (rc : Int) (l : List IpcCall) : Prop :=
  l ≠ [] ∧ (∀ c ∈ l, c.data = data ∧ c.by_reference = by_ref ∧ c.len = len)
    ∧ (l.filter accepted).map IpcCall.data = if 0 ≤ rc then [data] else []

/-- What a round trip with a message does to the ledger of the world. -/
def RoundTrip (opcode : nrfe_mspi_opcode_t) (data : Msg) (w : World) (r : Int × World) : Prop :=
  r.2.dev_data = w.dev_data ∧ r.2.mem = w.mem ∧ r.2.mismatches = w.mismatches
    ∧ r.2.state_reads = w.state_reads
    ∧ r.2.trips = w.trips ++ [(opcode, r.1)]
    ∧ r.1 ≤ 0
    ∧ ∃ l, r.2.calls = w.calls ++ l ∧ l ≠ [] ∧ (∀ c ∈ l, c.data = data)
        ∧ ((l.filter accepted).map IpcCall.data = [data]
            ∨ ((l.filter accepted).map IpcCall.data = [] ∧ r.1 < 0))

/-! ## Words of the specification -/

/-- The opcode the specification gives a packet: `SendReceive` for a receive packet, else `Send`. -/
def packet_opcode (p : mspi_xfer_packet) : nrfe_mspi_opcode_t :=
  if p.dir = MSPI_RX then NRFE_MSPI_TXRX else NRFE_MSPI_TX

/-- A message without the payload of a packet message. -/
def without_payload : Msg → Msg
  | Msg.xfer_packet m => Msg.xfer_packet { m with data := packet_data.inline_bytes [] }
  | m => m

/-- The packet message the specification expects for a packet, without its payload. -/
def packet_header (p : mspi_xfer_packet) : Msg :=
  Msg.xfer_packet
    { opcode := packet_opcode p, command := p.cmd, address := p.address,
      num_bytes := p.num_bytes, data := packet_data.inline_bytes [] }

/-- The `ConfigTransfer` message the specification expects for a request. -/
def config_xfer_msg (dev_id : mspi_dev_id) (req : mspi_xfer) : nrfe_mspi_xfer_config_msg_t :=
  { opcode := NRFE_MSPI_CONFIG_XFER,
    xfer_config :=
      { device_index := dev_id.dev_idx, command_length := req.cmd_length,
        address_length := req.addr_length, hold_ce := req.hold_ce,
        tx_dummy := req.tx_dummy, rx_dummy := req.rx_dummy } }

/-! ## Worlds and requests for the examples -/

/-- A threaded build with a clock, copying payloads, and small sizes. -/
def demo_build : Build :=
  { CONFIG_MULTITHREADING := true, CONFIG_SYS_CLOCK_EXISTS := true,
    CONFIG_MSPI_NRFE_IPC_NO_COPY := false, CONFIG_MSPI_NRFE_FAULT_TIMER := false,
    MAX_TX_MSG_SIZE := 64, CONFIG_MSPI_COMPLETION_TIMEOUT_TOLERANCE := 1000,
    NRFE_MSPI_PINS_MAX := 6, sizeof_opcode := 1, sizeof_ptr := 4, sizeof_pin_msg := 25,
    sizeof_dev_config_msg := 16, sizeof_xfer_config_msg := 12, sizeof_xfer_packet_msg := 16 }

/-- The driver after start-up: nothing latched, nothing staged, nothing scripted, empty logs. -/
def idle_world : World :=
  { ipc_received := 0, ipc_receive_buffer := none, ipc_sem := 0, ipc_sem_cfg := 0,
    ipc_sem_xfer := 0, ipc_atomic_sem := [],
    dev_data := ⟨⟨NRFE_MSPI_EP_BOUNDED, ⟨0, 0, 0, false, 0, 0⟩⟩⟩,
    mem := fun _ => 0, uptime := 0, chan := [], inbox := [], calls := [], waits := [],
    trips := [], mismatches := [], state_reads := [], buffers := [] }

/-- The coprocessor answers with the bare opcode after one millisecond. -/
def reply (o : nrfe_mspi_opcode_t) : Batch := ⟨1, [IpcEvent.received ⟨o, 1, []⟩]⟩

/-- A one-packet send request. -/
def demo_req : mspi_xfer :=
  { async := false, cmd_length := 1, addr_length := 3, hold_ce := false, tx_dummy := 0,
    rx_dummy := 8, timeout := 10, packets := some [⟨MSPI_TX, 6, 0, 2, 100⟩], num_packet := 1 }

/-! ## Parts of `xfer_packet` -/

/-- The length `len` that `xfer_packet` computes for a packet. -/
def packet_len (b : Build) (p : mspi_xfer_packet) : Nat :=
  if b.CONFIG_MSPI_NRFE_IPC_NO_COPY then
    if decide (p.data_buf % UINT32_MOD % 4 ≠ 0) then
      (b.sizeof_xfer_packet_msg + p.num_bytes) % UINT32_MOD
    else b.sizeof_xfer_packet_msg
  else (b.sizeof_xfer_packet_msg + p.num_bytes) % UINT32_MOD

/-- The message that `xfer_packet` builds for a packet from the caller's memory. -/
def packet_msg (b : Build) (p : mspi_xfer_packet) (mem : Nat → Nat) :
    nrfe_mspi_xfer_packet_msg_t :=
  { opcode := if p.dir = MSPI_RX then NRFE_MSPI_TXRX else NRFE_MSPI_TX,
    command := p.cmd, address := p.address, num_bytes := p.num_bytes,
    data :=
      if b.CONFIG_MSPI_NRFE_IPC_NO_COPY then
        if decide (p.data_buf % UINT32_MOD % 4 ≠ 0) then
          packet_data.embedded_copy (read_bytes mem p.data_buf p.num_bytes)
        else packet_data.caller_buffer p.data_buf
      else packet_data.inline_bytes (read_bytes mem p.data_buf p.num_bytes) }

/-- What `xfer_packet` does after the round trip: the staging check and the copy-out. -/
def consume_staging (p : mspi_xfer_packet) (r : Int × World) : Int × World :=
  match r.2.ipc_receive_buffer with
  | some staged =>
    if p.dir = MSPI_RX ∧ 0 < r.2.ipc_received then
      if p.num_bytes ≠ r.2.ipc_received then
        (- EIO, { r.2 with ipc_receive_buffer := none, ipc_received := 0,
                           mismatches := r.2.mismatches ++ [(p.num_bytes, r.2.ipc_received)] })
      else
        (r.1, { r.2 with mem := memcpy_to r.2.mem p.data_buf staged r.2.ipc_received,
                         ipc_receive_buffer := none, ipc_received := 0 })
    else r
  | none => r

/-- What processing one packet does to the ledger of the world: `rt` is the result of the round trip. -/
def PacketStep (b : Build) (p : mspi_xfer_packet) (w : World) (r : Int × World) : Prop :=
  r.2.dev_data = w.dev_data ∧ r.2.state_reads = w.state_reads
    ∧ ∃ rt : Int, rt ≤ 0 ∧ r.2.trips = w.trips ++ [(packet_opcode p, rt)]
      ∧ ((r.1 = rt ∧ r.2.mismatches = w.mismatches)
          ∨ (r.1 = - EIO ∧ ∃ m, r.2.mismatches = w.mismatches ++ [m]))
      ∧ ∃ l, r.2.calls = w.calls ++ l ∧ l ≠ []
          ∧ (∀ c ∈ l, c.data = Msg.xfer_packet (packet_msg b p w.mem))
          ∧ ((l.filter accepted).map IpcCall.data = [Msg.xfer_packet (packet_msg b p w.mem)]
              ∨ ((l.filter accepted).map IpcCall.data = [] ∧ rt < 0))

/-! ## Expected packet messages -/

/-- The packet messages the specification expects for the packets `done`, ..., `done + n - 1`. -/
def expected_packets (req : mspi_xfer) (done n : Nat) : List Msg :=
  (List.range n).map (fun i => packet_header (packets_at req (done + i)))

/-- The `ConfigTransfer` round trip of `api_transceive`, after the stored message was written. -/
def after_config (b : Build) (dev_id : mspi_dev_id) (req : mspi_xfer) (w : World) : Int × World :=
  send_data b NRFE_MSPI_CONFIG_XFER (Msg.xfer_config (config_xfer_msg dev_id req))
    b.sizeof_xfer_config_msg { w with dev_data := ⟨config_xfer_msg dev_id req⟩ }

/-- The loop of `api_transceive` over the packets before packet `k`: its result is
0 when none of them failed, and its world is the one packet `k` starts in. -/
def before_packet (b : Build) (dev_id : mspi_dev_id) (req : mspi_xfer) (w : World) (k : Nat) :
    Int × World :=
  transceive_loop b req k 0 (after_config b dev_id req w).2

/-- The processing of packet `k` after the packets before it. -/
def at_packet (b : Build) (dev_id : mspi_dev_id) (req : mspi_xfer) (w : World) (k : Nat) :
    Int × World :=
  start_next_packet b req k (before_packet b dev_id req w k).2

/-! ## Example transfers -/

/-- A send packet followed by a receive packet of four bytes. -/
def demo_req2 : mspi_xfer :=
  { async := false, cmd_length := 1, addr_length := 3, hold_ce := false, tx_dummy := 0,
    rx_dummy := 8, timeout := 10,
    packets := some [⟨MSPI_TX, 6, 0, 2, 100⟩, ⟨MSPI_RX, 3, 16, 4, 200⟩], num_packet := 2 }

/-- The coprocessor answers all three messages; the last answer carries four bytes. -/
def demo_world2 : World :=
  { idle_world with
    inbox := [reply NRFE_MSPI_CONFIG_XFER, reply NRFE_MSPI_TX,
      ⟨1, [IpcEvent.received ⟨NRFE_MSPI_TXRX, 5, [9, 8, 7, 6]⟩]⟩] }

/-- The round trip that `xfer_packet` makes for a packet, from the buffer it has declared. -/
def packet_round_trip (b : Build) (p : mspi_xfer_packet) (w : World) : Int × World :=
  send_data b (packet_opcode p) (Msg.xfer_packet (packet_msg b p w.mem)) (packet_len b p)
    { w with buffers := w.buffers ++ [packet_len b p] }

/-! ## Worlds up to the staging -/

/-- The world with the staging forgotten. -/
def unstaged (w : World) : World := { w with ipc_received := 0, ipc_receive_buffer := none }

/-- Two worlds that differ at most in what is staged. -/
def SameButStaging (v v1 : World) : Prop := unstaged v = unstaged v1

/-! ## Example packets -/

/-- A receive packet of sixteen bytes. -/
def demo_rx16 : mspi_xfer_packet := ⟨MSPI_RX, 3, 16, 16, 200⟩

/-- The coprocessor answers a receive packet with twelve bytes. -/
def demo_world_rx12 : World :=
  { idle_world with
    inbox := [⟨1, [IpcEvent.received
      ⟨NRFE_MSPI_TXRX, 13, [1, 2, 3, 4, 5, 6, 7, 8, 9, 10, 11, 12]⟩]⟩] }

/-- A receive packet of four bytes. -/
def demo_rx4 : mspi_xfer_packet := ⟨MSPI_RX, 3, 16, 4, 200⟩

/-- The coprocessor answers a receive packet with four bytes. -/
def demo_world_rx4 : World :=
  { idle_world with inbox := [⟨1, [IpcEvent.received ⟨NRFE_MSPI_TXRX, 5, [9, 8, 7, 6]⟩]⟩] }

/-! ## Example requests -/

/-- A request that asks for an asynchronous transfer. -/
def demo_req_async : mspi_xfer := { demo_req with async := true }

/-- A request whose only packet has a byte count of `MAX_TX_MSG_SIZE`. -/
def demo_req_big : mspi_xfer :=
  { demo_req with packets := some [⟨MSPI_TX, 6, 0, 64, 100⟩] }

/-- The coprocessor answers the `ConfigTransfer` message. -/
def demo_world_cfg : World := { idle_world with inbox := [reply NRFE_MSPI_CONFIG_XFER] }

/-! ## The checks of the device configuration -/

/-- One check of the device configuration in the words of the specification:
the mask bit that asks for it, whether the configuration passes it, and the
code returned when it fails. -/
structure DevCheck where
  bit : Nat
  passes : Bool
  code : Int
  deriving DecidableEq, Repr

/-- The I/O modes the specification lists as supported. -/
def supported_io_mode (m : mspi_io_mode) : Bool :=
  decide (m = MSPI_IO_MODE_SINGLE ∨ m = MSPI_IO_MODE_QUAD ∨ m = MSPI_IO_MODE_QUAD_1_1_4
    ∨ m = MSPI_IO_MODE_QUAD_1_4_4)

/-- The checks of the device configuration, in the order of the specification. -/
def dev_config_checks (max_freq : Nat) (cfg : mspi_dev_cfg) : List DevCheck :=
  [ ⟨MSPI_DEVICE_CONFIG_MEM_BOUND, decide (cfg.mem_boundary = 0), -ENOTSUP⟩,
    ⟨MSPI_DEVICE_CONFIG_BREAK_TIME, decide (cfg.time_to_break = 0), -ENOTSUP⟩,
    ⟨MSPI_DEVICE_CONFIG_FREQUENCY, decide (cfg.freq ≤ max_freq), -EINVAL⟩,
    ⟨MSPI_DEVICE_CONFIG_IO_MODE, supported_io_mode cfg.io_mode, -ENOTSUP⟩,
    ⟨MSPI_DEVICE_CONFIG_DATA_RATE, decide (cfg.data_rate = MSPI_DATA_RATE_SINGLE), -ENOTSUP⟩,
    ⟨MSPI_DEVICE_CONFIG_DQS, !cfg.dqs_enable, -ENOTSUP⟩ ]

/-- The first check that the mask asks for and the configuration fails. -/
def first_failing_check (param_mask : Nat) (checks : List DevCheck) : Option DevCheck :=
  checks.find? (fun c => mask_has param_mask c.bit && !c.passes)

/-- The `ConfigDevice` message the specification expects. -/
def dev_config_msg (dev_id : mspi_dev_id) (cfg : mspi_dev_cfg) : nrfe_mspi_dev_config_msg_t :=
  { opcode := NRFE_MSPI_CONFIG_DEV, device_index := dev_id.dev_idx,
    dev_config :=
      { io_mode := cfg.io_mode, cpp := cfg.cpp, ce_polarity := cfg.ce_polarity,
        freq := cfg.freq, ce_index := cfg.ce_num } }

/-- A device configuration that asks for a memory boundary. -/
def demo_dev_cfg : mspi_dev_cfg :=
  { ce_num := 0, freq := 8000000, io_mode := MSPI_IO_MODE_QUAD, data_rate := MSPI_DATA_RATE_SINGLE,
    cpp := 0, ce_polarity := 0, dqs_enable := false, mem_boundary := 1024, time_to_break := 0 }

/-- The configuration of the controller: 64 MHz at most, one default pin state with four pins. -/
def demo_drv_cfg : mspi_nrfe_config :=
  { mspicfg := ⟨MSPI_OP_MODE_CONTROLLER, false, 64000000⟩,
    pcfg := { states := [⟨1, [30, 31]⟩, ⟨0, [1, 2, 3, 4]⟩], state_cnt := 2, past_end := ⟨0, []⟩ } }

/-! ## The default pin state -/

/-- The default pin state in the words of the specification: the first of the
`state_cnt` states whose identifier is the default one. -/
def first_default_state (pcfg : pinctrl_dev_config) : Option pinctrl_state :=
  (pcfg.states.take pcfg.state_cnt).find? (fun s => decide (s.id = PINCTRL_STATE_DEFAULT))

/-- A bus configuration the controller supports, with the frequency at the ceiling. -/
def demo_spec : mspi_dt_spec :=
  { bus_config := demo_drv_cfg, config := ⟨MSPI_OP_MODE_CONTROLLER, false, 64000000⟩ }

/-- A bus configuration that asks for DQS. -/
def demo_spec_dqs : mspi_dt_spec :=
  { bus_config := demo_drv_cfg, config := ⟨MSPI_OP_MODE_CONTROLLER, true, 8000000⟩ }

/-! ## Wait-classes -/

/-- The wait-class of an opcode, named by the semaphore that
`nrfe_mspi_wait_for_response` takes for it in the threaded build; `none` for
an opcode that falls to `default:`. -/
def wait_class : nrfe_mspi_opcode_t → Option Sem
  | NRFE_MSPI_CONFIG_TIMER_PTR => some Sem.ipc_sem
  | NRFE_MSPI_CONFIG_PINS => some Sem.ipc_sem_cfg
  | NRFE_MSPI_CONFIG_DEV => some Sem.ipc_sem_cfg
  | NRFE_MSPI_CONFIG_XFER => some Sem.ipc_sem_cfg
  | NRFE_MSPI_TX => some Sem.ipc_sem_xfer
  | NRFE_MSPI_TXRX => some Sem.ipc_sem_xfer
  | _ => none

/-- The bit of `ipc_atomic_sem` that a callback sets in the threadless build,
and whose wait-class it signals in the threaded one: the opcode of a response
that `ep_recv` answers with a signal, `NRFE_MSPI_EP_BOUNDED` for `ep_bound`. -/
def signalled_bit (b : Build) : IpcEvent → Option nrfe_mspi_opcode_t
  | IpcEvent.bound => some NRFE_MSPI_EP_BOUNDED
  | IpcEvent.received r =>
    match r.opcode with
    | NRFE_MSPI_CONFIG_TIMER_PTR =>
      if b.CONFIG_MSPI_NRFE_FAULT_TIMER then some NRFE_MSPI_CONFIG_TIMER_PTR else none
    | NRFE_MSPI_CONFIG_PINS => some NRFE_MSPI_CONFIG_PINS
    | NRFE_MSPI_CONFIG_DEV => some NRFE_MSPI_CONFIG_DEV
    | NRFE_MSPI_CONFIG_XFER => some NRFE_MSPI_CONFIG_XFER
    | NRFE_MSPI_TX => some NRFE_MSPI_TX
    | NRFE_MSPI_TXRX => some NRFE_MSPI_TXRX
    | _ => none

/-- The semaphore that a callback gives in the threaded build: the wait-class it signals. -/
def signalled_sem (b : Build) : IpcEvent → Option Sem
  | IpcEvent.bound => some Sem.ipc_sem
  | IpcEvent.received r =>
    match signalled_bit b (IpcEvent.received r) with
    | some o => wait_class o
    | none => none

/-- The wait-class a callback belongs to: that of the opcode of a response;
the class of `ipc_sem` for `ep_bound`. -/
def event_class : IpcEvent → Option Sem
  | IpcEvent.bound => some Sem.ipc_sem
  | IpcEvent.received r => wait_class r.opcode

/-- Whether a signal is latched that a wait for the opcode would take: the
count of the semaphore of its class in the threaded build, its bit in the
threadless one. -/
def latched (b : Build) (opcode : nrfe_mspi_opcode_t) (w : World) : Bool :=
  if b.CONFIG_MULTITHREADING then
    match wait_class opcode with
    | some s => decide (0 < sem_count w s)
    | none => false
  else decide (opcode ∈ w.ipc_atomic_sem)

/-- Whether a callback signals the latch that a wait for the opcode tests:
in the threaded build it gives the semaphore of the opcode's class, in the
threadless build it sets the bit of this very opcode. -/
def signals (b : Build) (opcode : nrfe_mspi_opcode_t) (ev : IpcEvent) : Bool :=
  if b.CONFIG_MULTITHREADING then
    (wait_class opcode).isSome && decide (signalled_sem b ev = wait_class opcode)
  else decide (signalled_bit b ev = some opcode)

/-- No callback of the script signals the latch that a wait for the opcode tests. -/
def no_signal_for (b : Build) (opcode : nrfe_mspi_opcode_t) (script : List Batch) : Prop :=
  ∀ e ∈ script, ∀ ev ∈ e.arrivals, signals b opcode ev = false

/-- The delivery `e` comes within the timeout of a wait that starts before the
deliveries `pre`: the milliseconds up to and with it are at most the timeout,
and in the threadless build without a clock, where every poll lets one
delivery in, the polls up to it are fewer than the counter `timeout * 1000`
allows. -/
def arrives_within (b : Build) (timeout : Nat) (pre : List Batch) (e : Batch) : Bool :=
  decide ((pre.map Batch.elapsed).sum + e.elapsed ≤ timeout)
    && (b.CONFIG_MULTITHREADING || b.CONFIG_SYS_CLOCK_EXISTS
        || decide (pre.length + 1 < (timeout * 1000) % UINT32_MOD))

/-- The channel takes the next message at the first call: its script is used
up, or the next scripted result is not negative. -/
def accepts_next (w : World) : Bool :=
  match w.chan with
  | [] => true
  | e :: _ => decide (0 ≤ e.rc)

/-- The call of the send pipeline that `send_data` makes: by reference in the zero-copy build. -/
def send_data_send (b : Build) (opcode : nrfe_mspi_opcode_t) (data : Msg) (len : Nat)
    (w : World) : Int × World :=
  if b.CONFIG_MSPI_NRFE_IPC_NO_COPY then mspi_ipc_data_send b opcode data true b.sizeof_ptr w
  else mspi_ipc_data_send b opcode data false len w

/-! ## Worlds with stale signals -/

/-- The threadless build of the examples. -/
def demo_build_threadless : Build := { demo_build with CONFIG_MULTITHREADING := false }

/-- A `Send` packet message of two bytes. -/
def demo_msg : Msg :=
  Msg.xfer_packet ⟨NRFE_MSPI_TX, 6, 0, 2, packet_data.inline_bytes [0, 0]⟩

/-- A signal of the transfer class is latched, and nothing is delivered any more. -/
def demo_world_stale : World := { idle_world with ipc_sem_xfer := 1 }

/-- A `ConfigDevice` response has come in while nobody waited, and nothing is delivered any more. -/
def demo_world_late : World := ep_recv demo_build ⟨NRFE_MSPI_CONFIG_DEV, 1, []⟩ idle_world

/-- The same in the threadless build. -/
def demo_world_late_threadless : World :=
  ep_recv demo_build_threadless ⟨NRFE_MSPI_CONFIG_DEV, 1, []⟩ idle_world

/-! ## Full channels -/

/-- The script of a channel that reports full once per entry of `ds`, the
call taking that many milliseconds. -/
def full_steps (ds : List Nat) : List SendStep := ds.map (fun d => ⟨-ENOMEM, d⟩)

/-- The log entries of `n` calls with a message that the channel reported full. -/
def full_calls (data : Msg) (by_ref : Bool) (len : Nat) (n : Nat) : List IpcCall :=
  List.replicate n ⟨data, by_ref, len, -ENOMEM⟩

/-- The send deadline has not expired after the full calls `ds`: they took at
most `EP_SEND_TIMEOUT_MS` milliseconds together, and in the build without a
clock there are fewer than `EP_SEND_TIMEOUT_MS` of them. -/
def in_time (b : Build) (ds : List Nat) : Bool :=
  if b.CONFIG_SYS_CLOCK_EXISTS then decide (ds.sum ≤ EP_SEND_TIMEOUT_MS)
  else decide (ds.length + 1 ≤ EP_SEND_TIMEOUT_MS)

/-- The world after the full calls `ds` with a message. -/
def after_fulls (data : Msg) (by_ref : Bool) (len : Nat) (ds : List Nat) (tail : List SendStep)
    (w : World) : World :=
  { w with chan := tail, uptime := w.uptime + ds.sum,
           calls := w.calls ++ full_calls data by_ref len ds.length }

/-! ## Staging -/

/-- The staging: the pointer `ipc_receive_buffer` and the length `ipc_received`. -/
def staging (w : World) : Option (List Nat) × Nat := (w.ipc_receive_buffer, w.ipc_received)

/-- Whether a callback writes the staging: `ep_bound` resets the staged
length, `ep_recv` stages a `SendReceive` response of positive length. -/
def restages : IpcEvent → Bool
  | IpcEvent.bound => true
  | IpcEvent.received r => decide (r.opcode = NRFE_MSPI_TXRX ∧ 0 < r.len)

/-- The zero-copy build of the examples. -/
def demo_build_zero_copy : Build := { demo_build with CONFIG_MSPI_NRFE_IPC_NO_COPY := true }

/-- A `SendReceive` response of four bytes has come in while nobody waited,
and the channel is full for longer than the send deadline. -/
def demo_world_stale_rx : World :=
  { ep_recv demo_build ⟨NRFE_MSPI_TXRX, 5, [9, 8, 7, 6]⟩ idle_world with chan := [⟨-ENOMEM, 11⟩] }

/-- In the threadless build a `ConfigPins` response has come in while nobody waited. -/
def demo_world_pins_bit : World :=
  ep_recv demo_build_threadless ⟨NRFE_MSPI_CONFIG_PINS, 1, []⟩ idle_world

/-! ## Configurations for the last examples -/

/-- A controller whose only pin state is the sleep state (id 1); the memory
behind the array reads as a state with id 0 and the two pins 5 and 6. -/
def demo_drv_cfg_sleep_only : mspi_nrfe_config :=
  { mspicfg := ⟨MSPI_OP_MODE_CONTROLLER, false, 64000000⟩,
    pcfg := { states := [⟨1, [30, 31]⟩], state_cnt := 1, past_end := ⟨0, [5, 6]⟩ } }

/-- A bus configuration for that controller. -/
def demo_spec_sleep_only : mspi_dt_spec :=
  { bus_config := demo_drv_cfg_sleep_only, config := ⟨MSPI_OP_MODE_CONTROLLER, false, 8000000⟩ }

/-- The coprocessor answers a `ConfigPins` message. -/
def demo_world_pins : World := { idle_world with inbox := [reply NRFE_MSPI_CONFIG_PINS] }

/-- A device configuration with a frequency above the controller's 64 MHz and an octal I/O mode. -/
def demo_dev_cfg_octal : mspi_dev_cfg :=
  { ce_num := 0, freq := 128000000, io_mode := MSPI_IO_MODE_OCTAL,
    data_rate := MSPI_DATA_RATE_SINGLE, cpp := 0, ce_polarity := 0, dqs_enable := false,
    mem_boundary := 0, time_to_break := 0 }

/-- The coprocessor answers a `ConfigDevice` message. -/
def demo_world_dev : World := { idle_world with inbox := [reply NRFE_MSPI_CONFIG_DEV] }

/-! ## Theorems -/

/-! ### What the callbacks and the waits leave alone -/

theorem quiet_refl (w : World) : Quiet w w := by
  simp [Quiet]

theorem quiet_trans {w w1 w2 : World} (h1 : Quiet w w1) (h2 : Quiet w1 w2) : Quiet w w2 := by
  obtain ⟨a1, a2, a3, a4, a5, a6⟩ := h1
  obtain ⟨c1, c2, c3, c4, c5, c6⟩ := h2
  exact ⟨c1.trans a1, c2.trans a2, c3.trans a3, c4.trans a4, c5.trans a5, c6.trans a6⟩

theorem quiet_sem_set (w : World) (s : Sem) (n : Nat) : Quiet w (sem_set w s n) := by
  cases s <;> simp [Quiet, sem_set]

theorem quiet_give_or_set (b : Build) (s : Sem) (bit : nrfe_mspi_opcode_t) (w : World) :
    Quiet w (give_or_set b s bit w) := by
  unfold give_or_set k_sem_give atomic_set_bit
  split
  · split
    · exact quiet_sem_set _ _ _
    · exact quiet_refl w
  · split
    · exact quiet_refl w
    · simp [Quiet]

theorem quiet_ep_bound (b : Build) (w : World) : Quiet w (ep_bound b w) := by
  unfold ep_bound
  exact quiet_trans (by simp [Quiet]) (quiet_give_or_set b _ _ _)

theorem quiet_ep_recv (b : Build) (r : Resp) (w : World) : Quiet w (ep_recv b r w) := by
  unfold ep_recv
  split
  · split
    · exact quiet_give_or_set b _ _ _
    · exact quiet_refl w
  · exact quiet_give_or_set b _ _ _
  · exact quiet_give_or_set b _ _ _
  · exact quiet_give_or_set b _ _ _
  · exact quiet_give_or_set b _ _ _
  · refine quiet_trans ?_ (quiet_give_or_set b _ _ _)
    split
    · simp [Quiet]
    · exact quiet_refl w
  · exact quiet_refl w
  · exact quiet_refl w

theorem quiet_dispatch (b : Build) (w : World) (ev : IpcEvent) : Quiet w (dispatch b w ev) := by
  cases ev
  · exact quiet_ep_bound b w
  · exact quiet_ep_recv b _ w

theorem quiet_deliver (b : Build) (evs : List IpcEvent) (w : World) :
    Quiet w (deliver b evs w) := by
  induction evs generalizing w with
  | nil => exact quiet_refl w
  | cons ev rest ih =>
    simp only [deliver, List.foldl_cons]
    exact quiet_trans (quiet_dispatch b w ev) (ih _)

theorem quiet_env (v : World) (i : List Batch) (u : Nat) :
    Quiet v { v with inbox := i, uptime := u } := by
  simp [Quiet]

theorem quiet_k_sem_take_wait (b : Build) (s : Sem) (script : List Batch) (budget : Nat)
    (w : World) : Quiet w (k_sem_take_wait b s script budget w).2 := by
  induction script generalizing budget w with
  | nil => simp [k_sem_take_wait, Quiet]
  | cons e rest ih =>
    unfold k_sem_take_wait
    have hd : Quiet w (deliver b e.arrivals
        { w with inbox := rest, uptime := w.uptime + e.elapsed }) :=
      quiet_trans (quiet_env _ _ _) (quiet_deliver b _ _)
    dsimp only
    split_ifs
    · simp [Quiet]
    · exact quiet_trans hd (quiet_sem_set _ _ _)
    · exact quiet_trans hd (ih _ _)

theorem quiet_k_sem_take (b : Build) (s : Sem) (timeout : Nat) (w : World) :
    Quiet w (k_sem_take b s timeout w).2 := by
  unfold k_sem_take
  split
  · exact quiet_sem_set _ _ _
  · exact quiet_k_sem_take_wait b s _ _ w

theorem quiet_atomic_clear_bit (w : World) (bit : nrfe_mspi_opcode_t) :
    Quiet w (atomic_clear_bit w bit) := by
  simp [Quiet, atomic_clear_bit]

theorem quiet_poll_loop (b : Build) (opcode : nrfe_mspi_opcode_t) (timeout start : Nat)
    (script : List Batch) (cnt : Nat) (w : World) :
    Quiet w (poll_loop b opcode timeout start script cnt w).2 := by
  induction script generalizing cnt w with
  | nil =>
    unfold poll_loop
    simp only [atomic_test_and_clear_bit]
    split <;> exact quiet_atomic_clear_bit w opcode
  | cons e rest ih =>
    unfold poll_loop
    simp only [atomic_test_and_clear_bit]
    have hc := quiet_atomic_clear_bit w opcode
    split_ifs
    all_goals first
      | exact hc
      | exact quiet_trans hc (quiet_trans (quiet_trans (quiet_env _ _ _) (quiet_deliver b _ _))
          (ih _ _))

theorem quiet_wait (b : Build) (opcode : nrfe_mspi_opcode_t) (timeout : Nat) (w : World) :
    Quiet w (nrfe_mspi_wait_for_response b opcode timeout w).2 := by
  have h0 : Quiet w { w with waits := w.waits ++ [(opcode, timeout)] } := by simp [Quiet]
  unfold nrfe_mspi_wait_for_response
  simp only []
  split
  · have hr : ∀ r : Int × World, Quiet w r.2 →
        Quiet w (if r.1 < 0 then (-ETIMEDOUT, r.2) else (0, r.2)).2 := by
      intro r hr
      split <;> exact hr
    apply hr
    split
    all_goals first
      | exact quiet_trans h0 (quiet_k_sem_take b _ _ _)
      | exact h0
  · exact quiet_trans h0 (quiet_poll_loop b _ _ _ _ _ _)

/-! ### Results of the waits -/

theorem k_sem_take_wait_rc (b : Build) (s : Sem) (script : List Batch) (budget : Nat)
    (w : World) :
    (k_sem_take_wait b s script budget w).1 = 0
      ∨ (k_sem_take_wait b s script budget w).1 = -EAGAIN := by
  induction script generalizing budget w with
  | nil => simp [k_sem_take_wait]
  | cons e rest ih =>
    unfold k_sem_take_wait
    dsimp only
    split_ifs
    · simp
    · simp
    · exact ih _ _

theorem poll_loop_rc (b : Build) (opcode : nrfe_mspi_opcode_t) (timeout start : Nat)
    (script : List Batch) (cnt : Nat) (w : World) :
    (poll_loop b opcode timeout start script cnt w).1 = 0
      ∨ (poll_loop b opcode timeout start script cnt w).1 = -ETIMEDOUT := by
  induction script generalizing cnt w with
  | nil =>
    unfold poll_loop
    dsimp only
    split_ifs <;> simp
  | cons e rest ih =>
    unfold poll_loop
    dsimp only
    split_ifs
    all_goals first
      | exact Or.inl rfl
      | exact Or.inr rfl
      | exact ih _ _

theorem wait_rc (b : Build) (opcode : nrfe_mspi_opcode_t) (timeout : Nat) (w : World) :
    (nrfe_mspi_wait_for_response b opcode timeout w).1 = 0
      ∨ (nrfe_mspi_wait_for_response b opcode timeout w).1 = -ETIMEDOUT := by
  unfold nrfe_mspi_wait_for_response
  dsimp only
  split_ifs
  · exact Or.inr rfl
  · exact Or.inl rfl
  · exact poll_loop_rc b _ _ _ _ _ _

/-! ### The send loop -/

theorem onlySend_refl (w : World) : OnlySend w w := ⟨w.calls, w.chan, w.uptime, rfl⟩

theorem onlySend_trans {w w1 w2 : World} (h1 : OnlySend w w1) (h2 : OnlySend w1 w2) :
    OnlySend w w2 := by
  obtain ⟨c, ch, u, rfl⟩ := h1
  obtain ⟨c2, ch2, u2, rfl⟩ := h2
  exact ⟨c2, ch2, u2, rfl⟩

theorem onlySend_ipc_service_send (data : Msg) (by_ref : Bool) (len : Nat) (w : World)
    (script : List SendStep) :
    OnlySend w (ipc_service_send data by_ref len { w with chan := script }).2 := by
  cases script with
  | nil => exact ⟨_, _, _, rfl⟩
  | cons e rest => exact ⟨_, _, _, rfl⟩

theorem calls_ipc_service_send (data : Msg) (by_ref : Bool) (len : Nat) (w : World) :
    (ipc_service_send data by_ref len w).2.calls
      = w.calls ++ [⟨data, by_ref, len, (ipc_service_send data by_ref len w).1⟩] := by
  unfold ipc_service_send
  split <;> rfl

/-- One turn of the send loop: it ends with this call, or the call reported
`-ENOMEM` and the loop goes on with the rest of the script. -/
theorem send_loop_cons (b : Build) (data : Msg) (by_ref : Bool) (len start : Nat)
    (e : SendStep) (rest : List SendStep) (cnt : Nat) (w : World) :
    mspi_ipc_data_send_loop b data by_ref len start (e :: rest) cnt w
        = ipc_service_send data by_ref len { w with chan := e :: rest }
      ∨ ((ipc_service_send data by_ref len { w with chan := e :: rest }).1 = -ENOMEM
          ∧ mspi_ipc_data_send_loop b data by_ref len start (e :: rest) cnt w
            = mspi_ipc_data_send_loop b data by_ref len start rest
                ((cnt + UINT32_MOD - 1) % UINT32_MOD)
                (ipc_service_send data by_ref len { w with chan := e :: rest }).2) := by
  rw [mspi_ipc_data_send_loop]
  split_ifs
  all_goals first
    | exact Or.inl rfl
    | exact Or.inr ⟨by assumption, rfl⟩

/-- The send loop leaves everything but the call log, the channel script and the clock alone. -/
theorem send_loop_frame (b : Build) (data : Msg) (by_ref : Bool) (len start : Nat)
    (script : List SendStep) (cnt : Nat) (w : World) :
    OnlySend w (mspi_ipc_data_send_loop b data by_ref len start script cnt w).2 := by
  induction script generalizing cnt w with
  | nil =>
    rw [mspi_ipc_data_send_loop]
    exact onlySend_ipc_service_send data by_ref len w []
  | cons e rest ih =>
    rcases send_loop_cons b data by_ref len start e rest cnt w with h | ⟨_, h⟩
    · rw [h]; exact onlySend_ipc_service_send data by_ref len w _
    · rw [h]
      exact onlySend_trans (onlySend_ipc_service_send data by_ref len w _) (ih _ _)

theorem sendLog_single (data : Msg) (by_ref : Bool) (len : Nat) (rc : Int) :
    SendLog data by_ref len rc [⟨data, by_ref, len, rc⟩] := by
  refine ⟨by simp, by simp, ?_⟩
  by_cases h : 0 ≤ rc <;> simp [accepted, h]

theorem send_loop_calls (b : Build) (data : Msg) (by_ref : Bool) (len start : Nat)
    (script : List SendStep) (cnt : Nat) (w : World) :
    ∃ l, (mspi_ipc_data_send_loop b data by_ref len start script cnt w).2.calls = w.calls ++ l
      ∧ SendLog data by_ref len
          (mspi_ipc_data_send_loop b data by_ref len start script cnt w).1 l := by
  induction script generalizing cnt w with
  | nil =>
    rw [mspi_ipc_data_send_loop]
    exact ⟨_, calls_ipc_service_send data by_ref len _, sendLog_single _ _ _ _⟩
  | cons e rest ih =>
    rcases send_loop_cons b data by_ref len start e rest cnt w with h | ⟨hrc, h⟩
    · rw [h]
      exact ⟨_, calls_ipc_service_send data by_ref len _, sendLog_single _ _ _ _⟩
    · rw [h]
      obtain ⟨l, hl, hne, hall, hacc⟩ := ih ((cnt + UINT32_MOD - 1) % UINT32_MOD)
        (ipc_service_send data by_ref len { w with chan := e :: rest }).2
      refine ⟨⟨data, by_ref, len, -ENOMEM⟩ :: l, ?_, by simp, ?_, ?_⟩
      · rw [hl, calls_ipc_service_send, hrc]
        simp
      · intro c hc
        rcases List.mem_cons.mp hc with h | h
        · subst h; simp
        · exact hall c h
      · rw [List.filter_cons]
        have hneg : accepted ⟨data, by_ref, len, -ENOMEM⟩ = false := by
          simp [accepted, ENOMEM]
        rw [hneg]
        exact hacc

/-! ### The round trip -/

theorem quiet_of_onlySend {w w1 : World} (h : OnlySend w w1) :
    w1.dev_data = w.dev_data ∧ w1.mem = w.mem ∧ w1.trips = w.trips
      ∧ w1.mismatches = w.mismatches ∧ w1.state_reads = w.state_reads := by
  obtain ⟨c, ch, u, rfl⟩ := h
  exact ⟨rfl, rfl, rfl, rfl, rfl⟩

theorem mspi_ipc_data_send_spec (b : Build) (opcode : nrfe_mspi_opcode_t) (data : Msg)
    (by_ref : Bool) (len : Nat) (w : World) :
    ((mspi_ipc_data_send b opcode data by_ref len w).2.dev_data = w.dev_data
      ∧ (mspi_ipc_data_send b opcode data by_ref len w).2.mem = w.mem
      ∧ (mspi_ipc_data_send b opcode data by_ref len w).2.trips = w.trips
      ∧ (mspi_ipc_data_send b opcode data by_ref len w).2.mismatches = w.mismatches
      ∧ (mspi_ipc_data_send b opcode data by_ref len w).2.state_reads = w.state_reads)
    ∧ ∃ l, (mspi_ipc_data_send b opcode data by_ref len w).2.calls = w.calls ++ l
        ∧ SendLog data by_ref len (mspi_ipc_data_send b opcode data by_ref len w).1 l := by
  unfold mspi_ipc_data_send
  dsimp only
  split_ifs
  · exact ⟨quiet_of_onlySend (send_loop_frame _ _ _ _ _ _ _ _), send_loop_calls _ _ _ _ _ _ _ _⟩
  · have hq := quiet_of_onlySend (send_loop_frame b data by_ref len (k_uptime_get_32 w)
        (atomic_clear_bit w opcode).chan EP_SEND_TIMEOUT_MS (atomic_clear_bit w opcode))
    have hc := send_loop_calls b data by_ref len (k_uptime_get_32 w)
        (atomic_clear_bit w opcode).chan EP_SEND_TIMEOUT_MS (atomic_clear_bit w opcode)
    exact ⟨hq, hc⟩

theorem send_data_spec (b : Build) (opcode : nrfe_mspi_opcode_t) (data : Msg) (len : Nat)
    (w : World) : RoundTrip opcode data w (send_data b opcode data len w) := by
  have key : ∀ (by_ref : Bool) (n : Nat),
      RoundTrip opcode data w
        (let s := mspi_ipc_data_send b opcode data by_ref n w
         let r := if s.1 < 0 then s else nrfe_mspi_wait_for_response b opcode IPC_TIMEOUT_MS s.2
         (r.1, { r.2 with trips := r.2.trips ++ [(opcode, r.1)] })) := by
    intro by_ref n
    obtain ⟨⟨h1, h2, h3, h4, h5⟩, l, hl, hne, hall, hacc⟩ :=
      mspi_ipc_data_send_spec b opcode data by_ref n w
    dsimp only
    split_ifs with hneg
    · refine ⟨h1, h2, h4, h5, ?_, le_of_lt hneg, l, hl, hne, fun c hc => (hall c hc).1, ?_⟩
      · simp [h3]
      · right
        rw [hacc, if_neg (not_le.mpr hneg)]
        exact ⟨rfl, hneg⟩
    · obtain ⟨q1, q2, q3, q4, q5, q6⟩ := quiet_wait b opcode IPC_TIMEOUT_MS
        (mspi_ipc_data_send b opcode data by_ref n w).2
      refine ⟨q1.trans h1, q2.trans h2, q5.trans h4, q6.trans h5, ?_, ?_, l, q3.trans hl, hne,
        fun c hc => (hall c hc).1, ?_⟩
      · simp [q4, h3]
      · rcases wait_rc b opcode IPC_TIMEOUT_MS
          (mspi_ipc_data_send b opcode data by_ref n w).2 with h | h
        · simp only [h]; exact le_refl 0
        · simp only [h]; decide
      · left
        rw [hacc, if_pos (not_lt.mp hneg)]
  unfold send_data
  split_ifs
  · exact key true b.sizeof_ptr
  · exact key false len

/-! ### Up-front checks of `api_transceive` -/

/-- The world after a rejected call is the world before it. -/
theorem api_transceive_async (b : Build) (dev_id : mspi_dev_id) (req : mspi_xfer) (w : World)
    (h : req.async = true) : api_transceive b dev_id req w = (-ENOTSUP, w) := by
  simp [api_transceive, h]

theorem api_transceive_fault (b : Build) (dev_id : mspi_dev_id) (req : mspi_xfer) (w : World)
    (h : req.async = false)
    (hf : req.num_packet = 0 ∨ req.packets = none
      ∨ b.CONFIG_MSPI_COMPLETION_TIMEOUT_TOLERANCE < req.timeout) :
    api_transceive b dev_id req w = (-EFAULT, w) := by
  simp [api_transceive, h, hf]

/-- Past the up-front checks the call is the `ConfigTransfer` round trip followed by the packets. -/
theorem api_transceive_run (b : Build) (dev_id : mspi_dev_id) (req : mspi_xfer) (w : World)
    (h : req.async = false) (hn : req.num_packet ≠ 0) (hp : req.packets ≠ none)
    (ht : req.timeout ≤ b.CONFIG_MSPI_COMPLETION_TIMEOUT_TOLERANCE) :
    api_transceive b dev_id req w
      = (let r := send_data b NRFE_MSPI_CONFIG_XFER (Msg.xfer_config (config_xfer_msg dev_id req))
            b.sizeof_xfer_config_msg { w with dev_data := ⟨config_xfer_msg dev_id req⟩ }
         if r.1 < 0 then r else transceive_loop b req req.num_packet 0 r.2) := by
  have hc : ¬ (req.num_packet = 0 ∨ req.packets = none
      ∨ b.CONFIG_MSPI_COMPLETION_TIMEOUT_TOLERANCE < req.timeout) := by
    rintro (h1 | h1 | h1)
    · exact hn h1
    · exact hp h1
    · exact absurd ht (not_le.mpr h1)
  simp only [api_transceive, h, hc, if_false, Bool.false_eq_true]
  rfl

/-! ### One packet -/

/-- The body of `xfer_packet` in two steps: the round trip with the built message, then the staging check. -/
theorem xfer_packet_eq (b : Build) (p : mspi_xfer_packet) (t : Nat) (w : World) :
    xfer_packet b p t w
      = consume_staging p
          (send_data b (packet_opcode p) (Msg.xfer_packet (packet_msg b p w.mem))
            (packet_len b p) { w with buffers := w.buffers ++ [packet_len b p] }) := rfl

theorem without_payload_packet_msg (b : Build) (p : mspi_xfer_packet) (mem : Nat → Nat) :
    without_payload (Msg.xfer_packet (packet_msg b p mem)) = packet_header p := rfl

theorem xfer_packet_spec (b : Build) (p : mspi_xfer_packet) (t : Nat) (w : World) :
    PacketStep b p w (xfer_packet b p t w) := by
  rw [xfer_packet_eq]
  obtain ⟨h1, h2, h3, h4, h5, h6, l, hl, hne, hall, hacc⟩ :=
    send_data_spec b (packet_opcode p) (Msg.xfer_packet (packet_msg b p w.mem)) (packet_len b p)
      { w with buffers := w.buffers ++ [packet_len b p] }
  unfold consume_staging
  split
  · split_ifs
    · exact ⟨h1, h4, _, h6, h5, Or.inr ⟨rfl, _, by rw [h3]⟩, l, hl, hne, hall, hacc⟩
    · exact ⟨h1, h4, _, h6, h5, Or.inl ⟨rfl, h3⟩, l, hl, hne, hall, hacc⟩
    · exact ⟨h1, h4, _, h6, h5, Or.inl ⟨rfl, h3⟩, l, hl, hne, hall, hacc⟩
  · exact ⟨h1, h4, _, h6, h5, Or.inl ⟨rfl, h3⟩, l, hl, hne, hall, hacc⟩

theorem start_next_packet_eq (b : Build) (req : mspi_xfer) (i : Nat) (w : World) :
    start_next_packet b req i w
      = if b.MAX_TX_MSG_SIZE ≤ (packets_at req i).num_bytes then (-EINVAL, w)
        else xfer_packet b (packets_at req i) req.timeout w := rfl

/-! ### The packet loop -/

theorem expected_packets_succ (req : mspi_xfer) (done n : Nat) :
    expected_packets req done (n + 1)
      = packet_header (packets_at req done) :: expected_packets req (done + 1) n := by
  unfold expected_packets
  rw [List.range_succ_eq_map, List.map_cons, List.map_map]
  congr 1
  apply List.map_congr_left
  intro i _
  simp only [Function.comp, Nat.succ_eq_add_one]
  congr 2
  omega

theorem sent_append (w w1 : World) (l : List IpcCall) (h : w1.calls = w.calls ++ l) :
    sent w1 = sent w ++ (l.filter accepted).map IpcCall.data := by
  simp [sent, h]

theorem transceive_loop_succ (b : Build) (req : mspi_xfer) (n done : Nat) (w : World) :
    transceive_loop b req (n + 1) done w
      = if (start_next_packet b req done w).1 < 0 then start_next_packet b req done w
        else transceive_loop b req n (done + 1) (start_next_packet b req done w).2 := rfl

/-- The ledger of the packet loop. -/
theorem transceive_loop_spec (b : Build) (req : mspi_xfer) (n : Nat) :
    ∀ (done : Nat) (w : World),
      (transceive_loop b req n done w).2.dev_data = w.dev_data
      ∧ (transceive_loop b req n done w).1 ≤ 0
      ∧ ∃ lt lm, (transceive_loop b req n done w).2.trips = w.trips ++ lt
          ∧ (transceive_loop b req n done w).2.mismatches = w.mismatches ++ lm
          ∧ ((∀ t ∈ lt, t.2 = 0) → lm = []
              → (∀ i, i < n → (packets_at req (done + i)).num_bytes < b.MAX_TX_MSG_SIZE)
              → (transceive_loop b req n done w).1 = 0)
          ∧ (0 ≤ (transceive_loop b req n done w).1
              → ∃ l, sent (transceive_loop b req n done w).2 = sent w ++ l
                  ∧ l.map without_payload = expected_packets req done n) := by
  induction n with
  | zero =>
    intro done w
    refine ⟨rfl, le_refl _, [], [], by simp [transceive_loop], by simp [transceive_loop], ?_, ?_⟩
    · intro _ _ _; rfl
    · intro _; exact ⟨[], by simp [transceive_loop], by simp [expected_packets]⟩
  | succ n ih =>
    intro done w
    rw [transceive_loop_succ, start_next_packet_eq]
    by_cases hsz : b.MAX_TX_MSG_SIZE ≤ (packets_at req done).num_bytes
    · have hneg : (-EINVAL : Int) < 0 := by decide
      have hneg2 : ((-EINVAL : Int), w).1 < 0 := hneg
      rw [if_pos hsz, if_pos hneg2]
      refine ⟨rfl, le_of_lt hneg, [], [], by simp, by simp, ?_, ?_⟩
      · intro _ _ hs
        have := hs 0 (Nat.succ_pos n)
        simp only [Nat.add_zero] at this
        exact absurd hsz (not_le.mpr this)
      · intro h; exact absurd h (not_le.mpr hneg)
    · rw [if_neg hsz]
      obtain ⟨p1, p2, rt, hrt, ptr, pmis, l, hl, hne, hall, hacc⟩ :=
        xfer_packet_spec b (packets_at req done) req.timeout w
      have hle : (xfer_packet b (packets_at req done) req.timeout w).1 ≤ 0 := by
        rcases pmis with ⟨h, _⟩ | ⟨h, _⟩
        · rw [h]; exact hrt
        · rw [h]; decide
      by_cases hneg : (xfer_packet b (packets_at req done) req.timeout w).1 < 0
      · rw [if_pos hneg]
        rcases pmis with ⟨h, hm⟩ | ⟨h, m, hm⟩
        · refine ⟨p1, hle, _, [], ptr, by simp [hm], ?_, ?_⟩
          · intro ht _ _
            have h0 : rt = 0 := ht (packet_opcode (packets_at req done), rt) (by simp)
            rw [h, h0] at hneg
            exact absurd hneg (lt_irrefl 0)
          · intro h0; exact absurd h0 (not_le.mpr hneg)
        · refine ⟨p1, hle, _, [m], ptr, hm, ?_, ?_⟩
          · intro _ hlm _
            exact absurd hlm (by simp)
          · intro h0; exact absurd h0 (not_le.mpr hneg)
      · rw [if_neg hneg]
        have hrc0 : (xfer_packet b (packets_at req done) req.timeout w).1 = 0 :=
          le_antisymm hle (not_lt.mp hneg)
        have hrt0 : (xfer_packet b (packets_at req done) req.timeout w).1 = rt
            ∧ (xfer_packet b (packets_at req done) req.timeout w).2.mismatches
                = w.mismatches := by
          rcases pmis with h | ⟨h, _⟩
          · exact h
          · rw [h] at hrc0; exact absurd hrc0 (by decide)
        have hsent : sent (xfer_packet b (packets_at req done) req.timeout w).2
            = sent w ++ [Msg.xfer_packet (packet_msg b (packets_at req done) w.mem)] := by
          rw [sent_append _ _ l hl]
          rcases hacc with h | ⟨_, h⟩
          · rw [h]
          · rw [← hrt0.1, hrc0] at h; exact absurd h (lt_irrefl 0)
        obtain ⟨q1, q2, lt, lm, qtr, qmis, qa, qb⟩ :=
          ih (done + 1) (xfer_packet b (packets_at req done) req.timeout w).2
        refine ⟨q1.trans p1, q2, (packet_opcode (packets_at req done), rt) :: lt, lm, ?_, ?_,
          ?_, ?_⟩
        · rw [qtr, ptr]; simp
        · rw [qmis, hrt0.2]
        · intro ht hlm hs
          apply qa (fun t h => ht t (List.mem_cons_of_mem _ h)) hlm
          intro i hi
          have := hs (i + 1) (Nat.succ_lt_succ hi)
          rwa [show done + (i + 1) = done + 1 + i by omega] at this
        · intro h0
          obtain ⟨l2, hl2, hm2⟩ := qb h0
          refine ⟨Msg.xfer_packet (packet_msg b (packets_at req done) w.mem) :: l2, ?_, ?_⟩
          · rw [hl2, hsent]; simp
          · rw [expected_packets_succ, List.map_cons, hm2, without_payload_packet_msg]

/-! ### The whole call -/

theorem range_map_getD (ps : List mspi_xfer_packet) (d : mspi_xfer_packet) :
    (List.range ps.length).map (fun i => ps.getD i d) = ps := by
  apply List.ext_getElem
  · simp
  · intro i h1 h2
    simp [List.getD_eq_getElem?_getD, List.getElem?_eq_getElem h2]

theorem expected_packets_all (req : mspi_xfer) (ps : List mspi_xfer_packet)
    (h_ps : req.packets = some ps) :
    expected_packets req 0 ps.length = ps.map packet_header := by
  have h : ∀ i, packets_at req (0 + i) = ps.getD i ⟨MSPI_RX, 0, 0, 0, 0⟩ := by
    intro i
    simp [packets_at, h_ps]
  unfold expected_packets
  simp only [h]
  conv_rhs => rw [← range_map_getD ps ⟨MSPI_RX, 0, 0, 0, 0⟩]
  rw [List.map_map]
  rfl

/-- The ledger of a whole call that got past the up-front checks. -/
theorem api_transceive_spec (b : Build) (dev_id : mspi_dev_id) (req : mspi_xfer) (w : World)
    (ps : List mspi_xfer_packet)
    (h_async : req.async = false) (h_num : 0 < req.num_packet) (h_ps : req.packets = some ps)
    (h_len : ps.length = req.num_packet)
    (h_to : req.timeout ≤ b.CONFIG_MSPI_COMPLETION_TIMEOUT_TOLERANCE) :
    ∃ lt lm, (api_transceive b dev_id req w).2.trips = w.trips ++ lt
      ∧ (api_transceive b dev_id req w).2.mismatches = w.mismatches ++ lm
      ∧ ((∀ t ∈ lt, t.2 = 0) → lm = [] → (∀ p ∈ ps, p.num_bytes < b.MAX_TX_MSG_SIZE)
          → (api_transceive b dev_id req w).1 = 0)
      ∧ (0 ≤ (api_transceive b dev_id req w).1
          → ∃ l, sent (api_transceive b dev_id req w).2 = sent w ++ l
              ∧ l.map without_payload
                  = Msg.xfer_config (config_xfer_msg dev_id req) :: ps.map packet_header) := by
  rw [api_transceive_run b dev_id req w h_async (Nat.pos_iff_ne_zero.mp h_num)
    (by rw [h_ps]; simp) h_to]
  obtain ⟨h1, h2, h3, h4, h5, h6, l, hl, hne, hall, hacc⟩ :=
    send_data_spec b NRFE_MSPI_CONFIG_XFER (Msg.xfer_config (config_xfer_msg dev_id req))
      b.sizeof_xfer_config_msg { w with dev_data := ⟨config_xfer_msg dev_id req⟩ }
  have hs0 := sent_append { w with dev_data := ⟨config_xfer_msg dev_id req⟩ } _ l hl
  dsimp only
  generalize send_data b NRFE_MSPI_CONFIG_XFER (Msg.xfer_config (config_xfer_msg dev_id req))
      b.sizeof_xfer_config_msg { w with dev_data := ⟨config_xfer_msg dev_id req⟩ } = r0
    at h1 h2 h3 h4 h5 h6 hl hacc hs0 ⊢
  have hs1 : sent r0.2 = sent w ++ (l.filter accepted).map IpcCall.data := hs0
  have h3a : r0.2.mismatches = w.mismatches := h3
  have h5a : r0.2.trips = w.trips ++ [(NRFE_MSPI_CONFIG_XFER, r0.1)] := h5
  by_cases hneg : r0.1 < 0
  · rw [if_pos hneg]
    refine ⟨[(NRFE_MSPI_CONFIG_XFER, r0.1)], [], h5a, by simp [h3a], ?_, ?_⟩
    · intro ht _ _
      have h0 : r0.1 = 0 := ht (NRFE_MSPI_CONFIG_XFER, r0.1) (List.mem_singleton_self _)
      rw [h0] at hneg
      exact absurd hneg (lt_irrefl 0)
    · intro h0; exact absurd h0 (not_le.mpr hneg)
  · rw [if_neg hneg]
    obtain ⟨q1, q2, lt, lm, qtr, qmis, qa, qb⟩ :=
      transceive_loop_spec b req req.num_packet 0 r0.2
    have hsent : sent r0.2 = sent w ++ [Msg.xfer_config (config_xfer_msg dev_id req)] := by
      rw [hs1]
      rcases hacc with h | ⟨_, h⟩
      · rw [h]
      · exact absurd h hneg
    refine ⟨(NRFE_MSPI_CONFIG_XFER, r0.1) :: lt, lm, ?_, ?_, ?_, ?_⟩
    · rw [qtr, h5a]; simp
    · rw [qmis, h3a]
    · intro ht hlm hs
      apply qa (fun t h => ht t (List.mem_cons_of_mem _ h)) hlm
      intro i hi
      apply hs
      have hp : packets_at req (0 + i) = ps.getD i ⟨MSPI_RX, 0, 0, 0, 0⟩ := by
        simp [packets_at, h_ps]
      rw [hp, List.getD_eq_getElem?_getD, List.getElem?_eq_getElem (by omega)]
      exact List.getElem_mem _
    · intro h0
      obtain ⟨l2, hl2, hm2⟩ := qb h0
      refine ⟨Msg.xfer_config (config_xfer_msg dev_id req) :: l2, ?_, ?_⟩
      · rw [hl2, hsent]; simp
      · rw [List.map_cons, hm2, ← h_len, expected_packets_all req ps h_ps]
        rfl

/-! ### Answered and unanswered round trips -/

/-- A poll that finds the bit set ends the loop at once. -/
theorem poll_loop_hit (b : Build) (opcode : nrfe_mspi_opcode_t) (timeout start : Nat)
    (script : List Batch) (cnt : Nat) (w : World) (h : opcode ∈ w.ipc_atomic_sem) :
    poll_loop b opcode timeout start script cnt w = (0, atomic_clear_bit w opcode) := by
  cases script <;> simp [poll_loop, atomic_test_and_clear_bit, h]

theorem consume_staging_none (p : mspi_xfer_packet) (r : Int × World)
    (h : r.2.ipc_receive_buffer = none) : consume_staging p r = r := by
  simp [consume_staging, h]

theorem transceive_loop_fail_at (b : Build) (req : mspi_xfer) (m : Nat) :
    ∀ (k done : Nat) (w : World),
      (transceive_loop b req k done w).1 = 0
      → (start_next_packet b req (done + k) (transceive_loop b req k done w).2).1 < 0
      → transceive_loop b req (m + 1 + k) done w
          = start_next_packet b req (done + k) (transceive_loop b req k done w).2 := by
  intro k
  induction k with
  | zero =>
    intro done w _ hf
    have hf2 : (start_next_packet b req done w).1 < 0 := hf
    show transceive_loop b req (m + 1) done w = start_next_packet b req done w
    rw [transceive_loop_succ, if_pos hf2]
  | succ k ih =>
    intro done w h0 hf
    rw [transceive_loop_succ] at h0 hf
    show transceive_loop b req (m + 1 + k + 1) done w = _
    rw [transceive_loop_succ, transceive_loop_succ]
    by_cases hneg : (start_next_packet b req done w).1 < 0
    · rw [if_pos hneg] at h0
      rw [h0] at hneg
      exact absurd hneg (lt_irrefl 0)
    · simp only [if_neg hneg] at h0 hf ⊢
      have e1 : done + (k + 1) = done + 1 + k := by omega
      rw [e1] at hf ⊢
      exact ih (done + 1) _ h0 hf

theorem expected_packets_take (req : mspi_xfer) (ps : List mspi_xfer_packet)
    (h_ps : req.packets = some ps) (k : Nat) (hk : k ≤ ps.length) :
    expected_packets req 0 k = (ps.take k).map packet_header := by
  have h := expected_packets_all { req with packets := some (ps.take k) } (ps.take k) rfl
  rw [List.length_take, Nat.min_eq_left hk] at h
  rw [← h]
  unfold expected_packets
  apply List.map_congr_left
  intro i hi
  have hi2 : i < k := List.mem_range.mp hi
  simp only [packets_at, h_ps, Option.getD_some, Nat.zero_add]
  rw [List.getD_eq_getElem?_getD, List.getD_eq_getElem?_getD, List.getElem?_take_of_lt hi2]

/-- A call whose packet `k` is the first to fail returns what the processing of packet `k` returned. -/
theorem api_transceive_stops_at (b : Build) (dev_id : mspi_dev_id) (req : mspi_xfer) (w : World)
    (k : Nat)
    (h_async : req.async = false) (h_ps : req.packets ≠ none)
    (h_to : req.timeout ≤ b.CONFIG_MSPI_COMPLETION_TIMEOUT_TOLERANCE)
    (hk : k < req.num_packet)
    (h_cfg : 0 ≤ (after_config b dev_id req w).1)
    (h_before : (before_packet b dev_id req w k).1 = 0)
    (h_fail : (at_packet b dev_id req w k).1 < 0) :
    api_transceive b dev_id req w = at_packet b dev_id req w k := by
  rw [api_transceive_run b dev_id req w h_async (by omega) h_ps h_to]
  show (if (after_config b dev_id req w).1 < 0 then after_config b dev_id req w
    else transceive_loop b req req.num_packet 0 (after_config b dev_id req w).2) = _
  rw [if_neg (not_lt.mpr h_cfg)]
  have hn : req.num_packet = (req.num_packet - 1 - k) + 1 + k := by omega
  rw [hn]
  have h := transceive_loop_fail_at b req (req.num_packet - 1 - k) k 0
    (after_config b dev_id req w).2 h_before (by rw [Nat.zero_add]; exact h_fail)
  rw [h, Nat.zero_add]
  rfl

/-- What was sent and stored when packet `k` starts. -/
theorem before_packet_ledger (b : Build) (dev_id : mspi_dev_id) (req : mspi_xfer) (w : World)
    (ps : List mspi_xfer_packet) (k : Nat) (h_ps : req.packets = some ps) (hk : k ≤ ps.length)
    (h_cfg : 0 ≤ (after_config b dev_id req w).1)
    (h_before : (before_packet b dev_id req w k).1 = 0) :
    (before_packet b dev_id req w k).2.dev_data.xfer_config_msg = config_xfer_msg dev_id req
    ∧ ∃ l, sent (before_packet b dev_id req w k).2 = sent w ++ l
        ∧ l.map without_payload
            = Msg.xfer_config (config_xfer_msg dev_id req) :: (ps.take k).map packet_header := by
  obtain ⟨h1, h2, h3, h4, h5, h6, l, hl, hne, hall, hacc⟩ :=
    send_data_spec b NRFE_MSPI_CONFIG_XFER (Msg.xfer_config (config_xfer_msg dev_id req))
      b.sizeof_xfer_config_msg { w with dev_data := ⟨config_xfer_msg dev_id req⟩ }
  have hs0 := sent_append { w with dev_data := ⟨config_xfer_msg dev_id req⟩ } _ l hl
  obtain ⟨q1, q2, lt, lm, qtr, qmis, qa, qb⟩ :=
    transceive_loop_spec b req k 0 (after_config b dev_id req w).2
  obtain ⟨l2, hl2, hm2⟩ := qb (le_of_eq h_before.symm)
  have hsent : sent (after_config b dev_id req w).2
      = sent w ++ [Msg.xfer_config (config_xfer_msg dev_id req)] := by
    have hs1 : sent (after_config b dev_id req w).2
        = sent w ++ (l.filter accepted).map IpcCall.data := hs0
    rw [hs1]
    rcases hacc with h | ⟨_, h⟩
    · rw [h]
    · exact absurd h (not_lt.mpr h_cfg)
  refine ⟨?_, Msg.xfer_config (config_xfer_msg dev_id req) :: l2, ?_, ?_⟩
  · have : (before_packet b dev_id req w k).2.dev_data = (after_config b dev_id req w).2.dev_data :=
      q1
    rw [this]
    have h1a : (after_config b dev_id req w).2.dev_data = ⟨config_xfer_msg dev_id req⟩ := h1
    rw [h1a]
  · have : sent (before_packet b dev_id req w k).2 = sent (after_config b dev_id req w).2 ++ l2 :=
      hl2
    rw [this, hsent]; simp
  · rw [List.map_cons, hm2, expected_packets_take req ps h_ps k hk]
    rfl

/-! ### Staging is not read by a round trip -/

theorem xfer_packet_send_dir (b : Build) (q : mspi_xfer_packet) (t : Nat) (v : World)
    (hq : q.dir = MSPI_TX) : xfer_packet b q t v = packet_round_trip b q v := by
  rw [xfer_packet_eq]
  unfold consume_staging
  have hne : ¬ (q.dir = MSPI_RX ∧ 0 < (send_data b (packet_opcode q)
      (Msg.xfer_packet (packet_msg b q v.mem)) (packet_len b q)
      { v with buffers := v.buffers ++ [packet_len b q] }).2.ipc_received) := by
    rw [hq]; simp
  split
  · rw [if_neg hne]; rfl
  · rfl

theorem sem_count_unstaged (w : World) (s : Sem) : sem_count (unstaged w) s = sem_count w s := by
  cases s <;> rfl

theorem unstaged_sem_set (w : World) (s : Sem) (n : Nat) :
    unstaged (sem_set w s n) = sem_set (unstaged w) s n := by
  cases s <;> rfl

theorem unstaged_give_or_set (b : Build) (s : Sem) (bit : nrfe_mspi_opcode_t) (w : World) :
    unstaged (give_or_set b s bit w) = give_or_set b s bit (unstaged w) := by
  unfold give_or_set k_sem_give atomic_set_bit
  rw [sem_count_unstaged]
  have h : (unstaged w).ipc_atomic_sem = w.ipc_atomic_sem := rfl
  rw [h]
  split_ifs
  · exact unstaged_sem_set _ _ _
  · rfl
  · rfl
  · rfl

theorem unstaged_ep_bound (b : Build) (w : World) :
    unstaged (ep_bound b w) = ep_bound b (unstaged w) := by
  unfold ep_bound
  rw [unstaged_give_or_set]
  rfl

theorem unstaged_ep_recv (b : Build) (r : Resp) (w : World) :
    unstaged (ep_recv b r w) = ep_recv b ⟨r.opcode, 0, r.data⟩ (unstaged w) := by
  unfold ep_recv
  dsimp only
  split
  · split_ifs
    · exact unstaged_give_or_set _ _ _ _
    · rfl
  · exact unstaged_give_or_set _ _ _ _
  · exact unstaged_give_or_set _ _ _ _
  · exact unstaged_give_or_set _ _ _ _
  · exact unstaged_give_or_set _ _ _ _
  · rw [unstaged_give_or_set]
    congr 1
    split_ifs
    all_goals first
      | rfl
      | (exfalso; omega)
  · rfl
  · rfl

theorem same_dispatch (b : Build) (ev : IpcEvent) (v v1 : World) (h : SameButStaging v v1) :
    SameButStaging (dispatch b v ev) (dispatch b v1 ev) := by
  unfold SameButStaging at *
  cases ev with
  | bound =>
    show unstaged (ep_bound b v) = unstaged (ep_bound b v1)
    rw [unstaged_ep_bound, unstaged_ep_bound, h]
  | received r =>
    show unstaged (ep_recv b r v) = unstaged (ep_recv b r v1)
    rw [unstaged_ep_recv, unstaged_ep_recv, h]

theorem same_deliver (b : Build) (evs : List IpcEvent) (v v1 : World)
    (h : SameButStaging v v1) : SameButStaging (deliver b evs v) (deliver b evs v1) := by
  induction evs generalizing v v1 with
  | nil => exact h
  | cons ev rest ih =>
    simp only [deliver, List.foldl_cons]
    exact ih _ _ (same_dispatch b ev v v1 h)

theorem ipc_service_send_unstaged (data : Msg) (by_ref : Bool) (len : Nat) (w : World)
    (c : List SendStep) :
    ipc_service_send data by_ref len { unstaged w with chan := c }
      = ((ipc_service_send data by_ref len { w with chan := c }).1,
          unstaged (ipc_service_send data by_ref len { w with chan := c }).2) := by
  cases c <;> rfl

theorem k_uptime_unstaged (w : World) : k_uptime_get_32 (unstaged w) = k_uptime_get_32 w := rfl

theorem send_loop_unstaged (b : Build) (data : Msg) (by_ref : Bool) (len start : Nat)
    (script : List SendStep) (cnt : Nat) (w : World) :
    mspi_ipc_data_send_loop b data by_ref len start script cnt (unstaged w)
      = ((mspi_ipc_data_send_loop b data by_ref len start script cnt w).1,
          unstaged (mspi_ipc_data_send_loop b data by_ref len start script cnt w).2) := by
  induction script generalizing cnt w with
  | nil =>
    rw [mspi_ipc_data_send_loop, mspi_ipc_data_send_loop]
    exact ipc_service_send_unstaged data by_ref len w []
  | cons e rest ih =>
    rw [mspi_ipc_data_send_loop, mspi_ipc_data_send_loop]
    have h := ipc_service_send_unstaged data by_ref len w (e :: rest)
    simp only [h, k_uptime_unstaged, ih]
    split_ifs <;> rfl

theorem mspi_ipc_data_send_unstaged (b : Build) (opcode : nrfe_mspi_opcode_t) (data : Msg)
    (by_ref : Bool) (len : Nat) (w : World) :
    mspi_ipc_data_send b opcode data by_ref len (unstaged w)
      = ((mspi_ipc_data_send b opcode data by_ref len w).1,
          unstaged (mspi_ipc_data_send b opcode data by_ref len w).2) := by
  unfold mspi_ipc_data_send
  dsimp only
  split_ifs
  · exact send_loop_unstaged b data by_ref len _ _ _ w
  · exact send_loop_unstaged b data by_ref len _ _ _ (atomic_clear_bit w opcode)

theorem same_update (g : World → World) (hg : ∀ x, unstaged (g x) = g (unstaged x))
    {v v1 : World} (h : SameButStaging v v1) : SameButStaging (g v) (g v1) := by
  unfold SameButStaging at *
  rw [hg, hg, h]

theorem same_sem_count {v v1 : World} (h : SameButStaging v v1) (s : Sem) :
    sem_count v s = sem_count v1 s := by
  unfold SameButStaging at h
  rw [← sem_count_unstaged v, ← sem_count_unstaged v1, h]

theorem same_uptime {v v1 : World} (h : SameButStaging v v1) : v.uptime = v1.uptime := by
  have h2 : unstaged v = unstaged v1 := h
  have h3 := congrArg World.uptime h2
  exact h3

theorem same_atomic {v v1 : World} (h : SameButStaging v v1) :
    v.ipc_atomic_sem = v1.ipc_atomic_sem := by
  have h2 : unstaged v = unstaged v1 := h
  have h3 := congrArg World.ipc_atomic_sem h2
  exact h3

theorem same_inbox {v v1 : World} (h : SameButStaging v v1) : v.inbox = v1.inbox := by
  have h2 : unstaged v = unstaged v1 := h
  have h3 := congrArg World.inbox h2
  exact h3

theorem same_k_sem_take_wait (b : Build) (s : Sem) (script : List Batch) (budget : Nat)
    (v v1 : World) (h : SameButStaging v v1) :
    (k_sem_take_wait b s script budget v).1 = (k_sem_take_wait b s script budget v1).1
    ∧ SameButStaging (k_sem_take_wait b s script budget v).2
        (k_sem_take_wait b s script budget v1).2 := by
  induction script generalizing budget v v1 with
  | nil =>
    rw [k_sem_take_wait, k_sem_take_wait, same_uptime h]
    exact ⟨rfl, same_update (fun x => { x with inbox := [], uptime := v1.uptime + budget })
      (fun _ => rfl) h⟩
  | cons e rest ih =>
    rw [k_sem_take_wait, k_sem_take_wait, same_uptime h]
    have hd : SameButStaging
        (deliver b e.arrivals { v with inbox := rest, uptime := v1.uptime + e.elapsed })
        (deliver b e.arrivals { v1 with inbox := rest, uptime := v1.uptime + e.elapsed }) :=
      same_deliver b _ _ _
        (same_update (fun x => { x with inbox := rest, uptime := v1.uptime + e.elapsed })
          (fun _ => rfl) h)
    dsimp only
    rw [same_sem_count hd s]
    split_ifs
    · exact ⟨rfl, same_update
        (fun x => { x with inbox := { e with elapsed := e.elapsed - budget } :: rest,
                           uptime := v1.uptime + budget }) (fun _ => rfl) h⟩
    · exact ⟨rfl, same_update (fun x => sem_set x s _) (fun x => unstaged_sem_set x s _) hd⟩
    · exact ih _ _ _ hd

theorem same_k_sem_take (b : Build) (s : Sem) (timeout : Nat) (v v1 : World)
    (h : SameButStaging v v1) :
    (k_sem_take b s timeout v).1 = (k_sem_take b s timeout v1).1
    ∧ SameButStaging (k_sem_take b s timeout v).2 (k_sem_take b s timeout v1).2 := by
  unfold k_sem_take
  rw [same_sem_count h s, same_inbox h]
  split_ifs
  · exact ⟨rfl, same_update (fun x => sem_set x s _) (fun x => unstaged_sem_set x s _) h⟩
  · exact same_k_sem_take_wait b s _ _ v v1 h

theorem same_poll_loop (b : Build) (opcode : nrfe_mspi_opcode_t) (timeout start : Nat)
    (script : List Batch) (cnt : Nat) (v v1 : World) (h : SameButStaging v v1) :
    (poll_loop b opcode timeout start script cnt v).1
      = (poll_loop b opcode timeout start script cnt v1).1
    ∧ SameButStaging (poll_loop b opcode timeout start script cnt v).2
        (poll_loop b opcode timeout start script cnt v1).2 := by
  induction script generalizing cnt v v1 with
  | nil =>
    have hc : SameButStaging (atomic_clear_bit v opcode) (atomic_clear_bit v1 opcode) :=
      same_update (fun x => atomic_clear_bit x opcode) (fun _ => rfl) h
    rw [poll_loop, poll_loop]
    simp only [atomic_test_and_clear_bit, same_atomic h]
    split_ifs
    · exact ⟨rfl, hc⟩
    · exact ⟨rfl, hc⟩
  | cons e rest ih =>
    have hc : SameButStaging (atomic_clear_bit v opcode) (atomic_clear_bit v1 opcode) :=
      same_update (fun x => atomic_clear_bit x opcode) (fun _ => rfl) h
    rw [poll_loop, poll_loop]
    simp only [atomic_test_and_clear_bit, same_atomic h]
    have hu : k_uptime_get_32 (atomic_clear_bit v opcode)
        = k_uptime_get_32 (atomic_clear_bit v1 opcode) := by
      show v.uptime % UINT32_MOD = v1.uptime % UINT32_MOD
      rw [same_uptime h]
    have hu2 : (atomic_clear_bit v opcode).uptime = (atomic_clear_bit v1 opcode).uptime := by
      show v.uptime = v1.uptime
      exact same_uptime h
    rw [hu, hu2]
    generalize (atomic_clear_bit v1 opcode).uptime + e.elapsed = u
    have hd : SameButStaging
        (deliver b e.arrivals { atomic_clear_bit v opcode with inbox := rest, uptime := u })
        (deliver b e.arrivals { atomic_clear_bit v1 opcode with inbox := rest, uptime := u }) :=
      same_deliver b _ _ _
        (same_update (fun x => { x with inbox := rest, uptime := u }) (fun _ => rfl) hc)
    split_ifs
    all_goals first
      | exact ⟨rfl, hc⟩
      | exact ih _ _ _ hd

theorem same_wait (b : Build) (opcode : nrfe_mspi_opcode_t) (timeout : Nat) (v v1 : World)
    (h : SameButStaging v v1) :
    (nrfe_mspi_wait_for_response b opcode timeout v).1
      = (nrfe_mspi_wait_for_response b opcode timeout v1).1
    ∧ SameButStaging (nrfe_mspi_wait_for_response b opcode timeout v).2
        (nrfe_mspi_wait_for_response b opcode timeout v1).2 := by
  have h0 : SameButStaging { v with waits := v.waits ++ [(opcode, timeout)] }
      { v1 with waits := v1.waits ++ [(opcode, timeout)] } :=
    same_update (fun x => { x with waits := x.waits ++ [(opcode, timeout)] }) (fun _ => rfl) h
  have hk : ∀ s, (k_sem_take b s timeout { v with waits := v.waits ++ [(opcode, timeout)] }).1
        = (k_sem_take b s timeout { v1 with waits := v1.waits ++ [(opcode, timeout)] }).1
      ∧ SameButStaging
          (k_sem_take b s timeout { v with waits := v.waits ++ [(opcode, timeout)] }).2
          (k_sem_take b s timeout { v1 with waits := v1.waits ++ [(opcode, timeout)] }).2 :=
    fun s => same_k_sem_take b s timeout _ _ h0
  unfold nrfe_mspi_wait_for_response
  dsimp only
  by_cases hmt : b.CONFIG_MULTITHREADING = true
  · rw [if_pos hmt, if_pos hmt]
    cases opcode
    all_goals dsimp only
    all_goals first
      | (rw [(hk _).1]; split_ifs <;> exact ⟨rfl, (hk _).2⟩)
      | (split_ifs <;> exact ⟨rfl, h0⟩)
  · rw [if_neg hmt, if_neg hmt]
    have hu : k_uptime_get_32 { v with waits := v.waits ++ [(opcode, timeout)] }
        = k_uptime_get_32 { v1 with waits := v1.waits ++ [(opcode, timeout)] } := by
      show v.uptime % UINT32_MOD = v1.uptime % UINT32_MOD
      rw [same_uptime h]
    have hi : v.inbox = v1.inbox := same_inbox h
    have key : ∀ (st st1 : Nat) (sc sc1 : List Batch), st = st1 → sc = sc1 →
        (poll_loop b opcode timeout st sc ((timeout * 1000) % UINT32_MOD)
            { v with waits := v.waits ++ [(opcode, timeout)] }).1
          = (poll_loop b opcode timeout st1 sc1 ((timeout * 1000) % UINT32_MOD)
            { v1 with waits := v1.waits ++ [(opcode, timeout)] }).1
        ∧ SameButStaging
          (poll_loop b opcode timeout st sc ((timeout * 1000) % UINT32_MOD)
            { v with waits := v.waits ++ [(opcode, timeout)] }).2
          (poll_loop b opcode timeout st1 sc1 ((timeout * 1000) % UINT32_MOD)
            { v1 with waits := v1.waits ++ [(opcode, timeout)] }).2 := by
      intro st st1 sc sc1 e1 e2
      subst e1
      subst e2
      exact same_poll_loop b opcode timeout _ _ _ _ _ h0
    exact key _ _ _ _ hu hi

theorem same_mspi_ipc_data_send (b : Build) (opcode : nrfe_mspi_opcode_t) (data : Msg)
    (by_ref : Bool) (len : Nat) (v v1 : World) (h : SameButStaging v v1) :
    (mspi_ipc_data_send b opcode data by_ref len v).1
      = (mspi_ipc_data_send b opcode data by_ref len v1).1
    ∧ SameButStaging (mspi_ipc_data_send b opcode data by_ref len v).2
        (mspi_ipc_data_send b opcode data by_ref len v1).2 := by
  have h2 : unstaged v = unstaged v1 := h
  have e := mspi_ipc_data_send_unstaged b opcode data by_ref len v
  have e1 := mspi_ipc_data_send_unstaged b opcode data by_ref len v1
  rw [h2, e1] at e
  constructor
  · exact (congrArg Prod.fst e).symm
  · exact (congrArg Prod.snd e).symm

/-- A round trip does not read what is staged: from worlds that differ only in
the staging it gives the same result and worlds that differ only in the staging. -/
theorem same_send_data (b : Build) (opcode : nrfe_mspi_opcode_t) (data : Msg) (len : Nat)
    (v v1 : World) (h : SameButStaging v v1) :
    (send_data b opcode data len v).1 = (send_data b opcode data len v1).1
    ∧ SameButStaging (send_data b opcode data len v).2 (send_data b opcode data len v1).2 := by
  have key : ∀ (by_ref : Bool) (n : Nat),
      (let s := mspi_ipc_data_send b opcode data by_ref n v
       let r := if s.1 < 0 then s else nrfe_mspi_wait_for_response b opcode IPC_TIMEOUT_MS s.2
       ((r.1, { r.2 with trips := r.2.trips ++ [(opcode, r.1)] }) : Int × World)).1
      = (let s := mspi_ipc_data_send b opcode data by_ref n v1
         let r := if s.1 < 0 then s else nrfe_mspi_wait_for_response b opcode IPC_TIMEOUT_MS s.2
         ((r.1, { r.2 with trips := r.2.trips ++ [(opcode, r.1)] }) : Int × World)).1
      ∧ SameButStaging
        (let s := mspi_ipc_data_send b opcode data by_ref n v
         let r := if s.1 < 0 then s else nrfe_mspi_wait_for_response b opcode IPC_TIMEOUT_MS s.2
         ((r.1, { r.2 with trips := r.2.trips ++ [(opcode, r.1)] }) : Int × World)).2
        (let s := mspi_ipc_data_send b opcode data by_ref n v1
         let r := if s.1 < 0 then s else nrfe_mspi_wait_for_response b opcode IPC_TIMEOUT_MS s.2
         ((r.1, { r.2 with trips := r.2.trips ++ [(opcode, r.1)] }) : Int × World)).2 := by
    intro by_ref n
    obtain ⟨hs1, hs2⟩ := same_mspi_ipc_data_send b opcode data by_ref n v v1 h
    obtain ⟨hw1, hw2⟩ := same_wait b opcode IPC_TIMEOUT_MS _ _ hs2
    dsimp only
    by_cases hneg : (mspi_ipc_data_send b opcode data by_ref n v1).1 < 0
    · have hneg1 : (mspi_ipc_data_send b opcode data by_ref n v).1 < 0 := by rw [hs1]; exact hneg
      rw [if_pos hneg, if_pos hneg1, hs1]
      exact ⟨rfl, same_update (fun x => { x with trips := x.trips ++ [(opcode, _)] })
        (fun _ => rfl) hs2⟩
    · have hneg1 : ¬ (mspi_ipc_data_send b opcode data by_ref n v).1 < 0 := by
        rw [hs1]; exact hneg
      rw [if_neg hneg, if_neg hneg1, hw1]
      exact ⟨rfl, same_update (fun x => { x with trips := x.trips ++ [(opcode, _)] })
        (fun _ => rfl) hw2⟩
  unfold send_data
  split_ifs
  · exact key true b.sizeof_ptr
  · exact key false len

/-- A send packet does not read what is staged. -/
theorem same_xfer_packet_send_dir (b : Build) (q : mspi_xfer_packet) (t : Nat) (v v1 : World)
    (hq : q.dir = MSPI_TX) (h : SameButStaging v v1) :
    (xfer_packet b q t v).1 = (xfer_packet b q t v1).1
    ∧ SameButStaging (xfer_packet b q t v).2 (xfer_packet b q t v1).2 := by
  rw [xfer_packet_send_dir b q t v hq, xfer_packet_send_dir b q t v1 hq]
  unfold packet_round_trip
  have h2 : unstaged v = unstaged v1 := h
  have hm : v.mem = v1.mem := by
    have h3 := congrArg World.mem h2
    exact h3
  have e : packet_msg b q v1.mem = packet_msg b q v.mem := by rw [hm]
  rw [e]
  exact same_send_data b (packet_opcode q) (Msg.xfer_packet (packet_msg b q v.mem))
    (packet_len b q) { v with buffers := v.buffers ++ [packet_len b q] }
    { v1 with buffers := v1.buffers ++ [packet_len b q] }
    (same_update (fun x => { x with buffers := x.buffers ++ [packet_len b q] })
      (fun _ => rfl) h)

/-! ### The copy-out -/

theorem read_bytes_memcpy_to (mem : Nat → Nat) (dst : Nat) (src : List Nat) (n : Nat)
    (h : src.length = n) : read_bytes (memcpy_to mem dst src n) dst n = src := by
  apply List.ext_getElem
  · simp [read_bytes, h]
  · intro i h1 h2
    have hi : i < n := by simpa [read_bytes] using h1
    simp [read_bytes, memcpy_to, hi, List.getD_eq_getElem?_getD, List.getElem?_eq_getElem h2]

/-! ### The calls of a transfer -/

theorem calls_grow_ne (l0 l : List IpcCall) (h : l ≠ []) : l0 ++ l ≠ l0 := by
  intro e
  exact h (List.append_right_eq_self.mp e)

theorem transceive_loop_calls (b : Build) (req : mspi_xfer) (n : Nat) :
    ∀ (done : Nat) (w : World), ∃ l, (transceive_loop b req n done w).2.calls = w.calls ++ l := by
  induction n with
  | zero => intro done w; exact ⟨[], by simp [transceive_loop]⟩
  | succ n ih =>
    intro done w
    rw [transceive_loop_succ]
    have hx : ∃ l, (start_next_packet b req done w).2.calls = w.calls ++ l := by
      rw [start_next_packet_eq]
      split_ifs
      · exact ⟨[], by simp⟩
      · obtain ⟨_, _, _, _, _, _, l, hl, _, _, _⟩ :=
          xfer_packet_spec b (packets_at req done) req.timeout w
        exact ⟨l, hl⟩
    obtain ⟨l, hl⟩ := hx
    generalize start_next_packet b req done w = r at hl ⊢
    by_cases h : r.1 < 0
    · rw [if_pos h]
      exact ⟨l, hl⟩
    · rw [if_neg h]
      obtain ⟨l2, hl2⟩ := ih (done + 1) r.2
      exact ⟨l ++ l2, by rw [hl2, hl, List.append_assoc]⟩

/-- Past the up-front checks the channel is called, first with the `ConfigTransfer` message. -/
theorem api_transceive_calls (b : Build) (dev_id : mspi_dev_id) (req : mspi_xfer) (w : World)
    (h : req.async = false) (hn : req.num_packet ≠ 0) (hp : req.packets ≠ none)
    (ht : req.timeout ≤ b.CONFIG_MSPI_COMPLETION_TIMEOUT_TOLERANCE) :
    ∃ c l, (api_transceive b dev_id req w).2.calls = w.calls ++ c :: l
      ∧ c.data = Msg.xfer_config (config_xfer_msg dev_id req) := by
  rw [api_transceive_run b dev_id req w h hn hp ht]
  obtain ⟨_, _, _, _, _, _, l, hl, hne, hall, _⟩ :=
    send_data_spec b NRFE_MSPI_CONFIG_XFER (Msg.xfer_config (config_xfer_msg dev_id req))
      b.sizeof_xfer_config_msg { w with dev_data := ⟨config_xfer_msg dev_id req⟩ }
  dsimp only
  generalize send_data b NRFE_MSPI_CONFIG_XFER (Msg.xfer_config (config_xfer_msg dev_id req))
      b.sizeof_xfer_config_msg { w with dev_data := ⟨config_xfer_msg dev_id req⟩ } = r0
    at hl ⊢
  have hl1 : r0.2.calls = w.calls ++ l := hl
  cases l with
  | nil => exact absurd rfl hne
  | cons c l1 =>
    have hc : c.data = Msg.xfer_config (config_xfer_msg dev_id req) :=
      hall c (List.mem_cons_self _ _)
    split_ifs
    · exact ⟨c, l1, hl1, hc⟩
    · obtain ⟨l2, hl2⟩ := transceive_loop_calls b req req.num_packet 0 r0.2
      exact ⟨c, l1 ++ l2, by rw [hl2, hl1]; simp, hc⟩

/-! ### The checks of the device configuration -/

theorem check_io_mode_supported (m : mspi_io_mode) :
    decide (check_io_mode m < 0) = !supported_io_mode m
    ∧ (supported_io_mode m = false → check_io_mode m = -ENOTSUP) := by
  cases m <;> exact ⟨by decide, by decide⟩

theorem first_failing_cons (param_mask : Nat) (c : DevCheck) (rest : List DevCheck) :
    first_failing_check param_mask (c :: rest)
      = if (mask_has param_mask c.bit && !c.passes) = true then some c
        else first_failing_check param_mask rest := by
  unfold first_failing_check
  rw [List.find?_cons]
  cases (mask_has param_mask c.bit && !c.passes) <;> rfl

theorem first_failing_nil (param_mask : Nat) : first_failing_check param_mask [] = none := rfl

theorem decide_lt_eq_not_le (x y : Nat) : decide (x < y) = !decide (y ≤ x) := by
  by_cases h : x < y
  · simp [h]
  · simp [h, not_lt.mp h]

/-- The body of `api_dev_config` in the words of the specification. -/
theorem api_dev_config_eq (b : Build) (drv_cfg : mspi_nrfe_config) (dev_id : mspi_dev_id)
    (param_mask : Nat) (cfg : mspi_dev_cfg) (w : World) :
    api_dev_config b drv_cfg dev_id param_mask cfg w
      = match first_failing_check param_mask (dev_config_checks drv_cfg.mspicfg.max_freq cfg) with
        | some c => (c.code, w)
        | none => send_data b NRFE_MSPI_CONFIG_DEV (Msg.dev_config (dev_config_msg dev_id cfg))
            b.sizeof_dev_config_msg w := by
  unfold api_dev_config dev_config_checks
  obtain ⟨hio1, hio2⟩ := check_io_mode_supported cfg.io_mode
  simp only [first_failing_cons, first_failing_nil, ne_eq, decide_not, decide_lt_eq_not_le, hio1,
    Bool.not_not]
  by_cases c1 : (mask_has param_mask MSPI_DEVICE_CONFIG_MEM_BOUND
      && !decide (cfg.mem_boundary = 0)) = true
  · simp only [if_pos c1]
  · simp only [if_neg c1]
    by_cases c2 : (mask_has param_mask MSPI_DEVICE_CONFIG_BREAK_TIME
        && !decide (cfg.time_to_break = 0)) = true
    · simp only [if_pos c2]
    · simp only [if_neg c2]
      by_cases c3 : (mask_has param_mask MSPI_DEVICE_CONFIG_FREQUENCY
          && !decide (cfg.freq ≤ drv_cfg.mspicfg.max_freq)) = true
      · simp only [if_pos c3]
      · simp only [if_neg c3]
        by_cases c4 : (mask_has param_mask MSPI_DEVICE_CONFIG_IO_MODE
            && !supported_io_mode cfg.io_mode) = true
        · simp only [if_pos c4]
          have hs : supported_io_mode cfg.io_mode = false := by
            cases h : supported_io_mode cfg.io_mode
            · rfl
            · rw [h] at c4; simp at c4
          rw [hio2 hs]
        · simp only [if_neg c4]
          by_cases c5 : (mask_has param_mask MSPI_DEVICE_CONFIG_DATA_RATE
              && !decide (cfg.data_rate = MSPI_DATA_RATE_SINGLE)) = true
          · simp only [if_pos c5]
          · simp only [if_neg c5]
            by_cases c6 : (mask_has param_mask MSPI_DEVICE_CONFIG_DQS && cfg.dqs_enable) = true
            · simp only [if_pos c6]
            · simp only [if_neg c6]
              rfl

theorem first_failing_none_iff (param_mask : Nat) (checks : List DevCheck) :
    first_failing_check param_mask checks = none
      ↔ ∀ c ∈ checks, mask_has param_mask c.bit = true → c.passes = true := by
  unfold first_failing_check
  rw [List.find?_eq_none]
  constructor
  · intro h c hc hm
    have := h c hc
    cases hp : c.passes
    · rw [hm, hp] at this; simp at this
    · rfl
  · intro h c hc
    cases hm : mask_has param_mask c.bit
    · simp
    · rw [h c hc hm]; simp

/-! ### The search for the default pin state -/

theorem find_default_state_found (pcfg : pinctrl_dev_config) (st : pinctrl_state) (fuel : Nat) :
    ∀ start : Nat,
      ((pcfg.states.drop start).take fuel).find?
          (fun s => decide (s.id = PINCTRL_STATE_DEFAULT)) = some st
      → states_at pcfg (find_default_state pcfg fuel start).1 = st := by
  induction fuel with
  | zero => intro start h; simp at h
  | succ n ih =>
    intro start h
    cases hd : pcfg.states.drop start with
    | nil => rw [hd] at h; simp at h
    | cons x xs =>
      have hx : states_at pcfg start = x := by
        unfold states_at
        have h1 : (pcfg.states.drop start).head? = some x := by rw [hd]; rfl
        rw [List.head?_drop] at h1
        rw [List.getD_eq_getElem?_getD, h1]
        rfl
      have hxs : pcfg.states.drop (start + 1) = xs := by
        rw [← List.tail_drop, hd]
        rfl
      rw [hd, List.take_succ_cons, List.find?_cons] at h
      rw [find_default_state, hx]
      by_cases hid : x.id = PINCTRL_STATE_DEFAULT
      · rw [if_pos hid]
        simp only [hid, decide_True] at h
        show states_at pcfg start = st
        rw [hx]
        exact Option.some.inj h
      · rw [if_neg hid]
        simp only [hid, decide_False] at h
        show states_at pcfg (find_default_state pcfg n (start + 1)).1 = st
        apply ih
        rw [hxs]
        exact h

/-! ### Signals -/

theorem sub_u32_elapsed (u a : Nat) : sub_u32 ((u + a) % UINT32_MOD) (u % UINT32_MOD)
    = a % UINT32_MOD := by
  unfold sub_u32 UINT32_MOD
  omega

theorem sem_count_give_or_set_self (b : Build) (s : Sem) (bit : nrfe_mspi_opcode_t) (w : World)
    (h : b.CONFIG_MULTITHREADING = true) : 0 < sem_count (give_or_set b s bit w) s := by
  unfold give_or_set k_sem_give
  rw [if_pos h]
  split_ifs with h1
  · cases s <;> simp [sem_count, sem_set]
  · omega

theorem sem_count_give_or_set_le (b : Build) (s s1 : Sem) (bit : nrfe_mspi_opcode_t) (w : World)
    (h : sem_count w s1 ≤ 1) : sem_count (give_or_set b s bit w) s1 ≤ 1 := by
  unfold give_or_set k_sem_give atomic_set_bit
  split_ifs with h1 h2 h3
  · cases s <;> cases s1 <;> simp_all [sem_count, sem_set]
  · exact h
  · exact h
  · cases s1 <;> exact h

theorem sem_count_give_or_set_ne (b : Build) (s s1 : Sem) (bit : nrfe_mspi_opcode_t) (w : World)
    (h : s ≠ s1) : sem_count (give_or_set b s bit w) s1 = sem_count w s1 := by
  unfold give_or_set k_sem_give atomic_set_bit
  split_ifs
  · cases s <;> cases s1 <;> simp_all [sem_count, sem_set]
  · rfl
  · rfl
  · cases s1 <;> rfl

theorem sem_count_give_or_set_threadless (b : Build) (s s1 : Sem) (bit : nrfe_mspi_opcode_t)
    (w : World) (h : b.CONFIG_MULTITHREADING = false) :
    sem_count (give_or_set b s bit w) s1 = sem_count w s1 := by
  unfold give_or_set atomic_set_bit
  rw [if_neg (by rw [h]; simp)]
  split_ifs
  · rfl
  · cases s1 <;> rfl

theorem bits_give_or_set (b : Build) (s : Sem) (bit o : nrfe_mspi_opcode_t) (w : World) :
    o ∈ (give_or_set b s bit w).ipc_atomic_sem
      ↔ (o ∈ w.ipc_atomic_sem ∨ (b.CONFIG_MULTITHREADING = false ∧ o = bit)) := by
  unfold give_or_set k_sem_give atomic_set_bit
  cases hb : b.CONFIG_MULTITHREADING
  · simp only [Bool.false_eq_true, if_false]
    split_ifs with h1
    · constructor
      · exact fun h => Or.inl h
      · rintro (h | ⟨_, rfl⟩)
        · exact h
        · exact h1
    · simp only [List.mem_cons, true_and]
      tauto
  · simp only [if_true]
    split_ifs
    · cases s <;> simp [sem_set]
    · simp

/-- A callback is a possible change of the staging followed by at most one signal. -/
theorem dispatch_eq (b : Build) (v : World) (ev : IpcEvent) :
    ∃ v1, (∀ s, sem_count v1 s = sem_count v s) ∧ v1.ipc_atomic_sem = v.ipc_atomic_sem
      ∧ v1.waits = v.waits ∧ v1.inbox = v.inbox
      ∧ ((signalled_bit b ev = none ∧ signalled_sem b ev = none ∧ dispatch b v ev = v1)
        ∨ ∃ s o, signalled_sem b ev = some s ∧ signalled_bit b ev = some o
            ∧ dispatch b v ev = give_or_set b s o v1) := by
  cases ev with
  | bound =>
    refine ⟨{ v with ipc_received := 0 }, fun s => by cases s <;> rfl, rfl, rfl, rfl, Or.inr ?_⟩
    exact ⟨Sem.ipc_sem, NRFE_MSPI_EP_BOUNDED, rfl, rfl, rfl⟩
  | received r =>
    cases h : r.opcode with
    | NRFE_MSPI_CONFIG_TIMER_PTR =>
      refine ⟨v, fun _ => rfl, rfl, rfl, rfl, ?_⟩
      cases hft : b.CONFIG_MSPI_NRFE_FAULT_TIMER
      · left
        simp [dispatch, ep_recv, signalled_bit, signalled_sem, h, hft]
      · right
        refine ⟨Sem.ipc_sem, NRFE_MSPI_CONFIG_TIMER_PTR, ?_⟩
        simp [dispatch, ep_recv, signalled_bit, signalled_sem, wait_class, h, hft]
    | NRFE_MSPI_TXRX =>
      refine ⟨if 0 < r.len then { v with ipc_received := sub_u32 r.len b.sizeof_opcode, ipc_receive_buffer := some r.data } else v, ?_, ?_, ?_, ?_, Or.inr ?_⟩
      · intro s; split_ifs <;> cases s <;> rfl
      · split_ifs <;> rfl
      · split_ifs <;> rfl
      · split_ifs <;> rfl
      · refine ⟨Sem.ipc_sem_xfer, NRFE_MSPI_TXRX, ?_⟩
        simp [dispatch, ep_recv, signalled_bit, signalled_sem, wait_class, h]
    | NRFE_MSPI_CONFIG_PINS =>
      refine ⟨v, fun _ => rfl, rfl, rfl, rfl, Or.inr ⟨Sem.ipc_sem_cfg, NRFE_MSPI_CONFIG_PINS, ?_⟩⟩
      simp [dispatch, ep_recv, signalled_bit, signalled_sem, wait_class, h]
    | NRFE_MSPI_CONFIG_DEV =>
      refine ⟨v, fun _ => rfl, rfl, rfl, rfl, Or.inr ⟨Sem.ipc_sem_cfg, NRFE_MSPI_CONFIG_DEV, ?_⟩⟩
      simp [dispatch, ep_recv, signalled_bit, signalled_sem, wait_class, h]
    | NRFE_MSPI_CONFIG_XFER =>
      refine ⟨v, fun _ => rfl, rfl, rfl, rfl, Or.inr ⟨Sem.ipc_sem_cfg, NRFE_MSPI_CONFIG_XFER, ?_⟩⟩
      simp [dispatch, ep_recv, signalled_bit, signalled_sem, wait_class, h]
    | NRFE_MSPI_TX =>
      refine ⟨v, fun _ => rfl, rfl, rfl, rfl, Or.inr ⟨Sem.ipc_sem_xfer, NRFE_MSPI_TX, ?_⟩⟩
      simp [dispatch, ep_recv, signalled_bit, signalled_sem, wait_class, h]
    | NRFE_MSPI_EP_BOUNDED =>
      exact ⟨v, fun _ => rfl, rfl, rfl, rfl, Or.inl (by simp [dispatch, ep_recv, signalled_bit, signalled_sem, h])⟩
    | NRFE_MSPI_SDP_APP_HARD_FAULT =>
      exact ⟨v, fun _ => rfl, rfl, rfl, rfl, Or.inl (by simp [dispatch, ep_recv, signalled_bit, signalled_sem, h])⟩
    | NRFE_MSPI_OTHER raw =>
      exact ⟨v, fun _ => rfl, rfl, rfl, rfl, Or.inl (by simp [dispatch, ep_recv, signalled_bit, signalled_sem, h])⟩

/-- In the threaded build a callback that signals a class leaves its semaphore available. -/
theorem dispatch_gives (b : Build) (v : World) (ev : IpcEvent) (s : Sem)
    (hb : b.CONFIG_MULTITHREADING = true) (h : signalled_sem b ev = some s) :
    0 < sem_count (dispatch b v ev) s := by
  obtain ⟨v1, _, _, _, _, ⟨_, h2, _⟩ | ⟨s1, o, h2, _, h4⟩⟩ := dispatch_eq b v ev
  · rw [h2] at h; cases h
  · rw [h2] at h
    cases h
    rw [h4]
    exact sem_count_give_or_set_self b _ o v1 hb

/-- A callback that does not signal a class leaves its semaphore alone. -/
theorem dispatch_keeps_sem (b : Build) (v : World) (ev : IpcEvent) (s : Sem)
    (h : signalled_sem b ev ≠ some s) : sem_count (dispatch b v ev) s = sem_count v s := by
  obtain ⟨v1, h1, _, _, _, ⟨_, _, h3⟩ | ⟨s1, o, h2, _, h4⟩⟩ := dispatch_eq b v ev
  · rw [h3]; exact h1 s
  · rw [h4, sem_count_give_or_set_ne b s1 s o v1 (by rintro rfl; exact h h2)]
    exact h1 s

/-- The threadless build never touches a semaphore. -/
theorem dispatch_keeps_sem_threadless (b : Build) (v : World) (ev : IpcEvent) (s : Sem)
    (hb : b.CONFIG_MULTITHREADING = false) : sem_count (dispatch b v ev) s = sem_count v s := by
  obtain ⟨v1, h1, _, _, _, ⟨_, _, h3⟩ | ⟨s1, o, _, _, h4⟩⟩ := dispatch_eq b v ev
  · rw [h3]; exact h1 s
  · rw [h4, sem_count_give_or_set_threadless b s1 s o v1 hb]
    exact h1 s

/-- A semaphore never counts above its limit of one. -/
theorem dispatch_sem_le (b : Build) (v : World) (ev : IpcEvent) (s : Sem)
    (h : sem_count v s ≤ 1) : sem_count (dispatch b v ev) s ≤ 1 := by
  obtain ⟨v1, h1, _, _, _, ⟨_, _, h3⟩ | ⟨s1, o, _, _, h4⟩⟩ := dispatch_eq b v ev
  · rw [h3, h1 s]; exact h
  · rw [h4]
    exact sem_count_give_or_set_le b s1 s o v1 (by rw [h1 s]; exact h)

/-- The bits after a callback: those set before, and in the threadless build the signalled one. -/
theorem dispatch_bits (b : Build) (v : World) (ev : IpcEvent) (o : nrfe_mspi_opcode_t) :
    o ∈ (dispatch b v ev).ipc_atomic_sem
      ↔ (o ∈ v.ipc_atomic_sem
          ∨ (b.CONFIG_MULTITHREADING = false ∧ signalled_bit b ev = some o)) := by
  obtain ⟨v1, _, h1, _, _, ⟨h2, _, h3⟩ | ⟨s1, o1, _, h2, h4⟩⟩ := dispatch_eq b v ev
  · rw [h3, h1, h2]; simp
  · rw [h4, bits_give_or_set, h1, h2]
    simp only [Option.some.injEq]
    constructor
    · rintro (h | ⟨h, rfl⟩)
      · exact Or.inl h
      · exact Or.inr ⟨h, rfl⟩
    · rintro (h | ⟨h, rfl⟩)
      · exact Or.inl h
      · exact Or.inr ⟨h, rfl⟩

theorem deliver_cons (b : Build) (ev : IpcEvent) (evs : List IpcEvent) (v : World) :
    deliver b (ev :: evs) v = deliver b evs (dispatch b v ev) := rfl

theorem deliver_keeps_sem (b : Build) (evs : List IpcEvent) (s : Sem) (v : World)
    (h : ∀ ev ∈ evs, signalled_sem b ev ≠ some s) :
    sem_count (deliver b evs v) s = sem_count v s := by
  induction evs generalizing v with
  | nil => rfl
  | cons ev evs ih =>
    rw [deliver_cons, ih _ (fun e he => h e (List.mem_cons_of_mem _ he)),
      dispatch_keeps_sem b v ev s (h ev (List.mem_cons_self _ _))]

theorem deliver_sem_le (b : Build) (evs : List IpcEvent) (s : Sem) (v : World)
    (h : sem_count v s ≤ 1) : sem_count (deliver b evs v) s ≤ 1 := by
  induction evs generalizing v with
  | nil => exact h
  | cons ev evs ih => rw [deliver_cons]; exact ih _ (dispatch_sem_le b v ev s h)

theorem deliver_keeps_bit (b : Build) (evs : List IpcEvent) (o : nrfe_mspi_opcode_t) (v : World)
    (h : ∀ ev ∈ evs, signalled_bit b ev ≠ some o) (hv : o ∉ v.ipc_atomic_sem) :
    o ∉ (deliver b evs v).ipc_atomic_sem := by
  induction evs generalizing v with
  | nil => exact hv
  | cons ev evs ih =>
    rw [deliver_cons]
    apply ih _ (fun e he => h e (List.mem_cons_of_mem _ he))
    rw [dispatch_bits]
    rintro (h1 | ⟨_, h1⟩)
    · exact hv h1
    · exact h ev (List.mem_cons_self _ _) h1

/-- Once a semaphore is available, further callbacks leave it available. -/
theorem deliver_sem_pos (b : Build) (evs : List IpcEvent) (s : Sem) (v : World)
    (h : 0 < sem_count v s) : 0 < sem_count (deliver b evs v) s := by
  induction evs generalizing v with
  | nil => exact h
  | cons ev evs ih =>
    rw [deliver_cons]
    apply ih
    by_cases hs : signalled_sem b ev = some s
    · cases hb : b.CONFIG_MULTITHREADING
      · rw [dispatch_keeps_sem_threadless b v ev s hb]; exact h
      · exact dispatch_gives b v ev s hb hs
    · rw [dispatch_keeps_sem b v ev s hs]; exact h

/-- Once a bit is set, further callbacks leave it set. -/
theorem deliver_bit_set (b : Build) (evs : List IpcEvent) (o : nrfe_mspi_opcode_t) (v : World)
    (h : o ∈ v.ipc_atomic_sem) : o ∈ (deliver b evs v).ipc_atomic_sem := by
  induction evs generalizing v with
  | nil => exact h
  | cons ev evs ih =>
    rw [deliver_cons]
    exact ih _ ((dispatch_bits b v ev o).mpr (Or.inl h))

theorem deliver_gives (b : Build) (evs : List IpcEvent) (s : Sem) (v : World)
    (hb : b.CONFIG_MULTITHREADING = true) (h : ∃ ev ∈ evs, signalled_sem b ev = some s) :
    0 < sem_count (deliver b evs v) s := by
  induction evs generalizing v with
  | nil => obtain ⟨_, h1, _⟩ := h; cases h1
  | cons ev evs ih =>
    rw [deliver_cons]
    obtain ⟨e1, h1, h2⟩ := h
    rcases List.mem_cons.mp h1 with rfl | h1
    · exact deliver_sem_pos b evs s _ (dispatch_gives b v e1 s hb h2)
    · exact ih _ ⟨e1, h1, h2⟩

theorem deliver_sets_bit (b : Build) (evs : List IpcEvent) (o : nrfe_mspi_opcode_t) (v : World)
    (hb : b.CONFIG_MULTITHREADING = false) (h : ∃ ev ∈ evs, signalled_bit b ev = some o) :
    o ∈ (deliver b evs v).ipc_atomic_sem := by
  induction evs generalizing v with
  | nil => obtain ⟨_, h1, _⟩ := h; cases h1
  | cons ev evs ih =>
    rw [deliver_cons]
    obtain ⟨e1, h1, h2⟩ := h
    rcases List.mem_cons.mp h1 with rfl | h1
    · exact deliver_bit_set b evs o _ ((dispatch_bits b v e1 o).mpr (Or.inr ⟨hb, h2⟩))
    · exact ih _ ⟨e1, h1, h2⟩

/-! ### Waits that are answered, and waits that are not -/

theorem k_sem_take_pos (b : Build) (s : Sem) (timeout : Nat) (w : World)
    (h : 0 < sem_count w s) :
    k_sem_take b s timeout w = (0, sem_set w s (sem_count w s - 1)) := by
  unfold k_sem_take
  rw [if_pos h]

theorem k_sem_take_zero (b : Build) (s : Sem) (timeout : Nat) (w : World)
    (h : sem_count w s = 0) :
    k_sem_take b s timeout w = k_sem_take_wait b s w.inbox timeout w := by
  unfold k_sem_take
  rw [if_neg (by rw [h]; exact lt_irrefl 0)]

theorem sem_count_env (w : World) (s : Sem) (i : List Batch) (u : Nat) :
    sem_count { w with inbox := i, uptime := u } s = sem_count w s := by
  cases s <;> rfl

/-- A blocked `k_sem_take` to which no callback gives the semaphore ends with `-EAGAIN`. -/
theorem k_sem_take_wait_miss (b : Build) (s : Sem) (script : List Batch) (budget : Nat)
    (w : World) (h0 : sem_count w s = 0)
    (h : ∀ e ∈ script, ∀ ev ∈ e.arrivals, signalled_sem b ev ≠ some s) :
    (k_sem_take_wait b s script budget w).1 = -EAGAIN := by
  induction script generalizing budget w with
  | nil => rfl
  | cons e rest ih =>
    rw [k_sem_take_wait]
    by_cases h1 : budget < e.elapsed
    · rw [if_pos h1]
    · rw [if_neg h1]
      dsimp only
      have hz : sem_count (deliver b e.arrivals
          { w with inbox := rest, uptime := w.uptime + e.elapsed }) s = 0 := by
        rw [deliver_keeps_sem b e.arrivals s _ (h e (List.mem_cons_self _ _)), sem_count_env, h0]
      rw [if_neg (by rw [hz]; exact lt_irrefl 0)]
      exact ih _ _ hz (fun e1 he1 => h e1 (List.mem_cons_of_mem _ he1))

/-- A blocked `k_sem_take` whose semaphore is given by the next delivery, in time, succeeds. -/
theorem k_sem_take_wait_hit (b : Build) (s : Sem) (e : Batch) (rest : List Batch) (budget : Nat)
    (w : World) (hb : b.CONFIG_MULTITHREADING = true) (ht : e.elapsed ≤ budget)
    (h : ∃ ev ∈ e.arrivals, signalled_sem b ev = some s) :
    (k_sem_take_wait b s (e :: rest) budget w).1 = 0 := by
  rw [k_sem_take_wait, if_neg (not_lt.mpr ht)]
  dsimp only
  rw [if_pos (deliver_gives b e.arrivals s _ hb h)]

theorem uptime_give_or_set (b : Build) (s : Sem) (bit : nrfe_mspi_opcode_t) (w : World) :
    (give_or_set b s bit w).uptime = w.uptime := by
  unfold give_or_set k_sem_give atomic_set_bit
  split_ifs
  · cases s <;> rfl
  · rfl
  · rfl
  · rfl

theorem uptime_dispatch (b : Build) (v : World) (ev : IpcEvent) :
    (dispatch b v ev).uptime = v.uptime := by
  cases ev with
  | bound => exact uptime_give_or_set b _ _ _
  | received r =>
    show (ep_recv b r v).uptime = v.uptime
    unfold ep_recv
    cases hr : r.opcode
    case NRFE_MSPI_TXRX =>
      dsimp only
      rw [uptime_give_or_set]
      split_ifs <;> rfl
    case NRFE_MSPI_CONFIG_TIMER_PTR =>
      dsimp only
      split_ifs
      · exact uptime_give_or_set b _ _ v
      · rfl
    all_goals first
      | exact uptime_give_or_set b _ _ v
      | rfl

theorem uptime_deliver (b : Build) (evs : List IpcEvent) (v : World) :
    (deliver b evs v).uptime = v.uptime := by
  induction evs generalizing v with
  | nil => rfl
  | cons ev evs ih => rw [deliver_cons, ih, uptime_dispatch]

/-- A blocked `k_sem_take` whose semaphore is given by a delivery within the timeout succeeds. -/
theorem k_sem_take_wait_within (b : Build) (s : Sem) (e : Batch) (rest : List Batch)
    (hb : b.CONFIG_MULTITHREADING = true) (h : ∃ ev ∈ e.arrivals, signalled_sem b ev = some s)
    (pre : List Batch) :
    ∀ (budget : Nat) (w : World), (pre.map Batch.elapsed).sum + e.elapsed ≤ budget →
      (k_sem_take_wait b s (pre ++ e :: rest) budget w).1 = 0 := by
  induction pre with
  | nil =>
    intro budget w ht
    exact k_sem_take_wait_hit b s e rest budget w hb (by simpa using ht) h
  | cons p pre ih =>
    intro budget w ht
    simp only [List.map_cons, List.sum_cons] at ht
    rw [List.cons_append, k_sem_take_wait, if_neg (by omega)]
    dsimp only
    split_ifs
    · rfl
    · exact ih _ _ (by omega)

theorem bits_env (w : World) (i : List Batch) (u : Nat) :
    ({ w with inbox := i, uptime := u } : World).ipc_atomic_sem = w.ipc_atomic_sem := rfl

theorem not_mem_atomic_clear_bit (w : World) (o : nrfe_mspi_opcode_t) :
    o ∉ (atomic_clear_bit w o).ipc_atomic_sem := by
  simp [atomic_clear_bit]

/-- A poll for a bit that is not set and that no callback sets ends with `-ETIMEDOUT`. -/
theorem poll_loop_miss (b : Build) (o : nrfe_mspi_opcode_t) (timeout start : Nat)
    (script : List Batch) (cnt : Nat) (w : World) (h0 : o ∉ w.ipc_atomic_sem)
    (h : ∀ e ∈ script, ∀ ev ∈ e.arrivals, signalled_bit b ev ≠ some o) :
    (poll_loop b o timeout start script cnt w).1 = -ETIMEDOUT := by
  induction script generalizing cnt w with
  | nil => simp [poll_loop, atomic_test_and_clear_bit, h0]
  | cons e rest ih =>
    rw [poll_loop]
    simp only [atomic_test_and_clear_bit, h0, decide_False, Bool.false_eq_true, if_false]
    have hk : o ∉ (deliver b e.arrivals { atomic_clear_bit w o with
        inbox := rest, uptime := (atomic_clear_bit w o).uptime + e.elapsed }).ipc_atomic_sem :=
      deliver_keeps_bit b e.arrivals o _ (h e (List.mem_cons_self _ _))
        (not_mem_atomic_clear_bit w o)
    split_ifs
    all_goals first
      | rfl
      | exact ih _ _ hk (fun e1 he1 => h e1 (List.mem_cons_of_mem _ he1))

/-- A poll that does not find its bit and is not over lets the next delivery in. -/
theorem poll_loop_step (b : Build) (o : nrfe_mspi_opcode_t) (timeout start : Nat)
    (p : Batch) (tl : List Batch) (cnt : Nat) (w : World) (h0 : o ∉ w.ipc_atomic_sem)
    (hex : (if b.CONFIG_SYS_CLOCK_EXISTS
        then decide (timeout < sub_u32 (w.uptime % UINT32_MOD) start)
        else decide ((cnt + UINT32_MOD - 1) % UINT32_MOD = 0)) = false) :
    poll_loop b o timeout start (p :: tl) cnt w
      = poll_loop b o timeout start tl ((cnt + UINT32_MOD - 1) % UINT32_MOD)
          (deliver b p.arrivals { atomic_clear_bit w o with
            inbox := tl, uptime := (atomic_clear_bit w o).uptime + p.elapsed }) := by
  rw [poll_loop]
  simp only [atomic_test_and_clear_bit, h0, decide_False, Bool.false_eq_true, if_false]
  have hex1 : (if b.CONFIG_SYS_CLOCK_EXISTS = true
      then decide (timeout < sub_u32 (k_uptime_get_32 (atomic_clear_bit w o)) start)
      else decide ((cnt + UINT32_MOD - 1) % UINT32_MOD = 0)) = false := hex
  rw [hex1]
  simp only [Bool.false_eq_true, if_false]

/-- A poll whose bit is set by a delivery within the timeout succeeds. -/
theorem poll_loop_within (b : Build) (o : nrfe_mspi_opcode_t) (timeout u0 : Nat)
    (e : Batch) (rest : List Batch) (hb : b.CONFIG_MULTITHREADING = false)
    (h : ∃ ev ∈ e.arrivals, signalled_bit b ev = some o) (pre : List Batch) :
    ∀ (acc cnt : Nat) (w : World), w.uptime = u0 + acc →
      (b.CONFIG_SYS_CLOCK_EXISTS = true → acc + (pre.map Batch.elapsed).sum ≤ timeout) →
      (b.CONFIG_SYS_CLOCK_EXISTS = false → pre.length + 1 < cnt ∧ cnt < UINT32_MOD) →
      (poll_loop b o timeout (u0 % UINT32_MOD) (pre ++ e :: rest) cnt w).1 = 0 := by
  have hstep : ∀ (acc cnt : Nat) (w : World) (n s : Nat), w.uptime = u0 + acc →
      (b.CONFIG_SYS_CLOCK_EXISTS = true → acc + s ≤ timeout) →
      (b.CONFIG_SYS_CLOCK_EXISTS = false → n + 1 < cnt ∧ cnt < UINT32_MOD) →
      (if b.CONFIG_SYS_CLOCK_EXISTS
        then decide (timeout < sub_u32 (w.uptime % UINT32_MOD) (u0 % UINT32_MOD))
        else decide ((cnt + UINT32_MOD - 1) % UINT32_MOD = 0)) = false := by
    intro acc cnt w n s hu hclk hcnt
    cases hc : b.CONFIG_SYS_CLOCK_EXISTS
    · have := hcnt hc
      simp only [Bool.false_eq_true, if_false, decide_eq_false_iff_not, UINT32_MOD] at this ⊢
      omega
    · have := hclk hc
      rw [hu, sub_u32_elapsed]
      simp only [if_true, decide_eq_false_iff_not, UINT32_MOD]
      have h2 : acc % 4294967296 ≤ acc := Nat.mod_le _ _
      omega
  induction pre with
  | nil =>
    intro acc cnt w hu hclk hcnt
    by_cases h0 : o ∈ w.ipc_atomic_sem
    · rw [poll_loop_hit b o timeout _ _ cnt w h0]
    · rw [List.nil_append, poll_loop_step b o timeout _ e rest cnt w h0
        (hstep acc cnt w 0 0 hu (fun hc => by simpa using hclk hc)
          (fun hc => by simpa using hcnt hc)), poll_loop_hit]
      exact deliver_sets_bit b e.arrivals o _ hb h
  | cons p pre ih =>
    intro acc cnt w hu hclk hcnt
    by_cases h0 : o ∈ w.ipc_atomic_sem
    · rw [poll_loop_hit b o timeout _ _ cnt w h0]
    · simp only [List.map_cons, List.sum_cons, List.length_cons] at hclk hcnt
      rw [List.cons_append, poll_loop_step b o timeout _ p _ cnt w h0
        (hstep acc cnt w (pre.length + 1) (p.elapsed + (pre.map Batch.elapsed).sum) hu hclk
          hcnt)]
      apply ih (acc + p.elapsed)
      · rw [uptime_deliver]
        show w.uptime + p.elapsed = u0 + (acc + p.elapsed)
        omega
      · intro hc
        have := hclk hc
        omega
      · intro hc
        have := hcnt hc
        simp only [UINT32_MOD] at this ⊢
        omega

theorem wait_threaded (b : Build) (opcode : nrfe_mspi_opcode_t) (timeout : Nat) (w : World)
    (s : Sem) (hb : b.CONFIG_MULTITHREADING = true) (hs : wait_class opcode = some s) :
    nrfe_mspi_wait_for_response b opcode timeout w
      = (if (k_sem_take b s timeout { w with waits := w.waits ++ [(opcode, timeout)] }).1 < 0
          then (-ETIMEDOUT,
            (k_sem_take b s timeout { w with waits := w.waits ++ [(opcode, timeout)] }).2)
          else (0,
            (k_sem_take b s timeout { w with waits := w.waits ++ [(opcode, timeout)] }).2)) := by
  unfold nrfe_mspi_wait_for_response
  cases opcode <;> simp [wait_class] at hs <;> subst hs <;> simp [hb]

/-- In the threaded build a wait for an opcode outside the classes returns 0 at once. -/
theorem wait_threaded_none (b : Build) (opcode : nrfe_mspi_opcode_t) (timeout : Nat) (w : World)
    (hb : b.CONFIG_MULTITHREADING = true) (hs : wait_class opcode = none) :
    nrfe_mspi_wait_for_response b opcode timeout w
      = (0, { w with waits := w.waits ++ [(opcode, timeout)] }) := by
  unfold nrfe_mspi_wait_for_response
  cases opcode <;> simp [wait_class] at hs <;> simp [hb]

theorem wait_threadless (b : Build) (opcode : nrfe_mspi_opcode_t) (timeout : Nat) (w : World)
    (hb : b.CONFIG_MULTITHREADING = false) :
    nrfe_mspi_wait_for_response b opcode timeout w
      = poll_loop b opcode timeout (k_uptime_get_32 w) w.inbox ((timeout * 1000) % UINT32_MOD)
          { w with waits := w.waits ++ [(opcode, timeout)] } := by
  unfold nrfe_mspi_wait_for_response
  simp [hb, k_uptime_get_32]

theorem sem_count_waits (w : World) (s : Sem) (l : List (nrfe_mspi_opcode_t × Nat)) :
    sem_count { w with waits := l } s = sem_count w s := by
  cases s <;> rfl

theorem sem_count_sem_set (w : World) (s : Sem) (n : Nat) : sem_count (sem_set w s n) s = n := by
  cases s <;> rfl

theorem inbox_sem_set (w : World) (s : Sem) (n : Nat) : (sem_set w s n).inbox = w.inbox := by
  cases s <;> rfl

/-- A wait that finds its latch set returns 0 at once: nothing is let in, and
the latch is taken. -/
theorem wait_latched (b : Build) (opcode : nrfe_mspi_opcode_t) (timeout : Nat) (w : World)
    (h : latched b opcode w = true) :
    (nrfe_mspi_wait_for_response b opcode timeout w).1 = 0
    ∧ (nrfe_mspi_wait_for_response b opcode timeout w).2.inbox = w.inbox
    ∧ ((∀ s, sem_count w s ≤ 1) →
        latched b opcode (nrfe_mspi_wait_for_response b opcode timeout w).2 = false) := by
  cases hb : b.CONFIG_MULTITHREADING
  · have h0 : opcode ∈ w.ipc_atomic_sem := by simpa [latched, hb] using h
    rw [wait_threadless b opcode timeout w hb,
      poll_loop_hit b opcode timeout _ _ _ { w with waits := w.waits ++ [(opcode, timeout)] } h0]
    refine ⟨rfl, rfl, fun _ => ?_⟩
    simp [latched, hb, atomic_clear_bit]
  · cases hs : wait_class opcode with
    | none => simp [latched, hb, hs] at h
    | some s =>
      have h0 : 0 < sem_count w s := by simpa [latched, hb, hs] using h
      rw [wait_threaded b opcode timeout w s hb hs,
        k_sem_take_pos b s timeout _ (by rw [sem_count_waits]; exact h0)]
      refine ⟨rfl, ?_, fun hle => ?_⟩
      · simp [inbox_sem_set]
      · have := hle s
        simp only [latched, hb, hs, if_true, sem_count_waits, lt_irrefl, if_false]
        rw [sem_count_sem_set]
        simp
        omega

/-- A wait whose latch is not set and to which no callback signals times out. -/
theorem wait_times_out (b : Build) (opcode : nrfe_mspi_opcode_t) (timeout : Nat) (w : World)
    (hc : b.CONFIG_MULTITHREADING = true → wait_class opcode ≠ none)
    (h0 : latched b opcode w = false) (h : no_signal_for b opcode w.inbox) :
    (nrfe_mspi_wait_for_response b opcode timeout w).1 = -ETIMEDOUT := by
  cases hb : b.CONFIG_MULTITHREADING
  · rw [wait_threadless b opcode timeout w hb]
    apply poll_loop_miss
    · simpa [latched, hb] using h0
    · intro e he ev hev
      simpa [signals, hb] using h e he ev hev
  · cases hs : wait_class opcode with
    | none => exact absurd hs (hc hb)
    | some s =>
      have hz : sem_count w s = 0 := by simpa [latched, hb, hs] using h0
      rw [wait_threaded b opcode timeout w s hb hs,
        k_sem_take_zero b s timeout _ (by rw [sem_count_waits]; exact hz)]
      have hm := k_sem_take_wait_miss b s w.inbox timeout
        { w with waits := w.waits ++ [(opcode, timeout)] } (by rw [sem_count_waits]; exact hz)
        (by
          intro e he ev hev
          have := h e he ev hev
          simpa [signals, hb, hs] using this)
      have hi : ({ w with waits := w.waits ++ [(opcode, timeout)] } : World).inbox = w.inbox :=
        rfl
      rw [hi, if_pos (by rw [hm]; decide)]

/-- A wait whose latch is signalled by a delivery within the timeout returns 0. -/
theorem wait_answered (b : Build) (opcode : nrfe_mspi_opcode_t) (timeout : Nat) (w : World)
    (pre : List Batch) (e : Batch) (rest : List Batch) (hi : w.inbox = pre ++ e :: rest)
    (ht : arrives_within b timeout pre e = true)
    (h : ∃ ev ∈ e.arrivals, signals b opcode ev = true) :
    (nrfe_mspi_wait_for_response b opcode timeout w).1 = 0 := by
  obtain ⟨ev, hev, hsig⟩ := h
  have hsum : (pre.map Batch.elapsed).sum + e.elapsed ≤ timeout := by
    simp only [arrives_within, Bool.and_eq_true, decide_eq_true_eq] at ht
    exact ht.1
  cases hb : b.CONFIG_MULTITHREADING
  · rw [wait_threadless b opcode timeout w hb, hi]
    exact poll_loop_within b opcode timeout w.uptime e rest hb
      ⟨ev, hev, by simpa [signals, hb] using hsig⟩ pre 0 ((timeout * 1000) % UINT32_MOD)
      _ rfl (fun _ => by omega)
      (fun hc => ⟨by
        have h2 : (List.map Batch.elapsed pre).sum + e.elapsed ≤ timeout
            ∧ pre.length + 1 < timeout * 1000 % UINT32_MOD := by
          simpa [arrives_within, hb, hc] using ht
        exact h2.2, Nat.mod_lt _ (by decide)⟩)
  · cases hs : wait_class opcode with
    | none => simp [signals, hb, hs] at hsig
    | some s =>
      have hsem : signalled_sem b ev = some s := by simpa [signals, hb, hs] using hsig
      rw [wait_threaded b opcode timeout w s hb hs]
      by_cases hp : 0 < sem_count w s
      · rw [k_sem_take_pos b s timeout _ (by rw [sem_count_waits]; exact hp)]
        rfl
      · rw [k_sem_take_zero b s timeout _ (by rw [sem_count_waits]; omega)]
        have hi2 : ({ w with waits := w.waits ++ [(opcode, timeout)] } : World).inbox
            = pre ++ e :: rest := hi
        rw [hi2, k_sem_take_wait_within b s e rest hb ⟨ev, hev, hsem⟩ pre timeout _ hsum]
        rfl

/-! ### The log of the waits -/

theorem waits_sem_set (w : World) (s : Sem) (n : Nat) : (sem_set w s n).waits = w.waits := by
  cases s <;> rfl

theorem waits_give_or_set (b : Build) (s : Sem) (bit : nrfe_mspi_opcode_t) (w : World) :
    (give_or_set b s bit w).waits = w.waits := by
  unfold give_or_set k_sem_give atomic_set_bit
  split_ifs
  · exact waits_sem_set _ _ _
  · rfl
  · rfl
  · rfl

theorem waits_dispatch (b : Build) (v : World) (ev : IpcEvent) :
    (dispatch b v ev).waits = v.waits := by
  obtain ⟨v1, _, _, h1, _, ⟨_, _, h3⟩ | ⟨s1, o, _, _, h4⟩⟩ := dispatch_eq b v ev
  · rw [h3, h1]
  · rw [h4, waits_give_or_set, h1]

theorem waits_deliver (b : Build) (evs : List IpcEvent) (v : World) :
    (deliver b evs v).waits = v.waits := by
  induction evs generalizing v with
  | nil => rfl
  | cons ev evs ih => rw [deliver_cons, ih, waits_dispatch]

theorem waits_k_sem_take_wait (b : Build) (s : Sem) (script : List Batch) (budget : Nat)
    (w : World) : (k_sem_take_wait b s script budget w).2.waits = w.waits := by
  induction script generalizing budget w with
  | nil => rfl
  | cons e rest ih =>
    rw [k_sem_take_wait]
    have hd : (deliver b e.arrivals
        { w with inbox := rest, uptime := w.uptime + e.elapsed }).waits = w.waits :=
      waits_deliver b _ _
    dsimp only
    split_ifs
    · rfl
    · rw [waits_sem_set]; exact hd
    · rw [ih]; exact hd

theorem waits_k_sem_take (b : Build) (s : Sem) (timeout : Nat) (w : World) :
    (k_sem_take b s timeout w).2.waits = w.waits := by
  unfold k_sem_take
  split
  · exact waits_sem_set _ _ _
  · exact waits_k_sem_take_wait b s _ _ w

theorem waits_poll_loop (b : Build) (opcode : nrfe_mspi_opcode_t) (timeout start : Nat)
    (script : List Batch) (cnt : Nat) (w : World) :
    (poll_loop b opcode timeout start script cnt w).2.waits = w.waits := by
  induction script generalizing cnt w with
  | nil =>
    unfold poll_loop
    simp only [atomic_test_and_clear_bit]
    split <;> rfl
  | cons e rest ih =>
    unfold poll_loop
    simp only [atomic_test_and_clear_bit]
    split_ifs
    all_goals first
      | rfl
      | (rw [ih, waits_deliver]; rfl)

/-- A wait logs itself, once. -/
theorem waits_wait (b : Build) (opcode : nrfe_mspi_opcode_t) (timeout : Nat) (w : World) :
    (nrfe_mspi_wait_for_response b opcode timeout w).2.waits
      = w.waits ++ [(opcode, timeout)] := by
  cases hb : b.CONFIG_MULTITHREADING
  · rw [wait_threadless b opcode timeout w hb, waits_poll_loop]
  · cases hs : wait_class opcode with
    | none => rw [wait_threaded_none b opcode timeout w hb hs]
    | some s =>
      rw [wait_threaded b opcode timeout w s hb hs]
      split_ifs <;> exact waits_k_sem_take b s timeout _

/-! ### Callbacks and classes -/

theorem inbox_give_or_set (b : Build) (s : Sem) (bit : nrfe_mspi_opcode_t) (w : World) :
    (give_or_set b s bit w).inbox = w.inbox := by
  unfold give_or_set k_sem_give atomic_set_bit
  split_ifs
  · exact inbox_sem_set _ _ _
  · rfl
  · rfl
  · rfl

theorem inbox_dispatch (b : Build) (v : World) (ev : IpcEvent) :
    (dispatch b v ev).inbox = v.inbox := by
  obtain ⟨v1, _, _, _, h1, ⟨_, _, h3⟩ | ⟨s1, o, _, _, h4⟩⟩ := dispatch_eq b v ev
  · rw [h3, h1]
  · rw [h4, inbox_give_or_set, h1]

theorem inbox_deliver (b : Build) (evs : List IpcEvent) (v : World) :
    (deliver b evs v).inbox = v.inbox := by
  induction evs generalizing v with
  | nil => rfl
  | cons ev evs ih => rw [deliver_cons, ih, inbox_dispatch]

/-- A response signals the bit of its own opcode, if any. -/
theorem signalled_bit_received (b : Build) (r : Resp) (o : nrfe_mspi_opcode_t)
    (h : signalled_bit b (IpcEvent.received r) = some o) : o = r.opcode := by
  cases hr : r.opcode <;> simp [signalled_bit, hr] at h
  all_goals first
    | exact h.symm
    | exact h.2.symm

/-- A callback signals a semaphore of its own class only. -/
theorem signalled_sem_class (b : Build) (ev : IpcEvent) (s : Sem)
    (h : signalled_sem b ev = some s) : event_class ev = some s := by
  cases ev with
  | bound => exact h
  | received r =>
    cases hb : signalled_bit b (IpcEvent.received r) with
    | none => simp [signalled_sem, hb] at h
    | some o =>
      simp only [signalled_sem, hb] at h
      show wait_class r.opcode = some s
      rw [← signalled_bit_received b r o hb]
      exact h

/-- A callback of another class does not signal a wait for an opcode of a class. -/
theorem signals_other_class (b : Build) (opcode : nrfe_mspi_opcode_t) (ev : IpcEvent) (s : Sem)
    (hs : wait_class opcode = some s) (h : event_class ev ≠ some s) :
    signals b opcode ev = false := by
  unfold signals
  cases hb : b.CONFIG_MULTITHREADING
  · simp only [Bool.false_eq_true, if_false, decide_eq_false_iff_not]
    intro hbit
    cases ev with
    | bound =>
      have : opcode = NRFE_MSPI_EP_BOUNDED := by
        simp only [signalled_bit, Option.some.injEq] at hbit
        exact hbit.symm
      rw [this] at hs
      simp [wait_class] at hs
    | received r =>
      have := signalled_bit_received b r opcode hbit
      apply h
      show wait_class r.opcode = some s
      rw [← this]
      exact hs
  · simp only [if_true, hs, Option.isSome_some, Bool.true_and, decide_eq_false_iff_not]
    intro hsem
    exact h (signalled_sem_class b ev s hsem)

/-! ### Sends that are accepted, and sends that fail -/

/-- A send changes the call log, the channel script and the clock, and in the
threadless build it clears the bit of its opcode first; nothing else. -/
theorem send_data_send_frame (b : Build) (opcode : nrfe_mspi_opcode_t) (data : Msg) (len : Nat)
    (w : World) :
    OnlySend (if b.CONFIG_MULTITHREADING then w else atomic_clear_bit w opcode)
      (send_data_send b opcode data len w).2 := by
  unfold send_data_send mspi_ipc_data_send
  dsimp only
  split_ifs <;> exact send_loop_frame _ _ _ _ _ _ _ _

/-- What a send leaves alone: the semaphores, the delivery script, the log of
the waits; and the bits, but for the bit of its opcode in the threadless build. -/
theorem send_data_send_keeps (b : Build) (opcode : nrfe_mspi_opcode_t) (data : Msg) (len : Nat)
    (w : World) :
    (∀ s, sem_count (send_data_send b opcode data len w).2 s = sem_count w s)
    ∧ (send_data_send b opcode data len w).2.inbox = w.inbox
    ∧ (send_data_send b opcode data len w).2.waits = w.waits
    ∧ (send_data_send b opcode data len w).2.ipc_atomic_sem
        = (if b.CONFIG_MULTITHREADING then w.ipc_atomic_sem
          else w.ipc_atomic_sem.filter (fun o => o != opcode))
    ∧ (send_data_send b opcode data len w).2.ipc_received = w.ipc_received
    ∧ (send_data_send b opcode data len w).2.ipc_receive_buffer = w.ipc_receive_buffer := by
  obtain ⟨c, ch, u, h⟩ := send_data_send_frame b opcode data len w
  rw [h]
  cases hb : b.CONFIG_MULTITHREADING
  · exact ⟨fun s => by cases s <;> rfl, rfl, rfl, rfl, rfl, rfl⟩
  · exact ⟨fun s => by cases s <;> rfl, rfl, rfl, rfl, rfl, rfl⟩


theorem world_chan_eta (w : World) (c : List SendStep) (h : w.chan = c) :
    { w with chan := c } = w := by
  subst h; rfl

/-- A send whose first call does not report a full channel is that one call. -/
theorem send_no_retry (b : Build) (opcode : nrfe_mspi_opcode_t) (data : Msg) (by_ref : Bool)
    (len : Nat) (w : World) (h : ∀ e rest, w.chan = e :: rest → e.rc ≠ -ENOMEM) :
    mspi_ipc_data_send b opcode data by_ref len w
      = ipc_service_send data by_ref len
          (if b.CONFIG_MULTITHREADING then w else atomic_clear_bit w opcode) := by
  have key : ∀ w0 : World, w0.chan = w.chan →
      mspi_ipc_data_send_loop b data by_ref len (k_uptime_get_32 w) w0.chan EP_SEND_TIMEOUT_MS w0
        = ipc_service_send data by_ref len w0 := by
    intro w0 h0
    cases hc : w0.chan with
    | nil =>
      rw [mspi_ipc_data_send_loop, world_chan_eta w0 [] hc]
    | cons e rest =>
      have hne : e.rc ≠ -ENOMEM := h e rest (h0 ▸ hc)
      rcases send_loop_cons b data by_ref len (k_uptime_get_32 w) e rest EP_SEND_TIMEOUT_MS w0
        with h1 | ⟨h1, _⟩
      · rw [h1, world_chan_eta w0 _ hc]
      · exfalso
        apply hne
        simpa [ipc_service_send] using h1
  unfold mspi_ipc_data_send
  dsimp only
  split_ifs
  · exact key w rfl
  · exact key (atomic_clear_bit w opcode) rfl

theorem accepts_next_not_full (w : World) (h : accepts_next w = true) :
    ∀ e rest, w.chan = e :: rest → e.rc ≠ -ENOMEM := by
  intro e rest hc hrc
  simp [accepts_next, hc, hrc, ENOMEM] at h

/-- What an accepting channel does with a call. -/
theorem ipc_service_send_accepts (data : Msg) (by_ref : Bool) (len : Nat) (w : World)
    (h : accepts_next w = true) :
    0 ≤ (ipc_service_send data by_ref len w).1
    ∧ (ipc_service_send data by_ref len w).2.inbox = w.inbox := by
  cases hc : w.chan with
  | nil => simp [ipc_service_send, hc]
  | cons e rest =>
    have : 0 ≤ e.rc := by simpa [accepts_next, hc] using h
    simp [ipc_service_send, hc, this]

theorem send_data_eq (b : Build) (opcode : nrfe_mspi_opcode_t) (data : Msg) (len : Nat)
    (w : World) :
    send_data b opcode data len w
      = (if (send_data_send b opcode data len w).1 < 0 then
          ((send_data_send b opcode data len w).1,
            { (send_data_send b opcode data len w).2 with
              trips := (send_data_send b opcode data len w).2.trips
                ++ [(opcode, (send_data_send b opcode data len w).1)] })
        else
          ((nrfe_mspi_wait_for_response b opcode IPC_TIMEOUT_MS
              (send_data_send b opcode data len w).2).1,
            { (nrfe_mspi_wait_for_response b opcode IPC_TIMEOUT_MS
                (send_data_send b opcode data len w).2).2 with
              trips := (nrfe_mspi_wait_for_response b opcode IPC_TIMEOUT_MS
                  (send_data_send b opcode data len w).2).2.trips
                ++ [(opcode, (nrfe_mspi_wait_for_response b opcode IPC_TIMEOUT_MS
                  (send_data_send b opcode data len w).2).1)] })) := by
  unfold send_data send_data_send
  dsimp only
  split_ifs <;> rfl

/-- The one call of a send to an accepting channel. -/
theorem send_data_send_accepts (b : Build) (opcode : nrfe_mspi_opcode_t) (data : Msg) (len : Nat)
    (w : World) (h : accepts_next w = true) :
    0 ≤ (send_data_send b opcode data len w).1
    ∧ (send_data_send b opcode data len w).2.inbox = w.inbox
    ∧ ∃ c, (send_data_send b opcode data len w).2.calls = w.calls ++ [c] ∧ 0 ≤ c.rc
        ∧ c.data = data := by
  have key : ∀ (by_ref : Bool) (n : Nat),
      0 ≤ (mspi_ipc_data_send b opcode data by_ref n w).1
      ∧ (mspi_ipc_data_send b opcode data by_ref n w).2.inbox = w.inbox
      ∧ ∃ c, (mspi_ipc_data_send b opcode data by_ref n w).2.calls = w.calls ++ [c] ∧ 0 ≤ c.rc
          ∧ c.data = data := by
    intro by_ref n
    rw [send_no_retry b opcode data by_ref n w (accepts_next_not_full w h)]
    have h1 : accepts_next (if b.CONFIG_MULTITHREADING then w else atomic_clear_bit w opcode)
        = true := by
      split_ifs
      · exact h
      · exact h
    have h2 : (if b.CONFIG_MULTITHREADING then w else atomic_clear_bit w opcode).inbox
        = w.inbox := by
      split_ifs <;> rfl
    have h3 : (if b.CONFIG_MULTITHREADING then w else atomic_clear_bit w opcode).calls
        = w.calls := by
      split_ifs <;> rfl
    obtain ⟨a1, a2⟩ := ipc_service_send_accepts data by_ref n _ h1
    refine ⟨a1, a2.trans h2, ⟨data, by_ref, n, (ipc_service_send data by_ref n
      (if b.CONFIG_MULTITHREADING then w else atomic_clear_bit w opcode)).1⟩, ?_, a1, rfl⟩
    rw [calls_ipc_service_send, h3]
  unfold send_data_send
  split_ifs
  · exact key true b.sizeof_ptr
  · exact key false len

/-- A round trip over an accepting channel whose response is delivered within the timeout. -/
theorem send_data_accepted_answered (b : Build) (opcode : nrfe_mspi_opcode_t) (data : Msg)
    (len : Nat) (w : World) (pre : List Batch) (e : Batch) (rest : List Batch)
    (hch : accepts_next w = true) (hi : w.inbox = pre ++ e :: rest)
    (ht : arrives_within b IPC_TIMEOUT_MS pre e = true)
    (h : ∃ ev ∈ e.arrivals, signals b opcode ev = true) :
    (send_data b opcode data len w).1 = 0
    ∧ ∃ c, (send_data b opcode data len w).2.calls = w.calls ++ [c] ∧ 0 ≤ c.rc
        ∧ c.data = data := by
  obtain ⟨a1, a2, c, a3, a4, a5⟩ := send_data_send_accepts b opcode data len w hch
  rw [send_data_eq, if_neg (not_lt.mpr a1)]
  have hw := wait_answered b opcode IPC_TIMEOUT_MS (send_data_send b opcode data len w).2 pre e
    rest (a2.trans hi) ht h
  obtain ⟨_, _, q3, _, _, _⟩ := quiet_wait b opcode IPC_TIMEOUT_MS
    (send_data_send b opcode data len w).2
  exact ⟨hw, c, q3.trans a3, a4, a5⟩

/-- The response to an opcode of the five request kinds signals a wait for that opcode. -/
theorem signals_own_response (b : Build) (opcode : nrfe_mspi_opcode_t) (r : Resp)
    (hr : r.opcode = opcode)
    (ho : opcode = NRFE_MSPI_CONFIG_PINS ∨ opcode = NRFE_MSPI_CONFIG_DEV
      ∨ opcode = NRFE_MSPI_CONFIG_XFER ∨ opcode = NRFE_MSPI_TX ∨ opcode = NRFE_MSPI_TXRX) :
    signals b opcode (IpcEvent.received r) = true := by
  rcases ho with rfl | rfl | rfl | rfl | rfl <;>
    cases hb : b.CONFIG_MULTITHREADING <;>
    simp [signals, signalled_sem, signalled_bit, wait_class, hr, hb]


/-- The latch of an opcode after the send: as before in the threaded build, clear in the threadless one. -/
theorem latched_after_send (b : Build) (opcode : nrfe_mspi_opcode_t) (data : Msg) (len : Nat)
    (w : World) :
    latched b opcode (send_data_send b opcode data len w).2
      = (if b.CONFIG_MULTITHREADING then latched b opcode w else false) := by
  obtain ⟨h1, _, _, h4, _, _⟩ := send_data_send_keeps b opcode data len w
  cases hb : b.CONFIG_MULTITHREADING
  · rw [hb] at h4
    simp [latched, hb, h4]
  · cases hs : wait_class opcode with
    | none => simp [latched, hb, hs]
    | some s => simp [latched, hb, hs, h1 s]

/-- The send loop does not read the channel script of the world it is given. -/
theorem send_loop_chan (b : Build) (data : Msg) (by_ref : Bool) (len start : Nat)
    (script : List SendStep) (cnt : Nat) (w : World) (c : List SendStep) :
    mspi_ipc_data_send_loop b data by_ref len start script cnt { w with chan := c }
      = mspi_ipc_data_send_loop b data by_ref len start script cnt w := by
  cases script <;> rw [mspi_ipc_data_send_loop, mspi_ipc_data_send_loop]

/-- A call that the channel reports full, before the deadline: the loop goes on. -/
theorem send_loop_full_step (b : Build) (data : Msg) (by_ref : Bool) (len start d : Nat)
    (tl : List SendStep) (cnt : Nat) (w : World)
    (h : (if b.CONFIG_SYS_CLOCK_EXISTS
        then decide (EP_SEND_TIMEOUT_MS < sub_u32 ((w.uptime + d) % UINT32_MOD) start)
        else decide ((cnt + UINT32_MOD - 1) % UINT32_MOD = 0)) = false) :
    mspi_ipc_data_send_loop b data by_ref len start (⟨-ENOMEM, d⟩ :: tl) cnt w
      = mspi_ipc_data_send_loop b data by_ref len start tl ((cnt + UINT32_MOD - 1) % UINT32_MOD)
          (after_fulls data by_ref len [d] tl w) := by
  rw [mspi_ipc_data_send_loop]
  have hneg : ((-ENOMEM : Int) < 0) := by decide
  cases hc : b.CONFIG_SYS_CLOCK_EXISTS <;> rw [hc] at h <;>
    simp [ipc_service_send, k_uptime_get_32, hneg, after_fulls, full_calls] at h ⊢ <;>
    simp [h]

/-- A call that the channel reports full, at the deadline: the loop ends with `-ENOMEM`. -/
theorem send_loop_full_stop (b : Build) (data : Msg) (by_ref : Bool) (len start d : Nat)
    (tl : List SendStep) (cnt : Nat) (w : World)
    (h : (if b.CONFIG_SYS_CLOCK_EXISTS
        then decide (EP_SEND_TIMEOUT_MS < sub_u32 ((w.uptime + d) % UINT32_MOD) start)
        else decide ((cnt + UINT32_MOD - 1) % UINT32_MOD = 0)) = true) :
    mspi_ipc_data_send_loop b data by_ref len start (⟨-ENOMEM, d⟩ :: tl) cnt w
      = (-ENOMEM, after_fulls data by_ref len [d] tl w) := by
  rw [mspi_ipc_data_send_loop]
  have hneg : ((-ENOMEM : Int) < 0) := by decide
  cases hc : b.CONFIG_SYS_CLOCK_EXISTS <;> rw [hc] at h <;>
    simp [ipc_service_send, k_uptime_get_32, hneg, after_fulls, full_calls] at h ⊢ <;>
    simp [h]

theorem after_fulls_cons (data : Msg) (by_ref : Bool) (len d : Nat) (ds : List Nat)
    (tl tail : List SendStep) (w : World) :
    after_fulls data by_ref len ds tail (after_fulls data by_ref len [d] tl w)
      = after_fulls data by_ref len (d :: ds) tail w := by
  simp [after_fulls, full_calls, Nat.add_assoc, List.replicate_succ]

theorem after_fulls_nil (data : Msg) (by_ref : Bool) (len : Nat) (tail : List SendStep)
    (w : World) : after_fulls data by_ref len [] tail w = { w with chan := tail } := by
  simp [after_fulls, full_calls]

theorem full_steps_cons (d : Nat) (ds : List Nat) (tail : List SendStep) :
    full_steps (d :: ds) ++ tail = ⟨-ENOMEM, d⟩ :: (full_steps ds ++ tail) := rfl

/-- The full calls before the deadline: the loop makes them all and goes on with the rest of the script. -/
theorem send_loop_fulls (b : Build) (data : Msg) (by_ref : Bool) (len u0 : Nat)
    (tail : List SendStep) (ds : List Nat) :
    ∀ (acc cnt : Nat) (w : World), w.uptime = u0 + acc →
      (b.CONFIG_SYS_CLOCK_EXISTS = true → acc + ds.sum ≤ EP_SEND_TIMEOUT_MS) →
      (b.CONFIG_SYS_CLOCK_EXISTS = false → ds.length < cnt ∧ cnt < UINT32_MOD) →
      ∃ cnt1, (b.CONFIG_SYS_CLOCK_EXISTS = false → cnt1 = cnt - ds.length)
        ∧ mspi_ipc_data_send_loop b data by_ref len (u0 % UINT32_MOD) (full_steps ds ++ tail) cnt w
          = mspi_ipc_data_send_loop b data by_ref len (u0 % UINT32_MOD) tail cnt1
              (after_fulls data by_ref len ds tail w) := by
  induction ds with
  | nil =>
    intro acc cnt w _ _ _
    refine ⟨cnt, fun _ => rfl, ?_⟩
    rw [after_fulls_nil, send_loop_chan b data by_ref len _ tail cnt w tail]
    rfl
  | cons d ds ih =>
    intro acc cnt w hu hclk hcnt
    have hstep : (if b.CONFIG_SYS_CLOCK_EXISTS
        then decide (EP_SEND_TIMEOUT_MS < sub_u32 ((w.uptime + d) % UINT32_MOD) (u0 % UINT32_MOD))
        else decide ((cnt + UINT32_MOD - 1) % UINT32_MOD = 0)) = false := by
      cases hc : b.CONFIG_SYS_CLOCK_EXISTS
      · have := hcnt hc
        simp only [List.length_cons, UINT32_MOD] at this ⊢
        simp only [Bool.false_eq_true, if_false, decide_eq_false_iff_not]
        omega
      · have := hclk hc
        simp only [List.sum_cons, EP_SEND_TIMEOUT_MS] at this
        rw [hu, Nat.add_assoc, sub_u32_elapsed]
        simp only [if_true, decide_eq_false_iff_not, EP_SEND_TIMEOUT_MS, UINT32_MOD]
        omega
    rw [full_steps_cons, send_loop_full_step b data by_ref len _ d _ cnt w hstep]
    obtain ⟨cnt1, h1, h2⟩ := ih (acc + d) ((cnt + UINT32_MOD - 1) % UINT32_MOD)
      (after_fulls data by_ref len [d] (full_steps ds ++ tail) w)
      (by simp [after_fulls, hu, Nat.add_assoc])
      (fun hc => by
        have := hclk hc
        simp only [List.sum_cons] at this
        omega)
      (fun hc => by
        have := hcnt hc
        simp only [List.length_cons, UINT32_MOD] at this ⊢
        omega)
    refine ⟨cnt1, fun hc => ?_, ?_⟩
    · have := hcnt hc
      rw [h1 hc]
      simp only [List.length_cons, UINT32_MOD] at this ⊢
      omega
    · rw [h2, after_fulls_cons]

/-- A call whose result is not `-ENOMEM` ends the loop. -/
theorem send_loop_other (b : Build) (data : Msg) (by_ref : Bool) (len start : Nat)
    (e : SendStep) (rest : List SendStep) (cnt : Nat) (w : World) (h : e.rc ≠ -ENOMEM) :
    mspi_ipc_data_send_loop b data by_ref len start (e :: rest) cnt w
      = (e.rc, { w with chan := rest, uptime := w.uptime + e.elapsed,
                        calls := w.calls ++ [⟨data, by_ref, len, e.rc⟩] }) := by
  rcases send_loop_cons b data by_ref len start e rest cnt w with h1 | ⟨h1, _⟩
  · rw [h1]; rfl
  · exact absurd h1 h

theorem mspi_ipc_data_send_eq (b : Build) (opcode : nrfe_mspi_opcode_t) (data : Msg)
    (by_ref : Bool) (len : Nat) (w : World) :
    mspi_ipc_data_send b opcode data by_ref len w
      = mspi_ipc_data_send_loop b data by_ref len (w.uptime % UINT32_MOD) w.chan
          EP_SEND_TIMEOUT_MS (if b.CONFIG_MULTITHREADING then w else atomic_clear_bit w opcode) := by
  unfold mspi_ipc_data_send
  dsimp only
  split_ifs <;> rfl

/-- In the build without a clock the loop makes at most as many calls as its counter says. -/
theorem send_loop_bound (b : Build) (data : Msg) (by_ref : Bool) (len start : Nat)
    (hc : b.CONFIG_SYS_CLOCK_EXISTS = false) (script : List SendStep) :
    ∀ (cnt : Nat) (w : World), 1 ≤ cnt → cnt < UINT32_MOD →
      (mspi_ipc_data_send_loop b data by_ref len start script cnt w).2.calls.length
        ≤ w.calls.length + cnt := by
  induction script with
  | nil =>
    intro cnt w h1 _
    rw [mspi_ipc_data_send_loop, calls_ipc_service_send]
    simp only [List.length_append, List.length_singleton]
    omega
  | cons e rest ih =>
    intro cnt w h1 h2
    have hcall : (ipc_service_send data by_ref len { w with chan := e :: rest }).2.calls.length
        = w.calls.length + 1 := by
      rw [calls_ipc_service_send]
      simp
    rw [mspi_ipc_data_send_loop]
    simp only [hc, Bool.false_eq_true, if_false]
    by_cases hstop : (decide ((ipc_service_send data by_ref len { w with chan := e :: rest }).1 < 0)
        && decide ((cnt + UINT32_MOD - 1) % UINT32_MOD = 0)) = true
    · rw [if_pos hstop, hcall]; omega
    · rw [if_neg hstop]
      by_cases hfull : (ipc_service_send data by_ref len { w with chan := e :: rest }).1 = -ENOMEM
      · rw [if_pos hfull]
        have hz : (cnt + UINT32_MOD - 1) % UINT32_MOD ≠ 0 := by
          intro hz
          apply hstop
          rw [hfull, hz]
          decide
        have hlt : (cnt + UINT32_MOD - 1) % UINT32_MOD < UINT32_MOD := Nat.mod_lt _ (by decide)
        have := ih ((cnt + UINT32_MOD - 1) % UINT32_MOD)
          (ipc_service_send data by_ref len { w with chan := e :: rest }).2
          (Nat.pos_of_ne_zero hz) hlt
        rw [hcall] at this
        simp only [UINT32_MOD] at this h2 ⊢
        omega
      · rw [if_neg hfull, hcall]; omega

/-- In the build without a clock, as many full calls as the counter says end the loop with `-ENOMEM`. -/
theorem send_loop_exhausts (b : Build) (data : Msg) (by_ref : Bool) (len start : Nat)
    (hc : b.CONFIG_SYS_CLOCK_EXISTS = false) (rest : List SendStep) (ds : List Nat) :
    ∀ (cnt : Nat) (w : World), 1 ≤ cnt → ds.length = cnt → cnt < UINT32_MOD →
      mspi_ipc_data_send_loop b data by_ref len start (full_steps ds ++ rest) cnt w
        = (-ENOMEM, after_fulls data by_ref len ds rest w) := by
  induction ds with
  | nil => intro cnt w h1 h2 _; simp at h2; omega
  | cons d ds ih =>
    intro cnt w h1 h2 h3
    rw [full_steps_cons]
    by_cases h4 : cnt = 1
    · have hds : ds = [] := by
        apply List.eq_nil_of_length_eq_zero
        simp only [List.length_cons] at h2
        omega
      subst hds
      rw [send_loop_full_stop b data by_ref len start d _ cnt w (by
        rw [hc, h4]
        simp [UINT32_MOD])]
      rfl
    · simp only [List.length_cons] at h2
      rw [send_loop_full_step b data by_ref len start d _ cnt w (by
        rw [hc]
        simp only [Bool.false_eq_true, if_false, decide_eq_false_iff_not, UINT32_MOD] at h3 ⊢
        omega)]
      rw [ih ((cnt + UINT32_MOD - 1) % UINT32_MOD) _ (by
        simp only [UINT32_MOD] at h3 ⊢
        omega) (by
        simp only [UINT32_MOD] at h3 ⊢
        omega) (Nat.mod_lt _ (by decide)), after_fulls_cons]

/-! ### Signals latched before a round trip -/

/-- The threadless build clears the bit of the opcode before sending:
whatever bits were set before the call, a round trip whose send succeeds and
to which no callback signals the opcode times out. -/
theorem send_data_threadless_stale (b : Build) (opcode : nrfe_mspi_opcode_t) (data : Msg)
    (len : Nat) (w : World) (hsend : 0 ≤ (send_data_send b opcode data len w).1)
    (hb : b.CONFIG_MULTITHREADING = false) (hno : no_signal_for b opcode w.inbox) :
    (send_data b opcode data len w).1 = -ETIMEDOUT := by
  obtain ⟨_, k2, _, _, _, _⟩ := send_data_send_keeps b opcode data len w
  have hl := latched_after_send b opcode data len w
  rw [send_data_eq, if_neg (not_lt.mpr hsend)]
  apply wait_times_out
  · intro h; rw [hb] at h; cases h
  · rw [hl, hb]; rfl
  · rw [k2]; exact hno

/-- The threaded build clears nothing: when the semaphore of the opcode's
class was available before the call, a round trip whose send succeeds
returns 0 at once, without letting a delivery in. -/
theorem send_data_threaded_stale (b : Build) (opcode : nrfe_mspi_opcode_t) (data : Msg)
    (len : Nat) (w : World) (hsend : 0 ≤ (send_data_send b opcode data len w).1)
    (hb : b.CONFIG_MULTITHREADING = true) (hlat : latched b opcode w = true) :
    (send_data b opcode data len w).1 = 0
    ∧ (send_data b opcode data len w).2.inbox = w.inbox := by
  obtain ⟨_, k2, _, _, _, _⟩ := send_data_send_keeps b opcode data len w
  have hl := latched_after_send b opcode data len w
  rw [send_data_eq, if_neg (not_lt.mpr hsend)]
  obtain ⟨a1, a2, _⟩ := wait_latched b opcode IPC_TIMEOUT_MS
    (send_data_send b opcode data len w).2 (by rw [hl, hb]; exact hlat)
  exact ⟨a1, a2.trans k2⟩

/-! ### What leaves the staging alone -/

theorem staging_sem_set (w : World) (s : Sem) (n : Nat) : staging (sem_set w s n) = staging w := by
  cases s <;> rfl

theorem staging_give_or_set (b : Build) (s : Sem) (bit : nrfe_mspi_opcode_t) (w : World) :
    staging (give_or_set b s bit w) = staging w := by
  unfold give_or_set k_sem_give atomic_set_bit
  split_ifs
  · exact staging_sem_set _ _ _
  · rfl
  · rfl
  · rfl

theorem staging_ep_recv (b : Build) (r : Resp) (w : World)
    (h : ¬ (r.opcode = NRFE_MSPI_TXRX ∧ 0 < r.len)) : staging (ep_recv b r w) = staging w := by
  unfold ep_recv
  cases hr : r.opcode
  case NRFE_MSPI_TXRX =>
    have hlen : ¬ 0 < r.len := fun hl => h ⟨hr, hl⟩
    simp only [if_neg hlen]
    exact staging_give_or_set b _ _ w
  case NRFE_MSPI_CONFIG_TIMER_PTR =>
    dsimp only
    split_ifs
    · exact staging_give_or_set b _ _ w
    · rfl
  all_goals first
    | exact staging_give_or_set b _ _ w
    | rfl

theorem staging_dispatch (b : Build) (v : World) (ev : IpcEvent) (h : restages ev = false) :
    staging (dispatch b v ev) = staging v := by
  cases ev with
  | bound => cases h
  | received r =>
    exact staging_ep_recv b r v (by simpa [restages] using h)

theorem staging_deliver (b : Build) (evs : List IpcEvent) (v : World)
    (h : ∀ ev ∈ evs, restages ev = false) : staging (deliver b evs v) = staging v := by
  induction evs generalizing v with
  | nil => rfl
  | cons ev evs ih =>
    rw [deliver_cons, ih _ (fun e he => h e (List.mem_cons_of_mem _ he)),
      staging_dispatch b v ev (h ev (List.mem_cons_self _ _))]

theorem staging_k_sem_take_wait (b : Build) (s : Sem) (script : List Batch) (budget : Nat)
    (w : World) (h : ∀ e ∈ script, ∀ ev ∈ e.arrivals, restages ev = false) :
    staging (k_sem_take_wait b s script budget w).2 = staging w := by
  induction script generalizing budget w with
  | nil => rfl
  | cons e rest ih =>
    rw [k_sem_take_wait]
    have hd : staging (deliver b e.arrivals
        { w with inbox := rest, uptime := w.uptime + e.elapsed }) = staging w :=
      staging_deliver b _ _ (h e (List.mem_cons_self _ _))
    dsimp only
    split_ifs
    · rfl
    · rw [staging_sem_set]; exact hd
    · rw [ih _ _ (fun e1 he1 => h e1 (List.mem_cons_of_mem _ he1))]; exact hd

theorem staging_poll_loop (b : Build) (opcode : nrfe_mspi_opcode_t) (timeout start : Nat)
    (script : List Batch) (cnt : Nat) (w : World)
    (h : ∀ e ∈ script, ∀ ev ∈ e.arrivals, restages ev = false) :
    staging (poll_loop b opcode timeout start script cnt w).2 = staging w := by
  induction script generalizing cnt w with
  | nil =>
    unfold poll_loop
    simp only [atomic_test_and_clear_bit]
    split <;> rfl
  | cons e rest ih =>
    unfold poll_loop
    simp only [atomic_test_and_clear_bit]
    have hd : staging (deliver b e.arrivals { atomic_clear_bit w opcode with
        inbox := rest, uptime := (atomic_clear_bit w opcode).uptime + e.elapsed }) = staging w :=
      staging_deliver b _ _ (h e (List.mem_cons_self _ _))
    split_ifs
    all_goals first
      | rfl
      | (rw [ih _ _ (fun e1 he1 => h e1 (List.mem_cons_of_mem _ he1))]; exact hd)

/-- A wait during which no callback writes the staging leaves it as it was. -/
theorem staging_wait (b : Build) (opcode : nrfe_mspi_opcode_t) (timeout : Nat) (w : World)
    (h : ∀ e ∈ w.inbox, ∀ ev ∈ e.arrivals, restages ev = false) :
    staging (nrfe_mspi_wait_for_response b opcode timeout w).2 = staging w := by
  cases hb : b.CONFIG_MULTITHREADING
  · rw [wait_threadless b opcode timeout w hb]
    exact staging_poll_loop b opcode timeout _ w.inbox _ _ h
  · cases hs : wait_class opcode with
    | none => rw [wait_threaded_none b opcode timeout w hb hs]; rfl
    | some s =>
      rw [wait_threaded b opcode timeout w s hb hs]
      have hk : staging (k_sem_take b s timeout
          { w with waits := w.waits ++ [(opcode, timeout)] }).2 = staging w := by
        unfold k_sem_take
        split
        · exact staging_sem_set _ _ _
        · exact staging_k_sem_take_wait b s _ _ _ h
      split_ifs <;> exact hk

/-- A round trip during which no callback writes the staging leaves it as it was. -/
theorem staging_send_data (b : Build) (opcode : nrfe_mspi_opcode_t) (data : Msg) (len : Nat)
    (w : World) (h : ∀ e ∈ w.inbox, ∀ ev ∈ e.arrivals, restages ev = false) :
    staging (send_data b opcode data len w).2 = staging w := by
  obtain ⟨_, k2, _, _, k5, k6⟩ := send_data_send_keeps b opcode data len w
  have hs : staging (send_data_send b opcode data len w).2 = staging w := by
    unfold staging
    rw [k5, k6]
  rw [send_data_eq]
  split_ifs
  · exact hs
  · exact (staging_wait b opcode IPC_TIMEOUT_MS _ (by rw [k2]; exact h)).trans hs

/-! ### The indices that `api_config` reads -/

/-- The search loop: where it ends, what it reads, and what it has passed. -/
theorem find_default_state_spec (pcfg : pinctrl_dev_config) (fuel : Nat) :
    ∀ start : Nat,
      start ≤ (find_default_state pcfg fuel start).1
      ∧ (find_default_state pcfg fuel start).1 ≤ start + fuel
      ∧ (∀ i ∈ (find_default_state pcfg fuel start).2, start ≤ i ∧ i < start + fuel)
      ∧ (∀ i, start ≤ i → i < (find_default_state pcfg fuel start).1
          → (states_at pcfg i).id ≠ PINCTRL_STATE_DEFAULT)
      ∧ ((find_default_state pcfg fuel start).1 < start + fuel
          → (states_at pcfg (find_default_state pcfg fuel start).1).id
              = PINCTRL_STATE_DEFAULT) := by
  induction fuel with
  | zero =>
    intro start
    simp only [find_default_state, Nat.add_zero]
    refine ⟨le_refl _, le_refl _, fun i hi => absurd hi (List.not_mem_nil i), ?_, ?_⟩
    · intro i h1 h2; omega
    · intro h; omega
  | succ n ih =>
    intro start
    rw [find_default_state]
    by_cases hid : (states_at pcfg start).id = PINCTRL_STATE_DEFAULT
    · rw [if_pos hid]
      refine ⟨le_refl _, by omega, ?_, ?_, fun _ => hid⟩
      · intro i hi
        rw [List.mem_singleton] at hi
        omega
      · intro i h1 h2
        exact absurd h2 (by simp only []; omega)
    · rw [if_neg hid]
      obtain ⟨a1, a2, a3, a4, a5⟩ := ih (start + 1)
      refine ⟨by simp only []; omega, by simp only []; omega, ?_, ?_, ?_⟩
      · intro i hi
        rcases List.mem_cons.mp hi with h | h
        · omega
        · have := a3 i h
          omega
      · intro i h1 h2
        by_cases h3 : i = start
        · rw [h3]; exact hid
        · exact a4 i (by omega) h2
      · intro h
        exact a5 (by simp only [] at h; omega)

/-- The indices that `api_config` reads once the three checks of the
configuration have passed: those of the search loop, then the index at which
the loop ended. -/
theorem api_config_state_reads (b : Build) (spec : mspi_dt_spec) (w : World)
    (h1 : spec.config.op_mode = MSPI_OP_MODE_CONTROLLER) (h2 : spec.config.dqs_support = false)
    (h3 : spec.config.max_freq ≤ spec.bus_config.mspicfg.max_freq) :
    (api_config b spec w).2.state_reads
      = w.state_reads
        ++ (find_default_state spec.bus_config.pcfg spec.bus_config.pcfg.state_cnt 0).2
        ++ [(find_default_state spec.bus_config.pcfg spec.bus_config.pcfg.state_cnt 0).1] := by
  unfold api_config
  dsimp only
  rw [if_neg (by rw [h1]; simp), if_neg (by rw [h2]; simp), if_neg (not_lt.mpr h3)]
  split_ifs
  · rfl
  · rfl
  · obtain ⟨_, _, _, hs, _⟩ := send_data_spec b NRFE_MSPI_CONFIG_PINS
      (Msg.pins ⟨NRFE_MSPI_CONFIG_PINS, fill_pins b (states_at spec.bus_config.pcfg
        (find_default_state spec.bus_config.pcfg spec.bus_config.pcfg.state_cnt 0).1).pins⟩)
      b.sizeof_pin_msg
      { w with state_reads := w.state_reads
          ++ (find_default_state spec.bus_config.pcfg spec.bus_config.pcfg.state_cnt 0).2
          ++ [(find_default_state spec.bus_config.pcfg spec.bus_config.pcfg.state_cnt 0).1] }
    exact hs

/-- With a default state among the first `state_cnt` states, `api_config`
reads below `state_cnt` only, and the loop ends at the first default state. -/
theorem api_config_reads_below (b : Build) (spec : mspi_dt_spec) (w : World)
    (h1 : spec.config.op_mode = MSPI_OP_MODE_CONTROLLER) (h2 : spec.config.dqs_support = false)
    (h3 : spec.config.max_freq ≤ spec.bus_config.mspicfg.max_freq)
    (hd : ∃ i, i < spec.bus_config.pcfg.state_cnt
      ∧ (states_at spec.bus_config.pcfg i).id = PINCTRL_STATE_DEFAULT) :
    ∃ l k, (api_config b spec w).2.state_reads = w.state_reads ++ l
      ∧ (∀ i ∈ l, i < spec.bus_config.pcfg.state_cnt)
      ∧ k = (find_default_state spec.bus_config.pcfg spec.bus_config.pcfg.state_cnt 0).1
      ∧ k < spec.bus_config.pcfg.state_cnt
      ∧ (states_at spec.bus_config.pcfg k).id = PINCTRL_STATE_DEFAULT
      ∧ ∀ i, i < k → (states_at spec.bus_config.pcfg i).id ≠ PINCTRL_STATE_DEFAULT := by
  obtain ⟨_, a2, a3, a4, a5⟩ :=
    find_default_state_spec spec.bus_config.pcfg spec.bus_config.pcfg.state_cnt 0
  obtain ⟨i0, hi0, hid0⟩ := hd
  have hk : (find_default_state spec.bus_config.pcfg spec.bus_config.pcfg.state_cnt 0).1
      < spec.bus_config.pcfg.state_cnt := by
    by_contra hge
    exact a4 i0 (Nat.zero_le _) (by omega) hid0
  refine ⟨(find_default_state spec.bus_config.pcfg spec.bus_config.pcfg.state_cnt 0).2
      ++ [(find_default_state spec.bus_config.pcfg spec.bus_config.pcfg.state_cnt 0).1],
    (find_default_state spec.bus_config.pcfg spec.bus_config.pcfg.state_cnt 0).1,
    ?_, ?_, rfl, hk, a5 (by omega), fun i hi => a4 i (Nat.zero_le _) hi⟩
  · rw [api_config_state_reads b spec w h1 h2 h3, List.append_assoc]
  · intro i hi
    rcases List.mem_append.mp hi with h | h
    · have := a3 i h
      omega
    · rw [List.mem_singleton] at h
      omega

/-- Without a default state among the first `state_cnt` states, `api_config`
reads the array at index `state_cnt`. -/
theorem api_config_reads_state_cnt (b : Build) (spec : mspi_dt_spec) (w : World)
    (h1 : spec.config.op_mode = MSPI_OP_MODE_CONTROLLER) (h2 : spec.config.dqs_support = false)
    (h3 : spec.config.max_freq ≤ spec.bus_config.mspicfg.max_freq)
    (hd : ∀ i, i < spec.bus_config.pcfg.state_cnt
      → (states_at spec.bus_config.pcfg i).id ≠ PINCTRL_STATE_DEFAULT) :
    spec.bus_config.pcfg.state_cnt ∈ (api_config b spec w).2.state_reads := by
  obtain ⟨_, a2, _, _, a5⟩ :=
    find_default_state_spec spec.bus_config.pcfg spec.bus_config.pcfg.state_cnt 0
  have hk : (find_default_state spec.bus_config.pcfg spec.bus_config.pcfg.state_cnt 0).1
      = spec.bus_config.pcfg.state_cnt := by
    by_contra hne
    have hlt : (find_default_state spec.bus_config.pcfg spec.bus_config.pcfg.state_cnt 0).1
        < 0 + spec.bus_config.pcfg.state_cnt := by omega
    exact hd _ (by omega) (a5 hlt)
  rw [api_config_state_reads b spec w h1 h2 h3, hk]
  simp

/-! ### The log of the waits of a transfer -/

/-- A round trip waits at most once, with the fixed response timeout. -/
theorem waits_send_data (b : Build) (opcode : nrfe_mspi_opcode_t) (data : Msg) (len : Nat)
    (w : World) :
    ∃ l, (send_data b opcode data len w).2.waits = w.waits ++ l
      ∧ ∀ x ∈ l, x = (opcode, IPC_TIMEOUT_MS) := by
  obtain ⟨_, _, k3, _, _, _⟩ := send_data_send_keeps b opcode data len w
  rw [send_data_eq]
  split_ifs
  · exact ⟨[], by simp [k3], fun x hx => absurd hx (List.not_mem_nil x)⟩
  · refine ⟨[(opcode, IPC_TIMEOUT_MS)], ?_, fun x hx => List.mem_singleton.mp hx⟩
    show (nrfe_mspi_wait_for_response b opcode IPC_TIMEOUT_MS
      (send_data_send b opcode data len w).2).2.waits = _
    rw [waits_wait, k3]

theorem waits_consume_staging (p : mspi_xfer_packet) (r : Int × World) :
    (consume_staging p r).2.waits = r.2.waits := by
  unfold consume_staging
  split
  · split_ifs <;> rfl
  · rfl

/-! ### The log of the buffers -/

theorem buffers_sem_set (w : World) (s : Sem) (n : Nat) :
    (sem_set w s n).buffers = w.buffers := by
  cases s <;> rfl

theorem buffers_give_or_set (b : Build) (s : Sem) (bit : nrfe_mspi_opcode_t) (w : World) :
    (give_or_set b s bit w).buffers = w.buffers := by
  unfold give_or_set k_sem_give atomic_set_bit
  split_ifs
  · exact buffers_sem_set _ _ _
  · rfl
  · rfl
  · rfl

theorem buffers_dispatch (b : Build) (v : World) (ev : IpcEvent) :
    (dispatch b v ev).buffers = v.buffers := by
  cases ev with
  | bound => exact buffers_give_or_set b _ _ _
  | received r =>
    show (ep_recv b r v).buffers = v.buffers
    unfold ep_recv
    split
    · split_ifs
      · exact buffers_give_or_set b _ _ _
      · rfl
    · exact buffers_give_or_set b _ _ _
    · exact buffers_give_or_set b _ _ _
    · exact buffers_give_or_set b _ _ _
    · exact buffers_give_or_set b _ _ _
    · rw [buffers_give_or_set]
      split_ifs <;> rfl
    · rfl
    · rfl

theorem buffers_deliver (b : Build) (evs : List IpcEvent) (v : World) :
    (deliver b evs v).buffers = v.buffers := by
  induction evs generalizing v with
  | nil => rfl
  | cons ev evs ih => rw [deliver_cons, ih, buffers_dispatch]

theorem buffers_k_sem_take_wait (b : Build) (s : Sem) (script : List Batch) (budget : Nat)
    (w : World) : (k_sem_take_wait b s script budget w).2.buffers = w.buffers := by
  induction script generalizing budget w with
  | nil => rfl
  | cons e rest ih =>
    rw [k_sem_take_wait]
    have hd : (deliver b e.arrivals
        { w with inbox := rest, uptime := w.uptime + e.elapsed }).buffers = w.buffers :=
      buffers_deliver b _ _
    dsimp only
    split_ifs
    · rfl
    · rw [buffers_sem_set]; exact hd
    · rw [ih]; exact hd

theorem buffers_k_sem_take (b : Build) (s : Sem) (timeout : Nat) (w : World) :
    (k_sem_take b s timeout w).2.buffers = w.buffers := by
  unfold k_sem_take
  split
  · exact buffers_sem_set _ _ _
  · exact buffers_k_sem_take_wait b s _ _ w

theorem buffers_poll_loop (b : Build) (opcode : nrfe_mspi_opcode_t) (timeout start : Nat)
    (script : List Batch) (cnt : Nat) (w : World) :
    (poll_loop b opcode timeout start script cnt w).2.buffers = w.buffers := by
  induction script generalizing cnt w with
  | nil =>
    unfold poll_loop
    simp only [atomic_test_and_clear_bit]
    split <;> rfl
  | cons e rest ih =>
    unfold poll_loop
    simp only [atomic_test_and_clear_bit]
    split_ifs
    all_goals first
      | rfl
      | (rw [ih, buffers_deliver]; rfl)

theorem buffers_wait (b : Build) (opcode : nrfe_mspi_opcode_t) (timeout : Nat) (w : World) :
    (nrfe_mspi_wait_for_response b opcode timeout w).2.buffers = w.buffers := by
  cases hb : b.CONFIG_MULTITHREADING
  · rw [wait_threadless b opcode timeout w hb]
    exact buffers_poll_loop b opcode timeout _ _ _ _
  · cases hs : wait_class opcode with
    | none => rw [wait_threaded_none b opcode timeout w hb hs]
    | some s =>
      rw [wait_threaded b opcode timeout w s hb hs]
      split_ifs <;> exact buffers_k_sem_take b s timeout _

theorem buffers_send_data_send (b : Build) (opcode : nrfe_mspi_opcode_t) (data : Msg)
    (len : Nat) (w : World) :
    (send_data_send b opcode data len w).2.buffers = w.buffers := by
  obtain ⟨c, ch, u, h⟩ := send_data_send_frame b opcode data len w
  rw [h]
  cases hb : b.CONFIG_MULTITHREADING <;> rfl

/-- A round trip declares no buffer. -/
theorem buffers_send_data (b : Build) (opcode : nrfe_mspi_opcode_t) (data : Msg) (len : Nat)
    (w : World) : (send_data b opcode data len w).2.buffers = w.buffers := by
  have k := buffers_send_data_send b opcode data len w
  rw [send_data_eq]
  split_ifs
  · exact k
  · show (nrfe_mspi_wait_for_response b opcode IPC_TIMEOUT_MS
      (send_data_send b opcode data len w).2).2.buffers = _
    rw [buffers_wait, k]

theorem buffers_consume_staging (p : mspi_xfer_packet) (r : Int × World) :
    (consume_staging p r).2.buffers = r.2.buffers := by
  unfold consume_staging
  split
  · split_ifs <;> rfl
  · rfl

/-- The transfer of a packet declares one buffer, of the length of the packet. -/
theorem buffers_xfer_packet (b : Build) (p : mspi_xfer_packet) (t : Nat) (w : World) :
    (xfer_packet b p t w).2.buffers = w.buffers ++ [packet_len b p] := by
  rw [xfer_packet_eq, buffers_consume_staging, buffers_send_data]

theorem waits_start_next_packet (b : Build) (req : mspi_xfer) (i : Nat) (w : World) :
    ∃ l, (start_next_packet b req i w).2.waits = w.waits ++ l
      ∧ ∀ x ∈ l, x.2 = IPC_TIMEOUT_MS := by
  rw [start_next_packet_eq]
  split_ifs
  · exact ⟨[], by simp, fun x hx => absurd hx (List.not_mem_nil x)⟩
  · rw [xfer_packet_eq, waits_consume_staging]
    obtain ⟨l, h1, h2⟩ := waits_send_data b (packet_opcode (packets_at req i))
      (Msg.xfer_packet (packet_msg b (packets_at req i) w.mem)) (packet_len b (packets_at req i))
      { w with buffers := w.buffers ++ [packet_len b (packets_at req i)] }
    exact ⟨l, h1, fun x hx => by rw [h2 x hx]⟩

theorem waits_transceive_loop (b : Build) (req : mspi_xfer) (n : Nat) :
    ∀ (done : Nat) (w : World),
      ∃ l, (transceive_loop b req n done w).2.waits = w.waits ++ l
        ∧ ∀ x ∈ l, x.2 = IPC_TIMEOUT_MS := by
  induction n with
  | zero =>
    intro done w
    exact ⟨[], by simp [transceive_loop], fun x hx => absurd hx (List.not_mem_nil x)⟩
  | succ n ih =>
    intro done w
    obtain ⟨l1, h1, h2⟩ := waits_start_next_packet b req done w
    rw [transceive_loop_succ]
    split_ifs
    · exact ⟨l1, h1, h2⟩
    · obtain ⟨l2, h3, h4⟩ := ih (done + 1) (start_next_packet b req done w).2
      refine ⟨l1 ++ l2, by rw [h3, h1, List.append_assoc], ?_⟩
      intro x hx
      rcases List.mem_append.mp hx with h | h
      · exact h2 x h
      · exact h4 x h

/-- Every wait of a transfer has the fixed response timeout. -/
theorem waits_api_transceive (b : Build) (dev_id : mspi_dev_id) (req : mspi_xfer) (w : World) :
    ∃ l, (api_transceive b dev_id req w).2.waits = w.waits ++ l
      ∧ ∀ x ∈ l, x.2 = IPC_TIMEOUT_MS := by
  unfold api_transceive
  dsimp only
  split_ifs
  · exact ⟨[], by simp, fun x hx => absurd hx (List.not_mem_nil x)⟩
  · exact ⟨[], by simp, fun x hx => absurd hx (List.not_mem_nil x)⟩
  · obtain ⟨l, h1, h2⟩ := waits_send_data b NRFE_MSPI_CONFIG_XFER
      (Msg.xfer_config (config_xfer_msg dev_id req)) b.sizeof_xfer_config_msg
      { w with dev_data := ⟨config_xfer_msg dev_id req⟩ }
    exact ⟨l, h1, fun x hx => by rw [h2 x hx]⟩
  · obtain ⟨l, h1, h2⟩ := waits_send_data b NRFE_MSPI_CONFIG_XFER
      (Msg.xfer_config (config_xfer_msg dev_id req)) b.sizeof_xfer_config_msg
      { w with dev_data := ⟨config_xfer_msg dev_id req⟩ }
    obtain ⟨l2, h3, h4⟩ := waits_transceive_loop b req req.num_packet 0
      (send_data b NRFE_MSPI_CONFIG_XFER (Msg.xfer_config (config_xfer_msg dev_id req))
        b.sizeof_xfer_config_msg { w with dev_data := ⟨config_xfer_msg dev_id req⟩ }).2
    refine ⟨l ++ l2, ?_, ?_⟩
    · exact h3.trans (by rw [h1, List.append_assoc])
    · intro x hx
      rcases List.mem_append.mp hx with h | h
      · rw [h2 x h]
      · exact h4 x h

/-! ### The timeout of a request -/

theorem start_next_packet_timeout (b : Build) (req : mspi_xfer) (t : Nat) (i : Nat) (w : World) :
    start_next_packet b { req with timeout := t } i w = start_next_packet b req i w := rfl

theorem transceive_loop_timeout (b : Build) (req : mspi_xfer) (t : Nat) (n : Nat) :
    ∀ (done : Nat) (w : World),
      transceive_loop b { req with timeout := t } n done w = transceive_loop b req n done w := by
  induction n with
  | zero => intro done w; rfl
  | succ n ih =>
    intro done w
    rw [transceive_loop_succ, transceive_loop_succ, start_next_packet_timeout, ih]

/-! ## The claims -/

/-! ### C1 -/

/-- C1: a transfer request that passes the up-front checks (not asynchronous,
at least one packet, packets present, timeout within the tolerance, every
byte count below `MAX_TX_MSG_SIZE`), all of whose round trips succeed and none
of whose staged lengths mismatches, makes `api_transceive` return 0, and the
messages the channel accepted are the `ConfigTransfer` message built from the
request followed by one packet message per packet, in packet order, with the
packet's command, address and byte count and the opcode `NRFE_MSPI_TXRX`
exactly for a receive packet; conversely a result 0 comes only with all these
messages sent. -/
theorem transceive_success_sends_all (b : Build) (dev_id : mspi_dev_id) (req : mspi_xfer)
    (w : World) (ps : List mspi_xfer_packet)
    (h_async : req.async = false) (h_num : 0 < req.num_packet) (h_ps : req.packets = some ps)
    (h_len : ps.length = req.num_packet)
    (h_to : req.timeout ≤ b.CONFIG_MSPI_COMPLETION_TIMEOUT_TOLERANCE) :
    ((∀ p ∈ ps, p.num_bytes < b.MAX_TX_MSG_SIZE)
      → (∀ t ∈ (api_transceive b dev_id req w).2.trips.drop w.trips.length, t.2 = 0)
      → (api_transceive b dev_id req w).2.mismatches = w.mismatches
      → (api_transceive b dev_id req w).1 = 0
        ∧ ((sent (api_transceive b dev_id req w).2).drop (sent w).length).map without_payload
            = Msg.xfer_config (config_xfer_msg dev_id req) :: ps.map packet_header)
    ∧ ((api_transceive b dev_id req w).1 = 0
      → ((sent (api_transceive b dev_id req w).2).drop (sent w).length).map without_payload
            = Msg.xfer_config (config_xfer_msg dev_id req) :: ps.map packet_header) := by
  obtain ⟨lt, lm, htr, hmis, ha, hb⟩ :=
    api_transceive_spec b dev_id req w ps h_async h_num h_ps h_len h_to
  have conv : (api_transceive b dev_id req w).1 = 0
      → ((sent (api_transceive b dev_id req w).2).drop (sent w).length).map without_payload
          = Msg.xfer_config (config_xfer_msg dev_id req) :: ps.map packet_header := by
    intro h0
    obtain ⟨l, hl, hm⟩ := hb (le_of_eq h0.symm)
    rw [hl, List.drop_left, hm]
  refine ⟨?_, conv⟩
  intro hsz ht hm
  have h0 : (api_transceive b dev_id req w).1 = 0 := by
    apply ha _ _ hsz
    · rw [htr, List.drop_left] at ht
      exact ht
    · rw [hmis] at hm
      exact List.append_right_eq_self.mp hm
  exact ⟨h0, conv h0⟩

/-- C1 at a two-packet transfer that the coprocessor answers in full. -/
theorem transceive_success_sends_all_witness :
    (demo_req2.async = false ∧ 0 < demo_req2.num_packet
      ∧ demo_req2.timeout ≤ demo_build.CONFIG_MSPI_COMPLETION_TIMEOUT_TOLERANCE
      ∧ (∀ p ∈ [(⟨MSPI_TX, 6, 0, 2, 100⟩ : mspi_xfer_packet), ⟨MSPI_RX, 3, 16, 4, 200⟩],
          p.num_bytes < demo_build.MAX_TX_MSG_SIZE)
      ∧ (∀ t ∈ (api_transceive demo_build ⟨1⟩ demo_req2 demo_world2).2.trips.drop
          demo_world2.trips.length, t.2 = 0)
      ∧ (api_transceive demo_build ⟨1⟩ demo_req2 demo_world2).2.mismatches
          = demo_world2.mismatches)
    ∧ ((api_transceive demo_build ⟨1⟩ demo_req2 demo_world2).1 = 0
      ∧ ((sent (api_transceive demo_build ⟨1⟩ demo_req2 demo_world2).2).drop
            (sent demo_world2).length).map without_payload
          = Msg.xfer_config (config_xfer_msg ⟨1⟩ demo_req2)
              :: [(⟨MSPI_TX, 6, 0, 2, 100⟩ : mspi_xfer_packet), ⟨MSPI_RX, 3, 16, 4, 200⟩].map
                  packet_header) :=
  ⟨⟨rfl, by decide, by decide, by decide, by decide, by decide⟩,
    (transceive_success_sends_all demo_build ⟨1⟩ demo_req2 demo_world2 _ rfl (by decide) rfl rfl
      (by decide)).1 (by decide) (by decide) (by decide)⟩

/-! ### C2 -/

/-- C3: a receive packet after whose round trip a buffer is staged with a
length `L > 0` other than the packet's byte count makes `xfer_packet` return
`-EIO`, leaves the caller's memory as it was and clears the staging to
`(NULL, 0)`; and for a send packet `xfer_packet` is the bare round trip, the
staging check being skipped, and its result and everything in the world but
the staging itself are the same whatever is staged when it starts. -/
theorem xfer_packet_length_mismatch (b : Build) (p : mspi_xfer_packet) (t : Nat) (w : World)
    (staged : List Nat) (hd : p.dir = MSPI_RX)
    (hbuf : (packet_round_trip b p w).2.ipc_receive_buffer = some staged)
    (hpos : 0 < (packet_round_trip b p w).2.ipc_received)
    (hne : (packet_round_trip b p w).2.ipc_received ≠ p.num_bytes) :
    (xfer_packet b p t w).1 = - EIO
    ∧ (xfer_packet b p t w).2.mem = w.mem
    ∧ (xfer_packet b p t w).2.ipc_receive_buffer = none
    ∧ (xfer_packet b p t w).2.ipc_received = 0
    ∧ (∀ (q : mspi_xfer_packet) (t1 : Nat) (v : World), q.dir = MSPI_TX
        → xfer_packet b q t1 v = packet_round_trip b q v)
    ∧ (∀ (q : mspi_xfer_packet) (t1 : Nat) (v : World) (n : Nat) (buf : Option (List Nat)),
        q.dir = MSPI_TX
        → (xfer_packet b q t1 { v with ipc_received := n, ipc_receive_buffer := buf }).1
            = (xfer_packet b q t1 v).1
          ∧ SameButStaging
              (xfer_packet b q t1 { v with ipc_received := n, ipc_receive_buffer := buf }).2
              (xfer_packet b q t1 v).2) := by
  have hmem : (packet_round_trip b p w).2.mem = w.mem :=
    (send_data_spec b _ _ _ { w with buffers := w.buffers ++ [packet_len b p] }).2.1
  have hx : xfer_packet b p t w = consume_staging p (packet_round_trip b p w) := rfl
  have hc : consume_staging p (packet_round_trip b p w)
      = (- EIO, { (packet_round_trip b p w).2 with
          ipc_receive_buffer := none, ipc_received := 0,
          mismatches := (packet_round_trip b p w).2.mismatches
            ++ [(p.num_bytes, (packet_round_trip b p w).2.ipc_received)] }) := by
    unfold consume_staging
    rw [hbuf]
    simp only []
    rw [if_pos ⟨hd, hpos⟩, if_pos (Ne.symm hne)]
  rw [hx, hc]
  exact ⟨rfl, hmem, rfl, rfl, fun q t1 v hq => xfer_packet_send_dir b q t1 v hq,
    fun q t1 v n buf hq => same_xfer_packet_send_dir b q t1 _ v hq rfl⟩

/-- C3 at a receive packet of sixteen bytes that is answered with twelve. -/
theorem xfer_packet_length_mismatch_witness :
    (demo_rx16.dir = MSPI_RX
      ∧ (packet_round_trip demo_build demo_rx16 demo_world_rx12).2.ipc_receive_buffer
          = some [1, 2, 3, 4, 5, 6, 7, 8, 9, 10, 11, 12]
      ∧ (packet_round_trip demo_build demo_rx16 demo_world_rx12).2.ipc_received = 12
      ∧ demo_rx16.num_bytes = 16)
    ∧ (xfer_packet demo_build demo_rx16 10 demo_world_rx12).1 = - EIO
    ∧ (xfer_packet demo_build demo_rx16 10 demo_world_rx12).2.ipc_receive_buffer = none
    ∧ (xfer_packet demo_build demo_rx16 10 demo_world_rx12).2.ipc_received = 0 :=
  have h := xfer_packet_length_mismatch demo_build demo_rx16 10 demo_world_rx12
    [1, 2, 3, 4, 5, 6, 7, 8, 9, 10, 11, 12] rfl (by decide) (by decide) (by decide)
  ⟨⟨rfl, by decide, by decide, rfl⟩, h.1, h.2.2.1, h.2.2.2.1⟩

/-! ### C4 -/

/-- C4: a receive packet whose round trip succeeds and after which a buffer is
staged with exactly the packet's byte count (not 0) makes `xfer_packet` return
0; afterwards the first `num_bytes` bytes of the caller's buffer are the staged
bytes, the memory outside the buffer is as before, and the staging is cleared
to `(NULL, 0)`, so that a later packet whose round trip stages nothing new
copies nothing: for it `xfer_packet` is the bare round trip. -/
theorem xfer_packet_copies_staged (b : Build) (p : mspi_xfer_packet) (t : Nat) (w : World)
    (staged : List Nat) (hd : p.dir = MSPI_RX)
    (hrc : (packet_round_trip b p w).1 = 0)
    (hbuf : (packet_round_trip b p w).2.ipc_receive_buffer = some staged)
    (hpos : 0 < p.num_bytes)
    (heq : (packet_round_trip b p w).2.ipc_received = p.num_bytes) :
    (xfer_packet b p t w).1 = 0
    ∧ (∀ i, i < p.num_bytes → (xfer_packet b p t w).2.mem (p.data_buf + i) = staged.getD i 0)
    ∧ (staged.length = p.num_bytes
        → read_bytes (xfer_packet b p t w).2.mem p.data_buf p.num_bytes = staged)
    ∧ (∀ a, (a < p.data_buf ∨ p.data_buf + p.num_bytes ≤ a)
        → (xfer_packet b p t w).2.mem a = w.mem a)
    ∧ (xfer_packet b p t w).2.ipc_receive_buffer = none
    ∧ (xfer_packet b p t w).2.ipc_received = 0
    ∧ (∀ (q : mspi_xfer_packet) (t1 : Nat) (v : World),
        (packet_round_trip b q v).2.ipc_receive_buffer = none
        → xfer_packet b q t1 v = packet_round_trip b q v) := by
  have hmem : (packet_round_trip b p w).2.mem = w.mem :=
    (send_data_spec b _ _ _ { w with buffers := w.buffers ++ [packet_len b p] }).2.1
  have hx : xfer_packet b p t w = consume_staging p (packet_round_trip b p w) := rfl
  have hc : consume_staging p (packet_round_trip b p w)
      = ((packet_round_trip b p w).1, { (packet_round_trip b p w).2 with
          mem := memcpy_to (packet_round_trip b p w).2.mem p.data_buf staged
            (packet_round_trip b p w).2.ipc_received,
          ipc_receive_buffer := none, ipc_received := 0 }) := by
    unfold consume_staging
    rw [hbuf]
    simp only []
    rw [if_pos ⟨hd, by rw [heq]; exact hpos⟩, if_neg (by rw [heq]; simp)]
  rw [hx, hc]
  dsimp only
  rw [heq, hmem]
  refine ⟨hrc, ?_, ?_, ?_, rfl, rfl, ?_⟩
  · intro i hi
    simp [memcpy_to, hi]
  · intro hl
    exact read_bytes_memcpy_to _ _ _ _ hl
  · intro a ha
    have : ¬ (p.data_buf ≤ a ∧ a < p.data_buf + p.num_bytes) := by omega
    simp [memcpy_to, this]
  · intro q t1 v hq
    exact consume_staging_none q _ hq

/-- C4 at a receive packet of four bytes that is answered with four bytes. -/
theorem xfer_packet_copies_staged_witness :
    (demo_rx4.dir = MSPI_RX
      ∧ (packet_round_trip demo_build demo_rx4 demo_world_rx4).1 = 0
      ∧ (packet_round_trip demo_build demo_rx4 demo_world_rx4).2.ipc_receive_buffer
          = some [9, 8, 7, 6]
      ∧ (packet_round_trip demo_build demo_rx4 demo_world_rx4).2.ipc_received
          = demo_rx4.num_bytes)
    ∧ (xfer_packet demo_build demo_rx4 10 demo_world_rx4).1 = 0
    ∧ read_bytes (xfer_packet demo_build demo_rx4 10 demo_world_rx4).2.mem demo_rx4.data_buf
        demo_rx4.num_bytes = [9, 8, 7, 6]
    ∧ (xfer_packet demo_build demo_rx4 10 demo_world_rx4).2.ipc_receive_buffer = none :=
  have h := xfer_packet_copies_staged demo_build demo_rx4 10 demo_world_rx4 [9, 8, 7, 6] rfl
    (by decide) (by decide) (by decide) (by decide)
  ⟨⟨rfl, by decide, by decide, by decide⟩, h.1, h.2.2.1 rfl, h.2.2.2.2.1⟩

/-! ### C5 -/

/-- C5: `start_next_packet` returns `-EINVAL` without building or sending a
packet message exactly when the packet's byte count is at least
`MAX_TX_MSG_SIZE`: then the world is untouched, and otherwise the packet is
handed to `xfer_packet`, which calls the channel.  So a byte count of exactly
`MAX_TX_MSG_SIZE` is rejected and one of `MAX_TX_MSG_SIZE - 1` is accepted. -/
theorem start_next_packet_size_check (b : Build) (req : mspi_xfer) (i : Nat) (w : World) :
    (((start_next_packet b req i w).1 = -EINVAL ∧ (start_next_packet b req i w).2.calls = w.calls)
        ↔ b.MAX_TX_MSG_SIZE ≤ (packets_at req i).num_bytes)
    ∧ (b.MAX_TX_MSG_SIZE ≤ (packets_at req i).num_bytes
        → start_next_packet b req i w = (-EINVAL, w))
    ∧ ((packets_at req i).num_bytes < b.MAX_TX_MSG_SIZE
        → start_next_packet b req i w = xfer_packet b (packets_at req i) req.timeout w)
    ∧ ((packets_at req i).num_bytes = b.MAX_TX_MSG_SIZE
        → start_next_packet b req i w = (-EINVAL, w))
    ∧ ((packets_at req i).num_bytes + 1 = b.MAX_TX_MSG_SIZE
        → start_next_packet b req i w = xfer_packet b (packets_at req i) req.timeout w) := by
  have hrej : b.MAX_TX_MSG_SIZE ≤ (packets_at req i).num_bytes
      → start_next_packet b req i w = (-EINVAL, w) := by
    intro h
    rw [start_next_packet_eq, if_pos h]
  have hacc : (packets_at req i).num_bytes < b.MAX_TX_MSG_SIZE
      → start_next_packet b req i w = xfer_packet b (packets_at req i) req.timeout w := by
    intro h
    rw [start_next_packet_eq, if_neg (not_le.mpr h)]
  refine ⟨⟨?_, ?_⟩, hrej, hacc, fun h => hrej (le_of_eq h.symm), fun h => hacc (by omega)⟩
  · rintro ⟨_, hcalls⟩
    by_contra hlt
    rw [hacc (not_le.mp hlt)] at hcalls
    obtain ⟨_, _, _, _, _, _, l, hl, hne, _, _⟩ :=
      xfer_packet_spec b (packets_at req i) req.timeout w
    rw [hl] at hcalls
    exact calls_grow_ne _ _ hne hcalls
  · intro h
    rw [hrej h]
    exact ⟨rfl, rfl⟩

/-! ### C6 -/

/-- C6, as it stands, fails: an asynchronous request is answered with
`-ENOTSUP`, which is neither `-EINVAL` nor `-EFAULT`. -/
theorem transceive_async_not_einval_efault :
    demo_req_async.async = true
    ∧ ¬ ((api_transceive demo_build ⟨1⟩ demo_req_async idle_world).1 = -EINVAL
          ∨ (api_transceive demo_build ⟨1⟩ demo_req_async idle_world).1 = -EFAULT) := by
  decide

/-- C6, amended: a request that asks for an asynchronous transfer, or has no
packet, or has a timeout above `CONFIG_MSPI_COMPLETION_TIMEOUT_TOLERANCE`,
fails with `-ENOTSUP` when it is asynchronous and with `-EFAULT` otherwise;
the channel is not called and the world, with the stored transfer-config
message, is as before. -/
theorem transceive_rejects_up_front (b : Build) (dev_id : mspi_dev_id) (req : mspi_xfer)
    (w : World)
    (h : req.async = true ∨ req.num_packet = 0
      ∨ b.CONFIG_MSPI_COMPLETION_TIMEOUT_TOLERANCE < req.timeout) :
    (api_transceive b dev_id req w).1 = (if req.async then -ENOTSUP else -EFAULT)
    ∧ (api_transceive b dev_id req w).2.calls = w.calls
    ∧ (api_transceive b dev_id req w).2.dev_data.xfer_config_msg = w.dev_data.xfer_config_msg
    ∧ (api_transceive b dev_id req w).2 = w := by
  by_cases ha : req.async = true
  · rw [api_transceive_async b dev_id req w ha]
    simp [ha]
  · have ha2 : req.async = false := by simpa using ha
    have hf : req.num_packet = 0 ∨ req.packets = none
        ∨ b.CONFIG_MSPI_COMPLETION_TIMEOUT_TOLERANCE < req.timeout := by
      rcases h with h | h | h
      · exact absurd h ha
      · exact Or.inl h
      · exact Or.inr (Or.inr h)
    rw [api_transceive_fault b dev_id req w ha2 hf]
    simp [ha2]

/-- C6, amended, at an asynchronous request. -/
theorem transceive_rejects_up_front_witness :
    demo_req_async.async = true
    ∧ (api_transceive demo_build ⟨1⟩ demo_req_async idle_world).1 = -ENOTSUP
    ∧ (api_transceive demo_build ⟨1⟩ demo_req_async idle_world).2.calls = [] :=
  have h := transceive_rejects_up_front demo_build ⟨1⟩ demo_req_async idle_world (Or.inl rfl)
  ⟨rfl, h.1, h.2.1⟩

/-! ### C7 -/

/-- C7, as it stands, fails: the channel can itself report `-ENOTSUP` for the
`ConfigTransfer` message of a synchronous request, and `api_transceive`
passes that code on. -/
theorem transceive_enotsup_without_async :
    demo_req.async = false
    ∧ (api_transceive demo_build ⟨1⟩ demo_req { idle_world with chan := [⟨-ENOTSUP, 0⟩] }).1
        = -ENOTSUP := by
  decide

/-- C7, amended: an asynchronous request is answered with `-ENOTSUP` and
nothing else happens, whatever its packet list and timeout are, and
`-ENOTSUP` is returned with the channel not called only for an asynchronous
request; a request that is not asynchronous is answered with `-EFAULT`, the
channel not called, exactly when it has no packet, or a null packet pointer,
or a timeout above `CONFIG_MSPI_COMPLETION_TIMEOUT_TOLERANCE`; with a timeout
equal to the tolerance it goes on to hand the `ConfigTransfer` message to the
channel. -/
theorem transceive_up_front_codes (b : Build) (dev_id : mspi_dev_id) (req : mspi_xfer)
    (w : World) :
    (req.async = true → api_transceive b dev_id req w = (-ENOTSUP, w))
    ∧ (((api_transceive b dev_id req w).1 = -ENOTSUP
          ∧ (api_transceive b dev_id req w).2.calls = w.calls) ↔ req.async = true)
    ∧ (req.async = false →
        (((api_transceive b dev_id req w).1 = -EFAULT
            ∧ (api_transceive b dev_id req w).2.calls = w.calls)
          ↔ (req.num_packet = 0 ∨ req.packets = none
              ∨ b.CONFIG_MSPI_COMPLETION_TIMEOUT_TOLERANCE < req.timeout)))
    ∧ (req.async = false → req.num_packet ≠ 0 → req.packets ≠ none
        → req.timeout = b.CONFIG_MSPI_COMPLETION_TIMEOUT_TOLERANCE
        → ∃ c l, (api_transceive b dev_id req w).2.calls = w.calls ++ c :: l
            ∧ c.data = Msg.xfer_config (config_xfer_msg dev_id req)) := by
  have hgrow : req.async = false
      → ¬ (req.num_packet = 0 ∨ req.packets = none
            ∨ b.CONFIG_MSPI_COMPLETION_TIMEOUT_TOLERANCE < req.timeout)
      → (api_transceive b dev_id req w).2.calls ≠ w.calls := by
    intro ha hc
    obtain ⟨c, l, hl, _⟩ := api_transceive_calls b dev_id req w ha (fun h => hc (Or.inl h))
      (fun h => hc (Or.inr (Or.inl h))) (not_lt.mp (fun h => hc (Or.inr (Or.inr h))))
    rw [hl]
    exact calls_grow_ne _ _ (by simp)
  refine ⟨fun ha => api_transceive_async b dev_id req w ha, ⟨?_, ?_⟩, ?_, ?_⟩
  · rintro ⟨hrc, hcalls⟩
    by_contra ha
    have ha2 : req.async = false := by simpa using ha
    by_cases hc : req.num_packet = 0 ∨ req.packets = none
        ∨ b.CONFIG_MSPI_COMPLETION_TIMEOUT_TOLERANCE < req.timeout
    · rw [api_transceive_fault b dev_id req w ha2 hc] at hrc
      have hne : (-EFAULT : Int) ≠ -ENOTSUP := by decide
      exact hne hrc
    · exact hgrow ha2 hc hcalls
  · intro ha
    rw [api_transceive_async b dev_id req w ha]
    exact ⟨rfl, rfl⟩
  · intro ha
    constructor
    · rintro ⟨_, hcalls⟩
      by_contra hc
      exact hgrow ha hc hcalls
    · intro hc
      rw [api_transceive_fault b dev_id req w ha hc]
      exact ⟨rfl, rfl⟩
  · intro ha hn hp ht
    exact api_transceive_calls b dev_id req w ha hn hp (le_of_eq ht)

/-! ### C8 -/

/-- C8, as it stands, fails: the byte count of a packet is checked when the
packet's turn comes, after the `ConfigTransfer` round trip, so a request
rejected with `-EINVAL` for its first packet has already sent the
`ConfigTransfer` message and overwritten the stored one. -/
theorem transceive_size_check_after_config :
    demo_build.MAX_TX_MSG_SIZE ≤ (packets_at demo_req_big 0).num_bytes
    ∧ (api_transceive demo_build ⟨1⟩ demo_req_big demo_world_cfg).1 = -EINVAL
    ∧ sent (api_transceive demo_build ⟨1⟩ demo_req_big demo_world_cfg).2
        = [Msg.xfer_config (config_xfer_msg ⟨1⟩ demo_req_big)]
    ∧ (api_transceive demo_build ⟨1⟩ demo_req_big demo_world_cfg).2.dev_data.xfer_config_msg
        ≠ demo_world_cfg.dev_data.xfer_config_msg := by
  decide

/-- C8, amended: when `api_transceive` rejects packet `k` for its byte count,
after a successful `ConfigTransfer` round trip and the successful packets
before `k`, it returns `-EINVAL` in the world packet `k` found: nothing is
built or sent for packet `k` or a later packet, while the `ConfigTransfer`
message and the packets before `k` have been accepted by the channel and the
stored transfer-config message is the one of this request. -/
theorem transceive_size_check_per_packet (b : Build) (dev_id : mspi_dev_id) (req : mspi_xfer)
    (w : World) (ps : List mspi_xfer_packet) (k : Nat)
    (h_async : req.async = false) (h_ps : req.packets = some ps)
    (h_len : ps.length = req.num_packet)
    (h_to : req.timeout ≤ b.CONFIG_MSPI_COMPLETION_TIMEOUT_TOLERANCE)
    (hk : k < req.num_packet)
    (h_cfg : 0 ≤ (after_config b dev_id req w).1)
    (h_before : (before_packet b dev_id req w k).1 = 0)
    (h_size : b.MAX_TX_MSG_SIZE ≤ (packets_at req k).num_bytes) :
    api_transceive b dev_id req w = (-EINVAL, (before_packet b dev_id req w k).2)
    ∧ (api_transceive b dev_id req w).2.dev_data.xfer_config_msg = config_xfer_msg dev_id req
    ∧ (∃ l, sent (api_transceive b dev_id req w).2 = sent w ++ l
        ∧ l.map without_payload
            = Msg.xfer_config (config_xfer_msg dev_id req) :: (ps.take k).map packet_header)
    ∧ (api_transceive b dev_id req w).2.calls ≠ w.calls := by
  have hat : at_packet b dev_id req w k = (-EINVAL, (before_packet b dev_id req w k).2) := by
    unfold at_packet
    rw [start_next_packet_eq, if_pos h_size]
  have hstop := api_transceive_stops_at b dev_id req w k h_async (by rw [h_ps]; simp) h_to hk
    h_cfg h_before (by rw [hat]; show (-EINVAL : Int) < 0; decide)
  rw [hat] at hstop
  obtain ⟨hdev, hsent⟩ :=
    before_packet_ledger b dev_id req w ps k h_ps (by omega) h_cfg h_before
  refine ⟨hstop, ?_, ?_, ?_⟩
  · rw [hstop]; exact hdev
  · rw [hstop]; exact hsent
  · obtain ⟨c, l, hl, _⟩ := api_transceive_calls b dev_id req w h_async (by omega)
      (by rw [h_ps]; simp) h_to
    rw [hl]
    exact calls_grow_ne _ _ (by simp)

/-- C8, amended, at the request whose first packet is too large. -/
theorem transceive_size_check_per_packet_witness :
    (demo_req_big.async = false ∧ 0 < demo_req_big.num_packet
      ∧ 0 ≤ (after_config demo_build ⟨1⟩ demo_req_big demo_world_cfg).1
      ∧ (before_packet demo_build ⟨1⟩ demo_req_big demo_world_cfg 0).1 = 0
      ∧ demo_build.MAX_TX_MSG_SIZE ≤ (packets_at demo_req_big 0).num_bytes)
    ∧ api_transceive demo_build ⟨1⟩ demo_req_big demo_world_cfg
        = (-EINVAL, (before_packet demo_build ⟨1⟩ demo_req_big demo_world_cfg 0).2) :=
  ⟨⟨rfl, by decide, by decide, by decide, by decide⟩,
    (transceive_size_check_per_packet demo_build ⟨1⟩ demo_req_big demo_world_cfg _ 0 rfl rfl rfl
      (by decide) (by decide) (by decide) (by decide) (by decide)).1⟩

/-! ### C9 -/

/-- C9: `api_dev_config` calls the channel, with the `ConfigDevice` message,
exactly when every check that the mask asks for passes (memory boundary 0,
break time 0, frequency at most the controller's, I/O mode one of single,
quad, quad-1-1-4, quad-1-4-4, single data rate, DQS off); otherwise it leaves
the world alone and returns the code of the first failing check in that
order, `-EINVAL` for the frequency and `-ENOTSUP` for the others.  So a mask
with the memory-boundary bit and a configuration with a memory boundary give
`-ENOTSUP` and no call, whatever the other fields are. -/
theorem dev_config_sends_iff_checks_pass (b : Build) (drv_cfg : mspi_nrfe_config)
    (dev_id : mspi_dev_id) (param_mask : Nat) (cfg : mspi_dev_cfg) (w : World) :
    ((api_dev_config b drv_cfg dev_id param_mask cfg w).2.calls ≠ w.calls
        ↔ ∀ c ∈ dev_config_checks drv_cfg.mspicfg.max_freq cfg,
            mask_has param_mask c.bit = true → c.passes = true)
    ∧ ((∀ c ∈ dev_config_checks drv_cfg.mspicfg.max_freq cfg,
            mask_has param_mask c.bit = true → c.passes = true)
        → api_dev_config b drv_cfg dev_id param_mask cfg w
            = send_data b NRFE_MSPI_CONFIG_DEV (Msg.dev_config (dev_config_msg dev_id cfg))
                b.sizeof_dev_config_msg w
          ∧ ∃ c l, (api_dev_config b drv_cfg dev_id param_mask cfg w).2.calls = w.calls ++ c :: l
              ∧ ∀ x ∈ c :: l, x.data = Msg.dev_config (dev_config_msg dev_id cfg))
    ∧ (∀ c, first_failing_check param_mask (dev_config_checks drv_cfg.mspicfg.max_freq cfg)
              = some c
        → api_dev_config b drv_cfg dev_id param_mask cfg w = (c.code, w))
    ∧ (mask_has param_mask MSPI_DEVICE_CONFIG_MEM_BOUND = true → cfg.mem_boundary ≠ 0
        → api_dev_config b drv_cfg dev_id param_mask cfg w = (-ENOTSUP, w)) := by
  have hpass : (∀ c ∈ dev_config_checks drv_cfg.mspicfg.max_freq cfg,
        mask_has param_mask c.bit = true → c.passes = true)
      → api_dev_config b drv_cfg dev_id param_mask cfg w
          = send_data b NRFE_MSPI_CONFIG_DEV (Msg.dev_config (dev_config_msg dev_id cfg))
              b.sizeof_dev_config_msg w
        ∧ ∃ c l, (api_dev_config b drv_cfg dev_id param_mask cfg w).2.calls = w.calls ++ c :: l
            ∧ ∀ x ∈ c :: l, x.data = Msg.dev_config (dev_config_msg dev_id cfg) := by
    intro h
    have he : api_dev_config b drv_cfg dev_id param_mask cfg w
        = send_data b NRFE_MSPI_CONFIG_DEV (Msg.dev_config (dev_config_msg dev_id cfg))
            b.sizeof_dev_config_msg w := by
      rw [api_dev_config_eq, (first_failing_none_iff _ _).mpr h]
    refine ⟨he, ?_⟩
    rw [he]
    obtain ⟨_, _, _, _, _, _, l, hl, hne, hall, _⟩ :=
      send_data_spec b NRFE_MSPI_CONFIG_DEV (Msg.dev_config (dev_config_msg dev_id cfg))
        b.sizeof_dev_config_msg w
    cases l with
    | nil => exact absurd rfl hne
    | cons c l1 => exact ⟨c, l1, hl, hall⟩
  have hfail : ∀ c, first_failing_check param_mask
        (dev_config_checks drv_cfg.mspicfg.max_freq cfg) = some c
      → api_dev_config b drv_cfg dev_id param_mask cfg w = (c.code, w) := by
    intro c hc
    rw [api_dev_config_eq, hc]
  refine ⟨⟨?_, ?_⟩, hpass, hfail, ?_⟩
  · intro hcalls
    by_contra hnot
    cases hf : first_failing_check param_mask (dev_config_checks drv_cfg.mspicfg.max_freq cfg) with
    | none => exact hnot ((first_failing_none_iff _ _).mp hf)
    | some c =>
      rw [hfail c hf] at hcalls
      exact hcalls rfl
  · intro h
    obtain ⟨_, c, l, hl, _⟩ := hpass h
    rw [hl]
    exact calls_grow_ne _ _ (by simp)
  · intro hm hb
    have hf : first_failing_check param_mask (dev_config_checks drv_cfg.mspicfg.max_freq cfg)
        = some ⟨MSPI_DEVICE_CONFIG_MEM_BOUND, decide (cfg.mem_boundary = 0), -ENOTSUP⟩ := by
      unfold dev_config_checks
      rw [first_failing_cons, if_pos (by simp [hm, hb])]
    exact hfail _ hf

/-- C9 at a mask with the memory-boundary bit and a configuration with a memory boundary. -/
theorem dev_config_sends_iff_checks_pass_witness :
    (mask_has 16384 MSPI_DEVICE_CONFIG_MEM_BOUND = true ∧ demo_dev_cfg.mem_boundary ≠ 0)
    ∧ api_dev_config demo_build demo_drv_cfg ⟨1⟩ 16384 demo_dev_cfg idle_world
        = (-ENOTSUP, idle_world) :=
  ⟨⟨by decide, by decide⟩,
    (dev_config_sends_iff_checks_pass demo_build demo_drv_cfg ⟨1⟩ 16384 demo_dev_cfg
      idle_world).2.2.2 (by decide) (by decide)⟩

/-! ### C10 -/

/-- C10: a bus configuration whose mode is not the controller mode, or that
asks for DQS, or whose `max_freq` is above the controller's, or whose default
pin state has more than `NRFE_MSPI_PINS_MAX` pins, makes `api_config` return
`-ENOTSUP` without a call of the channel; a `max_freq` equal to the
controller's is not rejected, the pin message of the default state then goes
to the channel. -/
theorem config_rejects_unsupported (b : Build) (spec : mspi_dt_spec) (w : World) :
    ((spec.config.op_mode ≠ MSPI_OP_MODE_CONTROLLER ∨ spec.config.dqs_support = true
        ∨ spec.bus_config.mspicfg.max_freq < spec.config.max_freq
        ∨ (∃ st, first_default_state spec.bus_config.pcfg = some st
            ∧ b.NRFE_MSPI_PINS_MAX < st.pins.length))
      → (api_config b spec w).1 = -ENOTSUP ∧ (api_config b spec w).2.calls = w.calls)
    ∧ (∀ st, spec.config.op_mode = MSPI_OP_MODE_CONTROLLER → spec.config.dqs_support = false
        → spec.config.max_freq = spec.bus_config.mspicfg.max_freq
        → first_default_state spec.bus_config.pcfg = some st
        → st.pins.length ≤ b.NRFE_MSPI_PINS_MAX
        → ∃ c l, (api_config b spec w).2.calls = w.calls ++ c :: l
            ∧ c.data = Msg.pins ⟨NRFE_MSPI_CONFIG_PINS, fill_pins b st.pins⟩) := by
  have hfound : ∀ st, first_default_state spec.bus_config.pcfg = some st
      → states_at spec.bus_config.pcfg
          (find_default_state spec.bus_config.pcfg spec.bus_config.pcfg.state_cnt 0).1 = st := by
    intro st h
    apply find_default_state_found
    rw [List.drop_zero]
    exact h
  constructor
  · intro h
    unfold api_config
    dsimp only
    by_cases h1 : spec.config.op_mode ≠ MSPI_OP_MODE_CONTROLLER
    · rw [if_pos h1]; exact ⟨rfl, rfl⟩
    · rw [if_neg h1]
      by_cases h2 : spec.config.dqs_support = true
      · rw [if_pos h2]; exact ⟨rfl, rfl⟩
      · rw [if_neg h2]
        by_cases h3 : spec.bus_config.mspicfg.max_freq < spec.config.max_freq
        · rw [if_pos h3]; exact ⟨rfl, rfl⟩
        · rw [if_neg h3]
          rcases h with h | h | h | ⟨st, hst, hpins⟩
          · exact absurd h h1
          · exact absurd h h2
          · exact absurd h h3
          · rw [hfound st hst, if_pos hpins]
            exact ⟨rfl, rfl⟩
  · intro st h1 h2 h3 hst hpins
    have hid : st.id = PINCTRL_STATE_DEFAULT := by
      have := List.find?_some hst
      simpa using this
    unfold api_config
    dsimp only
    rw [if_neg (by rw [h1]; simp), if_neg (by rw [h2]; simp), if_neg (by rw [h3]; simp),
      hfound st hst, if_neg (not_lt.mpr hpins), if_neg (by rw [hid]; simp)]
    obtain ⟨_, _, _, _, _, _, l, hl, hne, hall, _⟩ :=
      send_data_spec b NRFE_MSPI_CONFIG_PINS
        (Msg.pins ⟨NRFE_MSPI_CONFIG_PINS, fill_pins b st.pins⟩) b.sizeof_pin_msg
        { w with state_reads := w.state_reads
            ++ (find_default_state spec.bus_config.pcfg spec.bus_config.pcfg.state_cnt 0).2
            ++ [(find_default_state spec.bus_config.pcfg spec.bus_config.pcfg.state_cnt 0).1] }
    cases l with
    | nil => exact absurd rfl hne
    | cons c l1 => exact ⟨c, l1, hl, hall c (List.mem_cons_self _ _)⟩

/-- C10 at a configuration that asks for DQS and at one with the frequency at the ceiling. -/
theorem config_rejects_unsupported_witness :
    (demo_spec_dqs.config.dqs_support = true
      ∧ (api_config demo_build demo_spec_dqs idle_world).1 = -ENOTSUP
      ∧ (api_config demo_build demo_spec_dqs idle_world).2.calls = idle_world.calls)
    ∧ (demo_spec.config.max_freq = demo_spec.bus_config.mspicfg.max_freq
      ∧ ∃ c l, (api_config demo_build demo_spec idle_world).2.calls = idle_world.calls ++ c :: l
          ∧ c.data = Msg.pins ⟨NRFE_MSPI_CONFIG_PINS, fill_pins demo_build [1, 2, 3, 4]⟩) :=
  ⟨⟨rfl, (config_rejects_unsupported demo_build demo_spec_dqs idle_world).1 (Or.inr (Or.inl rfl))⟩,
    ⟨rfl, (config_rejects_unsupported demo_build demo_spec idle_world).2 ⟨0, [1, 2, 3, 4]⟩
      rfl rfl rfl (by decide) (by decide)⟩⟩

/-! ### C11 -/

/-- C11: for a bus configuration in controller mode, without DQS and with
`max_freq` within the ceiling, whose default pin state has at most
`NRFE_MSPI_PINS_MAX` pins, over a channel that accepts the message and with
the `ConfigPins` response delivered within the response timeout,
`api_config` returns 0 and calls the channel exactly once; the call is
accepted and carries a message of opcode `NRFE_MSPI_CONFIG_PINS` whose first
pin entries are the pins of the default state, in their order. -/
theorem config_sends_default_pins (b : Build) (spec : mspi_dt_spec) (w : World)
    (st : pinctrl_state) (pre : List Batch) (e : Batch) (r : Resp) (rest : List Batch)
    (h_mode : spec.config.op_mode = MSPI_OP_MODE_CONTROLLER)
    (h_dqs : spec.config.dqs_support = false)
    (h_freq : spec.config.max_freq ≤ spec.bus_config.mspicfg.max_freq)
    (h_st : first_default_state spec.bus_config.pcfg = some st)
    (h_pins : st.pins.length ≤ b.NRFE_MSPI_PINS_MAX)
    (h_chan : accepts_next w = true)
    (h_in : w.inbox = pre ++ e :: rest) (h_t : arrives_within b IPC_TIMEOUT_MS pre e = true)
    (h_e : IpcEvent.received r ∈ e.arrivals) (h_r : r.opcode = NRFE_MSPI_CONFIG_PINS) :
    (api_config b spec w).1 = 0
    ∧ ∃ c m, (api_config b spec w).2.calls = w.calls ++ [c] ∧ 0 ≤ c.rc
        ∧ c.data = Msg.pins m ∧ m.opcode = NRFE_MSPI_CONFIG_PINS
        ∧ m.pin.take st.pins.length = st.pins.map some
        ∧ ∀ i (hi : i < st.pins.length), m.pin.getD i none = some (st.pins.get ⟨i, hi⟩) := by
  have hfound : states_at spec.bus_config.pcfg
      (find_default_state spec.bus_config.pcfg spec.bus_config.pcfg.state_cnt 0).1 = st := by
    apply find_default_state_found
    rw [List.drop_zero]
    exact h_st
  have hid : st.id = PINCTRL_STATE_DEFAULT := by
    have := List.find?_some h_st
    simpa using this
  unfold api_config
  dsimp only
  rw [if_neg (by rw [h_mode]; simp), if_neg (by rw [h_dqs]; simp), if_neg (not_lt.mpr h_freq),
    hfound, if_neg (not_lt.mpr h_pins), if_neg (by rw [hid]; simp)]
  obtain ⟨a1, c, a2, a3, a4⟩ := send_data_accepted_answered b NRFE_MSPI_CONFIG_PINS
    (Msg.pins ⟨NRFE_MSPI_CONFIG_PINS, fill_pins b st.pins⟩) b.sizeof_pin_msg
    { w with state_reads := w.state_reads
        ++ (find_default_state spec.bus_config.pcfg spec.bus_config.pcfg.state_cnt 0).2
        ++ [(find_default_state spec.bus_config.pcfg spec.bus_config.pcfg.state_cnt 0).1] }
    pre e rest h_chan h_in h_t
    ⟨IpcEvent.received r, h_e,
      signals_own_response b NRFE_MSPI_CONFIG_PINS r h_r (Or.inl rfl)⟩
  refine ⟨a1, c, ⟨NRFE_MSPI_CONFIG_PINS, fill_pins b st.pins⟩, a2, a3, a4, rfl, ?_, ?_⟩
  · show (fill_pins b st.pins).take st.pins.length = st.pins.map some
    unfold fill_pins
    rw [List.take_append_of_le_length (by simp), List.take_of_length_le (by simp)]
  · intro i hi
    show (fill_pins b st.pins).getD i none = some (st.pins.get ⟨i, hi⟩)
    unfold fill_pins
    rw [List.getD_eq_getElem?_getD, List.getElem?_append_left (by simpa using hi)]
    simp [hi]

/-- C11 at the controller of the examples, whose default state has the four pins 1, 2, 3, 4. -/
theorem config_sends_default_pins_witness :
    (api_config demo_build demo_spec { idle_world with inbox := [reply NRFE_MSPI_CONFIG_PINS] }).1
      = 0
    ∧ ∃ c m, (api_config demo_build demo_spec
          { idle_world with inbox := [reply NRFE_MSPI_CONFIG_PINS] }).2.calls
          = idle_world.calls ++ [c] ∧ 0 ≤ c.rc
        ∧ c.data = Msg.pins m ∧ m.opcode = NRFE_MSPI_CONFIG_PINS
        ∧ m.pin.take 4 = [some 1, some 2, some 3, some 4]
        ∧ ∀ i (hi : i < 4), m.pin.getD i none = some ([1, 2, 3, 4].get ⟨i, hi⟩) :=
  config_sends_default_pins demo_build demo_spec
    { idle_world with inbox := [reply NRFE_MSPI_CONFIG_PINS] } ⟨0, [1, 2, 3, 4]⟩ []
    (reply NRFE_MSPI_CONFIG_PINS) ⟨NRFE_MSPI_CONFIG_PINS, 1, []⟩ [] rfl rfl (by decide)
    (by decide) (by decide) rfl rfl (by decide) (by decide) rfl

/-! ### C12 -/

/-- C13 at a `ConfigDevice` response that came in while nobody waited, with
nothing delivered afterwards.  In the threaded build the round trip that
follows finds the semaphore of the class still available and returns 0; the
threadless build clears the bit before sending, and the round trip returns
`-ETIMEDOUT`. -/
theorem send_data_keeps_stale_semaphore :
    (latched demo_build NRFE_MSPI_CONFIG_DEV demo_world_late = true
      ∧ demo_world_late.inbox = []
      ∧ (send_data demo_build NRFE_MSPI_CONFIG_DEV
          (Msg.dev_config (dev_config_msg ⟨1⟩ demo_dev_cfg)) 16 demo_world_late).1 = 0)
    ∧ (latched demo_build_threadless NRFE_MSPI_CONFIG_DEV demo_world_late_threadless = true
      ∧ demo_world_late_threadless.inbox = []
      ∧ (send_data demo_build_threadless NRFE_MSPI_CONFIG_DEV
          (Msg.dev_config (dev_config_msg ⟨1⟩ demo_dev_cfg)) 16 demo_world_late_threadless).1
          = -ETIMEDOUT) := by
  decide

/-! ### C14 -/

/-- C14: on a channel that reports full for the calls `ds` and then gives a
result other than full, or has its script used up and accepts,
`mspi_ipc_data_send` returns that result after exactly `ds.length + 1` calls
of `ipc_service_send`, provided the deadline has not expired (the full calls
took at most `EP_SEND_TIMEOUT_MS` ms together; without a clock: at most 10
calls in all).  When the channel is still full at the deadline (without a
clock: at the 10th call; with a clock: at the first call after which more
than `EP_SEND_TIMEOUT_MS` ms have passed) the pipeline returns `-ENOMEM`
with that call.  Without a clock it never makes more than 10 calls. -/
theorem send_retries_while_full (b : Build) (opcode : nrfe_mspi_opcode_t) (data : Msg)
    (by_ref : Bool) (len : Nat) (w : World) (ds : List Nat) :
    (in_time b ds = true →
      (∀ e rest, w.chan = full_steps ds ++ e :: rest → e.rc ≠ -ENOMEM →
        (mspi_ipc_data_send b opcode data by_ref len w).1 = e.rc
        ∧ (mspi_ipc_data_send b opcode data by_ref len w).2.calls
            = w.calls ++ full_calls data by_ref len ds.length ++ [⟨data, by_ref, len, e.rc⟩]
        ∧ (mspi_ipc_data_send b opcode data by_ref len w).2.chan = rest)
      ∧ (w.chan = full_steps ds →
        (mspi_ipc_data_send b opcode data by_ref len w).1 = Int.ofNat len
        ∧ (mspi_ipc_data_send b opcode data by_ref len w).2.calls
            = w.calls ++ full_calls data by_ref len ds.length
                ++ [⟨data, by_ref, len, Int.ofNat len⟩]))
    ∧ (b.CONFIG_SYS_CLOCK_EXISTS = false → ds.length = EP_SEND_TIMEOUT_MS →
        ∀ rest, w.chan = full_steps ds ++ rest →
          (mspi_ipc_data_send b opcode data by_ref len w).1 = -ENOMEM
          ∧ (mspi_ipc_data_send b opcode data by_ref len w).2.calls
              = w.calls ++ full_calls data by_ref len EP_SEND_TIMEOUT_MS
          ∧ (mspi_ipc_data_send b opcode data by_ref len w).2.chan = rest)
    ∧ (b.CONFIG_SYS_CLOCK_EXISTS = true → ds.sum ≤ EP_SEND_TIMEOUT_MS →
        ∀ d rest, EP_SEND_TIMEOUT_MS < ds.sum + d → ds.sum + d < UINT32_MOD →
          w.chan = full_steps ds ++ ⟨-ENOMEM, d⟩ :: rest →
          (mspi_ipc_data_send b opcode data by_ref len w).1 = -ENOMEM
          ∧ (mspi_ipc_data_send b opcode data by_ref len w).2.calls
              = w.calls ++ full_calls data by_ref len (ds.length + 1)
          ∧ (mspi_ipc_data_send b opcode data by_ref len w).2.chan = rest)
    ∧ (b.CONFIG_SYS_CLOCK_EXISTS = false →
        (mspi_ipc_data_send b opcode data by_ref len w).2.calls.length
          ≤ w.calls.length + EP_SEND_TIMEOUT_MS) := by
  rw [mspi_ipc_data_send_eq]
  have hcalls : (if b.CONFIG_MULTITHREADING then w else atomic_clear_bit w opcode).calls
      = w.calls := by
    split_ifs <;> rfl
  have hup : (if b.CONFIG_MULTITHREADING then w else atomic_clear_bit w opcode).uptime
      = w.uptime + 0 := by
    split_ifs <;> rfl
  generalize (if b.CONFIG_MULTITHREADING then w else atomic_clear_bit w opcode) = w0
    at hcalls hup ⊢
  refine ⟨fun hin => ?_, ?_, ?_, ?_⟩
  · have hpre : ∀ tail, ∃ cnt1,
        mspi_ipc_data_send_loop b data by_ref len (w.uptime % UINT32_MOD) (full_steps ds ++ tail)
            EP_SEND_TIMEOUT_MS w0
          = mspi_ipc_data_send_loop b data by_ref len (w.uptime % UINT32_MOD) tail cnt1
              (after_fulls data by_ref len ds tail w0) := by
      intro tail
      obtain ⟨cnt1, _, h2⟩ := send_loop_fulls b data by_ref len w.uptime tail ds 0
        EP_SEND_TIMEOUT_MS w0 hup
        (fun hc => by
          have : ds.sum ≤ EP_SEND_TIMEOUT_MS := by simpa [in_time, hc] using hin
          omega)
        (fun hc => by
          have : ds.length + 1 ≤ EP_SEND_TIMEOUT_MS := by simpa [in_time, hc] using hin
          simp only [EP_SEND_TIMEOUT_MS, UINT32_MOD] at this ⊢
          omega)
      exact ⟨cnt1, h2⟩
    constructor
    · intro e rest hch hne
      obtain ⟨cnt1, h⟩ := hpre (e :: rest)
      rw [hch, h, send_loop_other b data by_ref len _ e rest cnt1 _ hne]
      refine ⟨rfl, ?_, rfl⟩
      simp [after_fulls, hcalls]
    · intro hch
      obtain ⟨cnt1, h⟩ := hpre []
      rw [hch, ← List.append_nil (full_steps ds), h, mspi_ipc_data_send_loop]
      refine ⟨rfl, ?_⟩
      simp [ipc_service_send, after_fulls, hcalls]
  · intro hc hlen rest hch
    rw [hch, send_loop_exhausts b data by_ref len _ hc rest ds EP_SEND_TIMEOUT_MS w0
      (by decide) hlen (by decide)]
    refine ⟨rfl, ?_, rfl⟩
    simp [after_fulls, hcalls, hlen]
  · intro hc hsum d rest hd hlt hch
    obtain ⟨cnt1, _, h⟩ := send_loop_fulls b data by_ref len w.uptime (⟨-ENOMEM, d⟩ :: rest) ds 0
      EP_SEND_TIMEOUT_MS w0 hup (fun _ => by omega) (fun h => by rw [hc] at h; cases h)
    rw [hch, h, send_loop_full_stop b data by_ref len _ d rest cnt1 _ (by
      rw [hc]
      have hu : (after_fulls data by_ref len ds (⟨-ENOMEM, d⟩ :: rest) w0).uptime
          = w.uptime + ds.sum := by
        simp [after_fulls, hup]
      rw [hu, Nat.add_assoc, sub_u32_elapsed, Nat.mod_eq_of_lt hlt]
      simpa using hd)]
    refine ⟨rfl, ?_, rfl⟩
    simp [after_fulls, full_calls, hcalls, List.replicate_succ', List.append_assoc]
  · intro hc
    have := send_loop_bound b data by_ref len (w.uptime % UINT32_MOD) hc w.chan
      EP_SEND_TIMEOUT_MS w0 (by decide) (by decide)
    rw [hcalls] at this
    exact this

/-- C14 at a channel that is full twice and then takes the message, and at one that stays full. -/
theorem send_retries_while_full_witness :
    ((mspi_ipc_data_send demo_build NRFE_MSPI_TX demo_msg false 18
        { idle_world with chan := full_steps [1, 2] ++ [⟨18, 0⟩] }).1 = 18
      ∧ (mspi_ipc_data_send demo_build NRFE_MSPI_TX demo_msg false 18
          { idle_world with chan := full_steps [1, 2] ++ [⟨18, 0⟩] }).2.calls
        = [⟨demo_msg, false, 18, -ENOMEM⟩, ⟨demo_msg, false, 18, -ENOMEM⟩,
            ⟨demo_msg, false, 18, 18⟩])
    ∧ ((mspi_ipc_data_send demo_build NRFE_MSPI_TX demo_msg false 18
        { idle_world with chan := full_steps [1, 2] ++ [⟨-ENOMEM, 8⟩, ⟨18, 0⟩] }).1 = -ENOMEM
      ∧ (mspi_ipc_data_send demo_build NRFE_MSPI_TX demo_msg false 18
          { idle_world with chan := full_steps [1, 2] ++ [⟨-ENOMEM, 8⟩, ⟨18, 0⟩] }).2.calls
        = full_calls demo_msg false 18 3) :=
  ⟨⟨(((send_retries_while_full demo_build NRFE_MSPI_TX demo_msg false 18
        { idle_world with chan := full_steps [1, 2] ++ [⟨18, 0⟩] } [1, 2]).1 (by decide)).1
        ⟨18, 0⟩ [] rfl (by decide)).1,
      (((send_retries_while_full demo_build NRFE_MSPI_TX demo_msg false 18
        { idle_world with chan := full_steps [1, 2] ++ [⟨18, 0⟩] } [1, 2]).1 (by decide)).1
        ⟨18, 0⟩ [] rfl (by decide)).2.1⟩,
    ⟨((send_retries_while_full demo_build NRFE_MSPI_TX demo_msg false 18
        { idle_world with chan := full_steps [1, 2] ++ [⟨-ENOMEM, 8⟩, ⟨18, 0⟩] } [1, 2]).2.2.1
        rfl (by decide) 8 [⟨18, 0⟩] (by decide) (by decide) rfl).1,
      ((send_retries_while_full demo_build NRFE_MSPI_TX demo_msg false 18
        { idle_world with chan := full_steps [1, 2] ++ [⟨-ENOMEM, 8⟩, ⟨18, 0⟩] } [1, 2]).2.2.1
        rfl (by decide) 8 [⟨18, 0⟩] (by decide) (by decide) rfl).2.1⟩⟩

/-! ### C15 -/

/-- C15, as it stands, fails in the threaded build for an opcode outside the wait-classes:
with no semaphore available, no bit set and nothing delivered, a wait for
`NRFE_MSPI_SDP_APP_HARD_FAULT` returns 0. -/
theorem wait_succeeds_without_class :
    idle_world.inbox = []
    ∧ idle_world.ipc_sem = 0 ∧ idle_world.ipc_sem_cfg = 0 ∧ idle_world.ipc_sem_xfer = 0
    ∧ idle_world.ipc_atomic_sem = []
    ∧ (nrfe_mspi_wait_for_response demo_build NRFE_MSPI_SDP_APP_HARD_FAULT 100 idle_world).1
        = 0 := by
  decide

/-- C15, amended: for an opcode that has a wait-class (`ConfigTimerPointer`,
`ConfigPins`, `ConfigDevice`, `ConfigTransfer`, `Send`, `SendReceive`), a
wait that finds no signal latched and during which no callback of that class
comes in returns `-ETIMEDOUT`; so callbacks of one class, however many,
never make a wait for an opcode of another class return 0.  In the threaded
build a wait for any other opcode returns 0 at once. -/
theorem wait_success_needs_signal (b : Build) (opcode : nrfe_mspi_opcode_t) (timeout : Nat)
    (w : World) :
    (∀ s, wait_class opcode = some s → latched b opcode w = false →
      (∀ e ∈ w.inbox, ∀ ev ∈ e.arrivals, event_class ev ≠ some s) →
      (nrfe_mspi_wait_for_response b opcode timeout w).1 = -ETIMEDOUT)
    ∧ (∀ s s1, wait_class opcode = some s → s1 ≠ s → latched b opcode w = false →
      (∀ e ∈ w.inbox, ∀ ev ∈ e.arrivals, event_class ev = some s1) →
      (nrfe_mspi_wait_for_response b opcode timeout w).1 = -ETIMEDOUT)
    ∧ (b.CONFIG_MULTITHREADING = true → wait_class opcode = none →
      nrfe_mspi_wait_for_response b opcode timeout w
        = (0, { w with waits := w.waits ++ [(opcode, timeout)] })) := by
  have key : ∀ s, wait_class opcode = some s → latched b opcode w = false →
      (∀ e ∈ w.inbox, ∀ ev ∈ e.arrivals, event_class ev ≠ some s) →
      (nrfe_mspi_wait_for_response b opcode timeout w).1 = -ETIMEDOUT := by
    intro s hs hl hev
    apply wait_times_out b opcode timeout w (fun _ => by rw [hs]; simp) hl
    intro e he ev hin
    exact signals_other_class b opcode ev s hs (hev e he ev hin)
  refine ⟨key, ?_, fun hb hs => wait_threaded_none b opcode timeout w hb hs⟩
  intro s s1 hs hne hl hev
  apply key s hs hl
  intro e he ev hin
  rw [hev e he ev hin]
  intro h
  exact hne (Option.some.inj h)

/-- C15, amended, at a wait for `Send` during which the three kinds of configuration responses come in. -/
theorem wait_success_needs_signal_witness :
    (nrfe_mspi_wait_for_response demo_build NRFE_MSPI_TX 100
      { idle_world with
        inbox := [reply NRFE_MSPI_CONFIG_PINS, reply NRFE_MSPI_CONFIG_DEV,
          reply NRFE_MSPI_CONFIG_XFER] }).1 = -ETIMEDOUT :=
  (wait_success_needs_signal demo_build NRFE_MSPI_TX 100
    { idle_world with
      inbox := [reply NRFE_MSPI_CONFIG_PINS, reply NRFE_MSPI_CONFIG_DEV,
        reply NRFE_MSPI_CONFIG_XFER] }).2.1 Sem.ipc_sem_xfer Sem.ipc_sem_cfg rfl (by decide)
    (by decide) (by decide)

/-! ### C16 -/

/-- C16: in the zero-copy build `xfer_packet` declares one buffer for the
message of the packet, of a length `len`, and makes its round trip with a
message and this length that depend on the packet and the caller's memory
only.  For a buffer address that is not a multiple of 4 the length of the
buffer is the header size plus `num_bytes` (in `uint32_t`), and the data
reference points at the copy of the caller's `num_bytes` bytes embedded after
the header; for a multiple of 4 the length of the buffer is the header size
and the data reference is the caller's buffer address.  Every call of the
channel that `xfer_packet` makes carries this message. -/
theorem zero_copy_packet_message (b : Build) (p : mspi_xfer_packet) (t : Nat) (w : World)
    (h : b.CONFIG_MSPI_NRFE_IPC_NO_COPY = true) :
    ∃ m len,
      xfer_packet b p t w
        = consume_staging p (send_data b (packet_opcode p) (Msg.xfer_packet m) len
            { w with buffers := w.buffers ++ [len] })
      ∧ (xfer_packet b p t w).2.buffers = w.buffers ++ [len]
      ∧ m.opcode = packet_opcode p ∧ m.command = p.cmd ∧ m.address = p.address
      ∧ m.num_bytes = p.num_bytes
      ∧ (p.data_buf % 4 ≠ 0 →
          len = (b.sizeof_xfer_packet_msg + p.num_bytes) % UINT32_MOD
          ∧ (b.sizeof_xfer_packet_msg + p.num_bytes < UINT32_MOD
              → len = b.sizeof_xfer_packet_msg + p.num_bytes)
          ∧ (xfer_packet b p t w).2.buffers
              = w.buffers ++ [(b.sizeof_xfer_packet_msg + p.num_bytes) % UINT32_MOD]
          ∧ m.data = packet_data.embedded_copy
              ((List.range p.num_bytes).map (fun i => w.mem (p.data_buf + i))))
      ∧ (p.data_buf % 4 = 0 →
          len = b.sizeof_xfer_packet_msg
          ∧ (xfer_packet b p t w).2.buffers = w.buffers ++ [b.sizeof_xfer_packet_msg]
          ∧ m.data = packet_data.caller_buffer p.data_buf)
      ∧ ∃ l, (xfer_packet b p t w).2.calls = w.calls ++ l ∧ l ≠ []
          ∧ ∀ c ∈ l, c.data = Msg.xfer_packet m := by
  have hmod : p.data_buf % UINT32_MOD % 4 = p.data_buf % 4 := by
    unfold UINT32_MOD
    omega
  have hbuf := buffers_xfer_packet b p t w
  obtain ⟨_, _, _, _, _, _, l, hl, hne, hall, _⟩ := xfer_packet_spec b p t w
  refine ⟨packet_msg b p w.mem, packet_len b p, xfer_packet_eq b p t w, hbuf, rfl, rfl, rfl,
    rfl, ?_, ?_, l, hl, hne, hall⟩
  · intro hmis
    have hlen : packet_len b p = (b.sizeof_xfer_packet_msg + p.num_bytes) % UINT32_MOD := by
      simp [packet_len, h, hmod, hmis]
    refine ⟨hlen, fun hfit => by rw [hlen, Nat.mod_eq_of_lt hfit], by rw [hbuf, hlen], ?_⟩
    simp [packet_msg, h, hmod, hmis, read_bytes]
  · intro hal
    have hlen : packet_len b p = b.sizeof_xfer_packet_msg := by
      simp [packet_len, h, hmod, hal]
    refine ⟨hlen, by rw [hbuf, hlen], ?_⟩
    simp [packet_msg, h, hmod, hal]

/-- C16 at a two-byte packet whose buffer lies at the odd address 101, and at
the same packet with its buffer at the address 100. -/
theorem zero_copy_packet_message_witness :
    (∃ m len,
      xfer_packet demo_build_zero_copy ⟨MSPI_TX, 6, 0, 2, 101⟩ 10 idle_world
        = consume_staging ⟨MSPI_TX, 6, 0, 2, 101⟩
            (send_data demo_build_zero_copy NRFE_MSPI_TX (Msg.xfer_packet m) len
              { idle_world with buffers := idle_world.buffers ++ [len] })
      ∧ (xfer_packet demo_build_zero_copy ⟨MSPI_TX, 6, 0, 2, 101⟩ 10 idle_world).2.buffers
          = [len]
      ∧ len = 18 ∧ m.data = packet_data.embedded_copy [0, 0])
    ∧ (xfer_packet demo_build_zero_copy ⟨MSPI_TX, 6, 0, 2, 100⟩ 10 idle_world).2.buffers
        = [16] := by
  obtain ⟨m, len, h1, h2, _, _, _, _, h3, _, _⟩ :=
    zero_copy_packet_message demo_build_zero_copy ⟨MSPI_TX, 6, 0, 2, 101⟩ 10 idle_world rfl
  obtain ⟨_, _, _, _, _, _, _, _, _, h4, _⟩ :=
    zero_copy_packet_message demo_build_zero_copy ⟨MSPI_TX, 6, 0, 2, 100⟩ 10 idle_world rfl
  exact ⟨⟨m, len, h1, h2, (h3 (by decide)).2.1 (by decide), (h3 (by decide)).2.2.2⟩,
    (h4 (by decide)).2.1⟩

/-! ### C17 -/

/-- C17, as it stands, fails in the threadless build, where a signal is latched per opcode
and not per class: after a `ConfigPins` response that came in while nobody
waited, a wait for `ConfigDevice`, of the same class, times out. -/
theorem wait_other_opcode_of_class_times_out :
    wait_class NRFE_MSPI_CONFIG_DEV = wait_class NRFE_MSPI_CONFIG_PINS
    ∧ demo_world_pins_bit.ipc_atomic_sem = [NRFE_MSPI_CONFIG_PINS]
    ∧ (nrfe_mspi_wait_for_response demo_build_threadless NRFE_MSPI_CONFIG_DEV 100
        demo_world_pins_bit).1 = -ETIMEDOUT := by
  decide

/-- C17, amended: callbacks that come in while no wait is outstanding, one of
which at least signals the latch of an opcode (in the threaded build: gives
the semaphore of its class; in the threadless build: sets the bit of this
very opcode), leave one signal latched.  The next wait for the opcode
returns 0 without letting a delivery in and takes the signal: a second wait
during which no callback signals the opcode times out, however many signals
came before the first. -/
theorem latched_signal_taken_once (b : Build) (opcode : nrfe_mspi_opcode_t) (t1 t2 : Nat)
    (w : World) (evs : List IpcEvent)
    (hsig : ∃ ev ∈ evs, signals b opcode ev = true)
    (hw : ∀ s, sem_count w s ≤ 1)
    (hno : no_signal_for b opcode w.inbox) :
    latched b opcode (deliver b evs w) = true
    ∧ (nrfe_mspi_wait_for_response b opcode t1 (deliver b evs w)).1 = 0
    ∧ (nrfe_mspi_wait_for_response b opcode t1 (deliver b evs w)).2.inbox = w.inbox
    ∧ (nrfe_mspi_wait_for_response b opcode t2
        (nrfe_mspi_wait_for_response b opcode t1 (deliver b evs w)).2).1 = -ETIMEDOUT := by
  obtain ⟨ev, hev, hs⟩ := hsig
  have hclass : b.CONFIG_MULTITHREADING = true → wait_class opcode ≠ none := by
    intro hb hnone
    simp [signals, hb, hnone] at hs
  have hlat : latched b opcode (deliver b evs w) = true := by
    cases hb : b.CONFIG_MULTITHREADING
    · have : signalled_bit b ev = some opcode := by simpa [signals, hb] using hs
      simpa [latched, hb] using deliver_sets_bit b evs opcode w hb ⟨ev, hev, this⟩
    · cases hc : wait_class opcode with
      | none => exact absurd hc (hclass hb)
      | some s =>
        have : signalled_sem b ev = some s := by simpa [signals, hb, hc] using hs
        simpa [latched, hb, hc] using deliver_gives b evs s w hb ⟨ev, hev, this⟩
  obtain ⟨a1, a2, a3⟩ := wait_latched b opcode t1 (deliver b evs w) hlat
  refine ⟨hlat, a1, a2.trans (inbox_deliver b evs w), ?_⟩
  apply wait_times_out b opcode t2 _ hclass
  · exact a3 (fun s => deliver_sem_le b evs s w (hw s))
  · rw [a2, inbox_deliver]
    exact hno

/-- C17, amended, at three `Send` responses that come in before a wait for `SendReceive`. -/
theorem latched_signal_taken_once_witness :
    (nrfe_mspi_wait_for_response demo_build NRFE_MSPI_TXRX 100
        (deliver demo_build (List.replicate 3 (IpcEvent.received ⟨NRFE_MSPI_TX, 1, []⟩))
          idle_world)).1 = 0
    ∧ (nrfe_mspi_wait_for_response demo_build NRFE_MSPI_TXRX 100
        (nrfe_mspi_wait_for_response demo_build NRFE_MSPI_TXRX 100
          (deliver demo_build (List.replicate 3 (IpcEvent.received ⟨NRFE_MSPI_TX, 1, []⟩))
            idle_world)).2).1 = -ETIMEDOUT :=
  ⟨(latched_signal_taken_once demo_build NRFE_MSPI_TXRX 100 100 idle_world
      (List.replicate 3 (IpcEvent.received ⟨NRFE_MSPI_TX, 1, []⟩))
      ⟨IpcEvent.received ⟨NRFE_MSPI_TX, 1, []⟩, by decide, by decide⟩
      (fun s => by cases s <;> decide) (fun e he => absurd he (List.not_mem_nil e))).2.1,
    (latched_signal_taken_once demo_build NRFE_MSPI_TXRX 100 100 idle_world
      (List.replicate 3 (IpcEvent.received ⟨NRFE_MSPI_TX, 1, []⟩))
      ⟨IpcEvent.received ⟨NRFE_MSPI_TX, 1, []⟩, by decide, by decide⟩
      (fun s => by cases s <;> decide) (fun e he => absurd he (List.not_mem_nil e))).2.2.2⟩

/-! ### C18 -/

/-- C18 at a receive packet whose send fails with `-ENOMEM` while four bytes
of an earlier response are still staged: `xfer_packet` returns `-ENOMEM`, but
it has copied the staged bytes into the caller's buffer and cleared the
staging; and for a packet of sixteen bytes it returns `-EIO` in place of the
round trip's `-ENOMEM`. -/
theorem xfer_packet_consumes_after_failure :
    (packet_round_trip demo_build demo_rx4 demo_world_stale_rx).1 = -ENOMEM
    ∧ staging (packet_round_trip demo_build demo_rx4 demo_world_stale_rx).2
        = (some [9, 8, 7, 6], 4)
    ∧ (xfer_packet demo_build demo_rx4 10 demo_world_stale_rx).1 = -ENOMEM
    ∧ read_bytes demo_world_stale_rx.mem 200 4 = [0, 0, 0, 0]
    ∧ read_bytes (xfer_packet demo_build demo_rx4 10 demo_world_stale_rx).2.mem 200 4
        = [9, 8, 7, 6]
    ∧ staging (xfer_packet demo_build demo_rx4 10 demo_world_stale_rx).2 = (none, 0)
    ∧ (packet_round_trip demo_build demo_rx16 demo_world_stale_rx).1 = -ENOMEM
    ∧ (xfer_packet demo_build demo_rx16 10 demo_world_stale_rx).1 = - EIO := by
  decide

/-! ### C19 -/

/-- C19: for a send packet, and for a receive packet after whose round trip
the staged pointer is `NULL` or the staged length is 0, `xfer_packet` is its
round trip and nothing more: it returns the result of the round trip, the
caller's memory is as before the call, and the staging is as the round trip
left it; that is as before the call, when no callback wrote the staging
during the round trip. -/
theorem xfer_packet_without_staging (b : Build) (p : mspi_xfer_packet) (t : Nat) (w : World)
    (h : p.dir = MSPI_TX ∨ (packet_round_trip b p w).2.ipc_receive_buffer = none
      ∨ (packet_round_trip b p w).2.ipc_received = 0) :
    xfer_packet b p t w = packet_round_trip b p w
    ∧ (xfer_packet b p t w).1 = (packet_round_trip b p w).1
    ∧ (xfer_packet b p t w).2.mem = w.mem
    ∧ staging (xfer_packet b p t w).2 = staging (packet_round_trip b p w).2
    ∧ ((∀ e ∈ w.inbox, ∀ ev ∈ e.arrivals, restages ev = false) →
        staging (xfer_packet b p t w).2 = staging w) := by
  have heq : xfer_packet b p t w = packet_round_trip b p w := by
    rcases h with h | h | h
    · exact xfer_packet_send_dir b p t w h
    · rw [xfer_packet_eq]
      exact consume_staging_none p _ h
    · rw [xfer_packet_eq]
      unfold consume_staging
      have h0 : (send_data b (packet_opcode p) (Msg.xfer_packet (packet_msg b p w.mem))
          (packet_len b p) { w with buffers := w.buffers ++ [packet_len b p] }).2.ipc_received
            = 0 := h
      split
      · rw [if_neg (by rw [h0]; simp)]
        rfl
      · rfl
  obtain ⟨_, hm, _⟩ := send_data_spec b (packet_opcode p)
    (Msg.xfer_packet (packet_msg b p w.mem)) (packet_len b p)
    { w with buffers := w.buffers ++ [packet_len b p] }
  rw [heq]
  exact ⟨rfl, rfl, hm, rfl, fun hq => staging_send_data b _ _ _
    { w with buffers := w.buffers ++ [packet_len b p] } hq⟩

/-- C19 at a send packet and at a receive packet whose response never comes. -/
theorem xfer_packet_without_staging_witness :
    xfer_packet demo_build ⟨MSPI_TX, 6, 0, 2, 100⟩ 10 idle_world
      = packet_round_trip demo_build ⟨MSPI_TX, 6, 0, 2, 100⟩ idle_world
    ∧ (xfer_packet demo_build demo_rx4 10 idle_world).1
      = (packet_round_trip demo_build demo_rx4 idle_world).1
    ∧ staging (xfer_packet demo_build demo_rx4 10 idle_world).2 = staging idle_world :=
  ⟨(xfer_packet_without_staging demo_build ⟨MSPI_TX, 6, 0, 2, 100⟩ 10 idle_world
      (Or.inl rfl)).1,
    (xfer_packet_without_staging demo_build demo_rx4 10 idle_world
      (Or.inr (Or.inl (by decide)))).2.1,
    (xfer_packet_without_staging demo_build demo_rx4 10 idle_world
      (Or.inr (Or.inl (by decide)))).2.2.2.2 (fun e he => absurd he (List.not_mem_nil e))⟩

/-! ### C20 -/

/-- C20: `ep_recv` writes the staging exactly for a message with opcode
`NRFE_MSPI_TXRX` and `len > 0`: the staged length becomes
`len - sizeof(nrfe_mspi_opcode_t)` in `size_t`, which is the difference
proper when `len` is not below the size of the opcode, and the staged pointer
refers to the data of the response.  For every other message the staged
pointer and the staged length stay as they were.  `ep_bound` sets the staged
length to 0 and leaves the staged pointer. -/
theorem ep_recv_staging (b : Build) (r : Resp) (w : World) :
    (r.opcode = NRFE_MSPI_TXRX ∧ 0 < r.len →
      (ep_recv b r w).ipc_received = sub_u32 r.len b.sizeof_opcode
      ∧ (b.sizeof_opcode ≤ r.len → r.len < UINT32_MOD →
          (ep_recv b r w).ipc_received = r.len - b.sizeof_opcode)
      ∧ (ep_recv b r w).ipc_receive_buffer = some r.data)
    ∧ (¬ (r.opcode = NRFE_MSPI_TXRX ∧ 0 < r.len) →
      (ep_recv b r w).ipc_received = w.ipc_received
      ∧ (ep_recv b r w).ipc_receive_buffer = w.ipc_receive_buffer)
    ∧ (ep_bound b w).ipc_received = 0
    ∧ (ep_bound b w).ipc_receive_buffer = w.ipc_receive_buffer := by
  refine ⟨?_, ?_, ?_, ?_⟩
  · rintro ⟨hop, hlen⟩
    have hst : staging (ep_recv b r w) = (some r.data, sub_u32 r.len b.sizeof_opcode) := by
      unfold ep_recv
      rw [hop]
      simp only [if_pos hlen]
      rw [staging_give_or_set]
      rfl
    have h1 : (ep_recv b r w).ipc_received = sub_u32 r.len b.sizeof_opcode :=
      congrArg Prod.snd hst
    refine ⟨h1, fun hle hlt => ?_, congrArg Prod.fst hst⟩
    rw [h1]
    unfold sub_u32
    unfold UINT32_MOD at hlt ⊢
    omega
  · intro hno
    have hst := staging_ep_recv b r w hno
    exact ⟨congrArg Prod.snd hst, congrArg Prod.fst hst⟩
  · have hst : staging (ep_bound b w) = (w.ipc_receive_buffer, 0) := by
      unfold ep_bound
      rw [staging_give_or_set]
      rfl
    exact congrArg Prod.snd hst
  · have hst : staging (ep_bound b w) = (w.ipc_receive_buffer, 0) := by
      unfold ep_bound
      rw [staging_give_or_set]
      rfl
    exact congrArg Prod.fst hst

/-- C20 at a `SendReceive` response of five bytes and at a `Send` response. -/
theorem ep_recv_staging_witness :
    ((ep_recv demo_build ⟨NRFE_MSPI_TXRX, 5, [9, 8, 7, 6]⟩ idle_world).ipc_received = 4
      ∧ (ep_recv demo_build ⟨NRFE_MSPI_TXRX, 5, [9, 8, 7, 6]⟩ idle_world).ipc_receive_buffer
        = some [9, 8, 7, 6])
    ∧ ((ep_recv demo_build ⟨NRFE_MSPI_TX, 5, [9, 8, 7, 6]⟩ demo_world_stale_rx).ipc_received = 4
      ∧ (ep_recv demo_build ⟨NRFE_MSPI_TX, 5, [9, 8, 7, 6]⟩
          demo_world_stale_rx).ipc_receive_buffer = some [9, 8, 7, 6]) :=
  ⟨⟨((ep_recv_staging demo_build ⟨NRFE_MSPI_TXRX, 5, [9, 8, 7, 6]⟩ idle_world).1
        ⟨rfl, by decide⟩).2.1 (by decide) (by decide),
      ((ep_recv_staging demo_build ⟨NRFE_MSPI_TXRX, 5, [9, 8, 7, 6]⟩ idle_world).1
        ⟨rfl, by decide⟩).2.2⟩,
    (ep_recv_staging demo_build ⟨NRFE_MSPI_TX, 5, [9, 8, 7, 6]⟩ demo_world_stale_rx).2.1
      (by decide)⟩

/-! ### C21 -/

/-- C21 at a controller whose only pin state is the sleep state, so that no
state below `state_cnt = 1` has the default id: `api_config` reads the array
at index 1, behind its last state, and as the memory there reads as a state
with id 0 and two pins, it sends a `ConfigPins` message with those pins and
returns 0. -/
theorem api_config_reads_behind_states :
    first_default_state demo_drv_cfg_sleep_only.pcfg = none
    ∧ demo_drv_cfg_sleep_only.pcfg.state_cnt = 1
    ∧ (api_config demo_build demo_spec_sleep_only demo_world_pins).2.state_reads = [0, 1]
    ∧ (api_config demo_build demo_spec_sleep_only demo_world_pins).1 = 0
    ∧ sent (api_config demo_build demo_spec_sleep_only demo_world_pins).2
        = [Msg.pins ⟨NRFE_MSPI_CONFIG_PINS, [some 5, some 6, none, none, none, none]⟩] := by
  decide

/-! ### C22 -/

/-- C22, as it stands, fails: with a mask that asks for the data rate only, a
configuration with 128 MHz, above the controller's 64 MHz, and an octal I/O
mode passes the checks, and both reach the coprocessor in the `ConfigDevice`
message. -/
theorem dev_config_sends_unchecked_fields :
    (api_dev_config demo_build demo_drv_cfg ⟨1⟩ MSPI_DEVICE_CONFIG_DATA_RATE demo_dev_cfg_octal
      demo_world_dev).1 = 0
    ∧ sent (api_dev_config demo_build demo_drv_cfg ⟨1⟩ MSPI_DEVICE_CONFIG_DATA_RATE
        demo_dev_cfg_octal demo_world_dev).2
      = [Msg.dev_config ⟨NRFE_MSPI_CONFIG_DEV, 1, ⟨MSPI_IO_MODE_OCTAL, 0, 0, 128000000, 0⟩⟩]
    ∧ ¬ (128000000 ≤ demo_drv_cfg.mspicfg.max_freq)
    ∧ supported_io_mode MSPI_IO_MODE_OCTAL = false := by
  decide

/-- C22, amended: for a mask and a device configuration that pass the checks
of `api_dev_config`, every call of the channel that it makes, and it makes
one at least, carries a message with opcode `NRFE_MSPI_CONFIG_DEV`, the
caller's device index, and `io_mode`, `cpp`, `ce_polarity`, `freq` and
`ce_num` of the configuration, whatever the mask is.  The frequency in it is
at most the controller's `max_freq` when the mask has the frequency bit, and
the I/O mode is one of single, quad, quad-1-1-4 and quad-1-4-4 when the mask
has the I/O mode bit. -/
theorem dev_config_message_fields (b : Build) (drv_cfg : mspi_nrfe_config)
    (dev_id : mspi_dev_id) (param_mask : Nat) (cfg : mspi_dev_cfg) (w : World)
    (hpass : ∀ c ∈ dev_config_checks drv_cfg.mspicfg.max_freq cfg,
      mask_has param_mask c.bit = true → c.passes = true) :
    ∃ c l, (api_dev_config b drv_cfg dev_id param_mask cfg w).2.calls = w.calls ++ c :: l
      ∧ ∀ x ∈ c :: l, ∃ m, x.data = Msg.dev_config m
          ∧ m.opcode = NRFE_MSPI_CONFIG_DEV ∧ m.device_index = dev_id.dev_idx
          ∧ m.dev_config.io_mode = cfg.io_mode ∧ m.dev_config.cpp = cfg.cpp
          ∧ m.dev_config.ce_polarity = cfg.ce_polarity ∧ m.dev_config.freq = cfg.freq
          ∧ m.dev_config.ce_index = cfg.ce_num
          ∧ (mask_has param_mask MSPI_DEVICE_CONFIG_FREQUENCY = true
              → m.dev_config.freq ≤ drv_cfg.mspicfg.max_freq)
          ∧ (mask_has param_mask MSPI_DEVICE_CONFIG_IO_MODE = true
              → m.dev_config.io_mode = MSPI_IO_MODE_SINGLE
                ∨ m.dev_config.io_mode = MSPI_IO_MODE_QUAD
                ∨ m.dev_config.io_mode = MSPI_IO_MODE_QUAD_1_1_4
                ∨ m.dev_config.io_mode = MSPI_IO_MODE_QUAD_1_4_4) := by
  have hnone := (first_failing_none_iff param_mask
    (dev_config_checks drv_cfg.mspicfg.max_freq cfg)).mpr hpass
  have hfreq : mask_has param_mask MSPI_DEVICE_CONFIG_FREQUENCY = true
      → cfg.freq ≤ drv_cfg.mspicfg.max_freq := by
    intro hm
    have := hpass ⟨MSPI_DEVICE_CONFIG_FREQUENCY, decide (cfg.freq ≤ drv_cfg.mspicfg.max_freq),
      -EINVAL⟩ (by simp [dev_config_checks]) hm
    simpa using this
  have hio : mask_has param_mask MSPI_DEVICE_CONFIG_IO_MODE = true
      → cfg.io_mode = MSPI_IO_MODE_SINGLE ∨ cfg.io_mode = MSPI_IO_MODE_QUAD
        ∨ cfg.io_mode = MSPI_IO_MODE_QUAD_1_1_4 ∨ cfg.io_mode = MSPI_IO_MODE_QUAD_1_4_4 := by
    intro hm
    have := hpass ⟨MSPI_DEVICE_CONFIG_IO_MODE, supported_io_mode cfg.io_mode, -ENOTSUP⟩
      (by simp [dev_config_checks]) hm
    simpa [supported_io_mode] using this
  rw [api_dev_config_eq, hnone]
  obtain ⟨_, _, _, _, _, _, l, hl, hne, hall, _⟩ :=
    send_data_spec b NRFE_MSPI_CONFIG_DEV (Msg.dev_config (dev_config_msg dev_id cfg))
      b.sizeof_dev_config_msg w
  cases l with
  | nil => exact absurd rfl hne
  | cons c l1 =>
    refine ⟨c, l1, hl, fun x hx => ⟨dev_config_msg dev_id cfg, hall x hx, rfl, rfl, rfl, rfl,
      rfl, rfl, rfl, hfreq, hio⟩⟩

/-- C22, amended, at a mask with the frequency and the I/O mode bit and a quad configuration of 8 MHz. -/
theorem dev_config_message_fields_witness :
    ∃ c l, (api_dev_config demo_build demo_drv_cfg ⟨1⟩ 6 demo_dev_cfg idle_world).2.calls
        = idle_world.calls ++ c :: l
      ∧ ∀ x ∈ c :: l, ∃ m, x.data = Msg.dev_config m
          ∧ m.opcode = NRFE_MSPI_CONFIG_DEV ∧ m.device_index = 1
          ∧ m.dev_config.io_mode = MSPI_IO_MODE_QUAD ∧ m.dev_config.freq = 8000000
          ∧ m.dev_config.freq ≤ 64000000 := by
  obtain ⟨c, l, h1, h2⟩ := dev_config_message_fields demo_build demo_drv_cfg ⟨1⟩ 6 demo_dev_cfg
    idle_world (by decide)
  refine ⟨c, l, h1, fun x hx => ?_⟩
  obtain ⟨m, a1, a2, a3, a4, _, _, a7, _, a9, _⟩ := h2 x hx
  exact ⟨m, a1, a2, a3, a4, a7, a9 (by decide)⟩

/-! ### C23 -/

/-- C23: two transfer requests that differ in their timeout only, both within
`CONFIG_MSPI_COMPLETION_TIMEOUT_TOLERANCE`, make `api_transceive` return the
same result and leave the same world, from the same world: the same calls of
the channel, the same waits, the same memory; and every wait of the call has
the timeout `IPC_TIMEOUT_MS`, which is 100. -/
theorem transceive_ignores_timeout (b : Build) (dev_id : mspi_dev_id) (req : mspi_xfer)
    (t : Nat) (w : World)
    (h1 : req.timeout ≤ b.CONFIG_MSPI_COMPLETION_TIMEOUT_TOLERANCE)
    (h2 : t ≤ b.CONFIG_MSPI_COMPLETION_TIMEOUT_TOLERANCE) :
    api_transceive b dev_id { req with timeout := t } w = api_transceive b dev_id req w
    ∧ sent (api_transceive b dev_id { req with timeout := t } w).2
        = sent (api_transceive b dev_id req w).2
    ∧ (api_transceive b dev_id { req with timeout := t } w).2.waits
        = (api_transceive b dev_id req w).2.waits
    ∧ (∃ l, (api_transceive b dev_id req w).2.waits = w.waits ++ l
        ∧ ∀ x ∈ l, x.2 = IPC_TIMEOUT_MS)
    ∧ IPC_TIMEOUT_MS = 100 := by
  have heq : api_transceive b dev_id { req with timeout := t } w
      = api_transceive b dev_id req w := by
    by_cases ha : req.async = true
    · exact (api_transceive_async b dev_id { req with timeout := t } w ha).trans
        (api_transceive_async b dev_id req w ha).symm
    · have ha1 : req.async = false := by simpa using ha
      by_cases hn : req.num_packet = 0
      · simp [api_transceive, ha1, hn]
      · by_cases hp : req.packets = none
        · simp [api_transceive, ha1, hp]
        · have e1 := api_transceive_run b dev_id req w ha1 hn hp h1
          have e2 := api_transceive_run b dev_id { req with timeout := t } w ha1 hn hp h2
          rw [e1, e2]
          dsimp only
          rw [transceive_loop_timeout]
          rfl
  refine ⟨heq, ?_, ?_, waits_api_transceive b dev_id req w, rfl⟩
  · rw [heq]
  · rw [heq]

/-- C23 at the two-packet transfer of the examples, with a timeout of 500 ms in place of 10 ms. -/
theorem transceive_ignores_timeout_witness :
    api_transceive demo_build ⟨1⟩ { demo_req2 with timeout := 500 } demo_world2
      = api_transceive demo_build ⟨1⟩ demo_req2 demo_world2 :=
  (transceive_ignores_timeout demo_build ⟨1⟩ demo_req2 500 demo_world2 (by decide)
    (by decide)).1

end MspiNrfe
